import Mathlib

/-!
# kube-ovn: VPC route reconciliation and ACL compilation

A shallow embedding of the route diff, the VPC formatting, the VPC handlers and
the queue workers of `pkg/controller/vpc.go`, of the ACL builders, lookups and
filters of `pkg/ovs` and of the load-balancer functions of
`pkg/ovs/ovn-nb-load_balancer.go`, with the properties the specification states
about them.

Conventions of the embedding.

* Go strings are Lean `String`s, `fmt.Sprintf` with `%s` is concatenation and
  `%d` is the decimal rendering `Itoa`.
* Slices of pointers to records are lists of records; a Go `nil` slice and an
  empty slice are both `[]`, except for the declared policy routes of a VPC,
  which the code tests against `nil`: they are an `Option` of a list.
* Go integers are Lean `Int`s without a bound: the only arithmetic in scope is
  one subtraction from a small constant; the conversion to `int32` is explicit
  (`toInt32`).
* A handler of the controller is a function from its collaborators (`Env`: the
  API server, the listers, the OVN client, with answers that may depend on the
  operations issued so far) to the way it ends (`Outcome`: a returned error or
  nil, or a panic) and the list of the operations it issues, in order.
* The pass `handleAddOrUpdateVpc` is modelled twice: with the handlers
  `handleAddVpcExternal` and `handleDelVpcExternal` as single calls
  (`handleAddOrUpdateVpc`), and with their bodies in place of the calls
  (`handleAddOrUpdateVpcExpanded`), which shows the operations they issue, their
  own status patch among them; `handleAddOrUpdateVpcExpanded_head` relates the
  two.
* The functions on load balancers take the database client as a record of
  answers (`NbClient`) and the rows of the table; a mutating function returns
  the rows it leaves, the transactions it sent and its error.
* A Go `map[string]V` is an association list with pairwise distinct keys. Go
  leaves the iteration order of a map unspecified; the embedding iterates in
  insertion order, and every statement about a list produced by such an
  iteration is phrased through membership or emptiness, which no reordering
  changes.
-/

namespace KubeOvn

/-! ## Data model (`pkg/apis/kubeovn/v1`) -/

/-- Modelled from the spec: the constant `kubeovnv1.PolicyDst` (destination-based
routing policy) is declared in the API package, which is not part of the sources. -/
def PolicyDst : String := "policyDst"

/-- Modelled from the spec: the constant `kubeovnv1.PolicySrc` (source-based
routing policy) is declared in the API package, which is not part of the sources. -/
def PolicySrc : String := "policySrc"

/-- Modelled from the spec: the constant `kubeovnv1.PolicyRouteActionReroute`
(the action `reroute` of the spec) is declared in the API package. -/
def PolicyRouteActionReroute : String := "reroute"

/-- Modelled from the spec: the action `allow` of a policy route (the constant
`kubeovnv1.PolicyRouteActionAllow` of the API package). -/
def PolicyRouteActionAllow : String := "allow"

/-- Modelled from the spec: the action `drop` of a policy route (the constant
`kubeovnv1.PolicyRouteActionDrop` of the API package). -/
def PolicyRouteActionDrop : String := "drop"

/-- Characters of IP literals: hexadecimal digits, `.` and `:`. -/
def isIPChar (c : Char) : Bool :=
  c.isDigit || (decide ('a' ≤ c) && decide (c ≤ 'f')) || (decide ('A' ≤ c) && decide (c ≤ 'F'))
    || c == '.' || c == ':'

/-- The record `kubeovnv1.StaticRoute` as `vpc.go` uses it; `Policy` has the Go
type `RoutePolicy`, a string type. -/
structure StaticRoute where
  Policy : String
  CIDR : String
  NextHopIP : String
  deriving DecidableEq, Repr

/-- The record `kubeovnv1.PolicyRoute` as `vpc.go` uses it; `Priority` is an
`int32`, `Action` has the Go type `PolicyRouteAction`, a string type. -/
structure PolicyRoute where
  Priority : Int
  Match : String
  Action : String
  NextHopIP : String
  deriving DecidableEq, Repr

/-! ## Decimal rendering (`%d`, `strconv.Itoa`) and parsing (`strconv.Atoi`) -/

/-- The decimal digit character of a digit value below ten. -/
def digitChar (d : Nat) : Char := Char.ofNat (48 + d)

/-- Digits of `n`, most significant first, pushed in front of `acc`; `fuel`
bounds the number of digits. -/
def natDigits : Nat → Nat → List Char → List Char
  | 0, _, acc => acc
  | fuel + 1, n, acc =>
    if n < 10 then digitChar n :: acc
    else natDigits fuel (n / 10) (digitChar (n % 10) :: acc)

/-- Decimal rendering of a natural number. -/
def natToDec (n : Nat) : List Char := natDigits (n + 1) n []

/-- The Go rendering of an integer by `%d` and by `strconv.Itoa`. -/
def Itoa (i : Int) : String :=
  match i with
  | Int.ofNat n => String.mk (natToDec n)
  | Int.negSucc n => String.mk ('-' :: natToDec (n + 1))

/-- Value of a decimal digit character. -/
def digitVal (c : Char) : Nat := c.toNat - 48

/-- Digits-only parse with accumulator; `none` on a character that is no digit. -/
def parseDigits : List Char → Nat → Option Nat
  | [], acc => some acc
  | c :: cs, acc => if c.isDigit then parseDigits cs (acc * 10 + digitVal c) else none

/-- The Go function `strconv.Atoi` on integers of any size: an optional sign
followed by one or more decimal digits. -/
def Atoi (s : String) : Option Int :=
  match s.data with
  | [] => none
  | c :: cs =>
    if c = '-' then
      if cs = [] then none else (parseDigits cs 0).map (fun n => -(n : Int))
    else if c = '+' then
      if cs = [] then none else (parseDigits cs 0).map (fun n => (n : Int))
    else (parseDigits (c :: cs) 0).map (fun n => (n : Int))

/-! ## Route diffing (`vpc.go`, `diffStaticRoute`, `diffPolicyRoute`) -/

/-- The function `getPolicyRouteItemKey`: `fmt.Sprintf("%d:%s:%s:%s", ...)`. -/
def getPolicyRouteItemKey (item : PolicyRoute) : String :=
  Itoa item.Priority ++ ":" ++ item.Match ++ ":" ++ item.Action ++ ":" ++ item.NextHopIP

/-- The function `getStaticRouteItemKey`. -/
def getStaticRouteItemKey (item : StaticRoute) : String :=
  if item.Policy = PolicyDst then
    "dst:" ++ item.CIDR ++ "=>" ++ item.NextHopIP
  else
    "src:" ++ item.CIDR ++ "=>" ++ item.NextHopIP

/-- Go map assignment `m[k] = v`: overwrite the entry of `k`, or add one. -/
def mapSet {α : Type} (m : List (String × α)) (k : String) (v : α) : List (String × α) :=
  if m.any (fun e => e.1 == k) then
    m.map (fun e => if e.1 = k then (k, v) else e)
  else
    m ++ [(k, v)]

/-- Go map lookup `_, ok := m[k]`. -/
def mapHas {α : Type} (m : List (String × α)) (k : String) : Bool :=
  m.any (fun e => e.1 == k)

/-- Go `delete(m, k)`. -/
def mapDelete {α : Type} (m : List (String × α)) (k : String) : List (String × α) :=
  m.filter (fun e => !(e.1 == k))

/-- First loop of both diff functions: `existRouteMap[key(item)] = item` for
every existing route. -/
def buildRouteMap {α : Type} (key : α → String) (exist : List α) : List (String × α) :=
  exist.foldl (fun m item => mapSet m (key item) item) []

/-- The first loop, started from any map. -/
def buildFrom {α : Type} (key : α → String) (m : List (String × α)) (exist : List α) :
    List (String × α) :=
  exist.foldl (fun m item => mapSet m (key item) item) m

/-- Second loop of both diff functions, from the state (`existRouteMap`,
`routeNeedAdd`): a target whose key is in the map is removed from the map, any
other target is appended to `routeNeedAdd`. -/
def diffTargets {α : Type} (key : α → String) :
    List α → List (String × α) × List α → List (String × α) × List α
  | [], st => st
  | item :: rest, (m, add) =>
    if mapHas m (key item) then
      diffTargets key rest (mapDelete m (key item), add)
    else
      diffTargets key rest (m, add ++ [item])

/-- The common body of `diffStaticRoute` and `diffPolicyRoute`; the third
component is the `err` result, which no path assigns. -/
def diffRoutes {α : Type} (key : α → String) (exist target : List α) :
    List α × List α × Option String :=
  let st := diffTargets key target (buildRouteMap key exist, [])
  (st.1.map Prod.snd, st.2, none)

/-- The function `diffStaticRoute`: `(routeNeedDel, routeNeedAdd, err)`. -/
def diffStaticRoute (exist target : List StaticRoute) :
    List StaticRoute × List StaticRoute × Option String :=
  diffRoutes getStaticRouteItemKey exist target

/-- The function `diffPolicyRoute`: `(routeNeedDel, routeNeedAdd, err)`. -/
def diffPolicyRoute (exist target : List PolicyRoute) :
    List PolicyRoute × List PolicyRoute × Option String :=
  diffRoutes getPolicyRouteItemKey exist target

/-- The state the convergence property speaks of: `exist` without every route
whose identity key is the key of a route of `del`, followed by the routes of
`add`. -/
def applyPolicyRouteDiff (exist del add : List PolicyRoute) : List PolicyRoute :=
  exist.filter (fun r => decide (getPolicyRouteItemKey r ∉ del.map getPolicyRouteItemKey))
    ++ add

/-! ## VPC formatting (`vpc.go`, `formatVpc`) -/

/-- The parts of `kubeovnv1.Vpc` that `formatVpc` reads or writes. -/
structure Vpc where
  Name : String
  StaticRoutes : List StaticRoute
  PolicyRoutes : List PolicyRoute
  deriving DecidableEq, Repr

/-- The errors `formatVpc` returns, one constructor per `return` statement; the
argument is the text the message quotes (for `updateFailed`, the error of the
API server). -/
inductive FormatError where
  | unknownPolicy (policy : String)
  | invalidCIDR (cidr : String)
  | invalidIP (cidr : String)
  | invalidNextHop (nextHop : String)
  | badNextHop (nextHop : String)
  | updateFailed (cause : String)
  deriving DecidableEq, Repr

/-- Outcome of a call of `formatVpc`: the VPC object as the call leaves it (it is
mutated in place), the `Update` requests sent to the API server, and the
returned error. -/
structure FormatResult where
  vpc : Vpc
  updates : List Vpc
  err : Option FormatError
  deriving DecidableEq, Repr

/-- The policy assignment at the head of the static-route loop body. -/
def defaultPolicy (item : StaticRoute) : StaticRoute :=
  if item.Policy = "" then { item with Policy := PolicyDst } else item

/-- The checks of the static-route loop body, in source order, on an item whose
policy has been defaulted. `ParseIP s` tells whether `net.ParseIP(s)` is
non-nil, `ParseCIDR s` whether `net.ParseCIDR(s)` succeeds. -/
def checkStaticRoute (ParseIP ParseCIDR : String → Bool) (item : StaticRoute) :
    Option FormatError :=
  if item.Policy ≠ PolicyDst ∧ item.Policy ≠ PolicySrc then
    some (FormatError.unknownPolicy item.Policy)
  else if '/' ∈ item.CIDR.data ∧ ParseCIDR item.CIDR = false then
    some (FormatError.invalidCIDR item.CIDR)
  else if '/' ∉ item.CIDR.data ∧ ParseIP item.CIDR = false then
    some (FormatError.invalidIP item.CIDR)
  else if ParseIP item.NextHopIP = false then
    some (FormatError.invalidNextHop item.NextHopIP)
  else none

/-- The static-route loop of `formatVpc` from the flag `changed`: the routes as
the loop leaves them, the flag, and the error of the first failing check. The
loop stops at the first error, so the routes behind it stay as they were. -/
def formatStaticRoutes (ParseIP ParseCIDR : String → Bool) :
    List StaticRoute → Bool → List StaticRoute × Bool × Option FormatError
  | [], changed => ([], changed, none)
  | item :: rest, changed =>
    let changed1 := changed || decide (item.Policy = "")
    match checkStaticRoute ParseIP ParseCIDR (defaultPolicy item) with
    | some e => (defaultPolicy item :: rest, changed1, some e)
    | none =>
      let r := formatStaticRoutes ParseIP ParseCIDR rest changed1
      (defaultPolicy item :: r.1, r.2.1, r.2.2)

/-- The assignment `route.NextHopIP = ""` of the policy-route loop: applied to a
route that is not a reroute (to one whose next hop is empty it changes nothing). -/
def clearNextHop (route : PolicyRoute) : PolicyRoute :=
  if route.Action ≠ PolicyRouteActionReroute then { route with NextHopIP := "" } else route

/-- The policy-route loop of `formatVpc` from the flag `changed`. -/
def formatPolicyRoutes (ParseIP : String → Bool) :
    List PolicyRoute → Bool → List PolicyRoute × Bool × Option FormatError
  | [], changed => ([], changed, none)
  | route :: rest, changed =>
    if route.Action ≠ PolicyRouteActionReroute then
      if route.NextHopIP ≠ "" then
        let r := formatPolicyRoutes ParseIP rest true
        ({ route with NextHopIP := "" } :: r.1, r.2.1, r.2.2)
      else
        let r := formatPolicyRoutes ParseIP rest changed
        (route :: r.1, r.2.1, r.2.2)
    else if ParseIP route.NextHopIP = false then
      (route :: rest, changed, some (FormatError.badNextHop route.NextHopIP))
    else
      let r := formatPolicyRoutes ParseIP rest changed
      (route :: r.1, r.2.1, r.2.2)

/-- The function `formatVpc`. `Update v` is the answer of the API server to the
request `Vpcs().Update(v)`: `none` on success, the error otherwise. -/
def formatVpc (ParseIP ParseCIDR : String → Bool) (Update : Vpc → Option String)
    (vpc : Vpc) : FormatResult :=
  let s := formatStaticRoutes ParseIP ParseCIDR vpc.StaticRoutes false
  let vpc1 : Vpc := { vpc with StaticRoutes := s.1 }
  match s.2.2 with
  | some e => ⟨vpc1, [], some e⟩
  | none =>
    let p := formatPolicyRoutes ParseIP vpc.PolicyRoutes s.2.1
    let vpc2 : Vpc := { vpc1 with PolicyRoutes := p.1 }
    match p.2.2 with
    | some e => ⟨vpc2, [], some e⟩
    | none =>
      if p.2.1 then
        match Update vpc2 with
        | some e => ⟨vpc2, [vpc2], some (FormatError.updateFailed e)⟩
        | none => ⟨vpc2, [vpc2], none⟩
      else ⟨vpc2, [], none⟩

/-- A static route that `formatVpc` is specified to reject: a non-empty policy
other than the two constants, a CIDR with `/` that is no CIDR, a CIDR without `/`
that is no IP, or a next hop that is no IP. -/
def staticRouteRejected (ParseIP ParseCIDR : String → Bool) (r : StaticRoute) : Prop :=
  (r.Policy ≠ "" ∧ r.Policy ≠ PolicyDst ∧ r.Policy ≠ PolicySrc) ∨
  ('/' ∈ r.CIDR.data ∧ ParseCIDR r.CIDR = false) ∨
  ('/' ∉ r.CIDR.data ∧ ParseIP r.CIDR = false) ∨
  ParseIP r.NextHopIP = false

/-- A policy route that `formatVpc` is specified to reject: action `reroute` with
a next hop that is no IP. -/
def policyRouteRejected (ParseIP : String → Bool) (p : PolicyRoute) : Prop :=
  p.Action = PolicyRouteActionReroute ∧ ParseIP p.NextHopIP = false

/-- The specified validation failure of a VPC. -/
def vpcRejected (ParseIP ParseCIDR : String → Bool) (vpc : Vpc) : Prop :=
  (∃ r ∈ vpc.StaticRoutes, staticRouteRejected ParseIP ParseCIDR r) ∨
  (∃ p ∈ vpc.PolicyRoutes, policyRouteRejected ParseIP p)

/-- The specified occasion for a normalization: a static route with an empty
policy, or a policy route that is not a reroute and has a next hop. -/
def vpcNeedsNormalization (vpc : Vpc) : Prop :=
  (∃ r ∈ vpc.StaticRoutes, r.Policy = "") ∨
  (∃ p ∈ vpc.PolicyRoutes, p.Action ≠ PolicyRouteActionReroute ∧ p.NextHopIP ≠ "")

/-- A stand-in for `net.ParseIP` in worked instances: it accepts two addresses. -/
def sampleParseIP (s : String) : Bool := s == "10.0.0.1" || s == "10.0.0.2"

/-- A stand-in for `net.ParseCIDR` in worked instances: it accepts one prefix. -/
def sampleParseCIDR (s : String) : Bool := s == "10.0.0.0/24"

/-- An API server that accepts every update. -/
def sampleUpdate (_ : Vpc) : Option String := none

/-- A VPC with a static route to normalize and a reroute whose next hop is no IP. -/
def sampleVpcBad : Vpc :=
  ⟨"vpc1", [⟨"", "10.0.0.0/24", "10.0.0.1"⟩],
    [⟨10, "ip4.src == 10.0.0.0/24", "reroute", "gateway"⟩]⟩

/-- A VPC that passes every check and needs both normalizations. -/
def sampleVpcGood : Vpc :=
  ⟨"vpc1", [⟨"", "10.0.0.0/24", "10.0.0.1"⟩],
    [⟨10, "ip4.src == 10.0.0.0/24", "allow", "10.0.0.2"⟩, ⟨20, "ip4", "reroute", "10.0.0.1"⟩]⟩

/-! ## ACL compilation (`pkg/ovs`, `ovn-nb-acl.go` and its tests) -/

/-- Modelled from the spec: the direction of an ACL towards the ports of its
parent (`ovnnb.ACLDirectionToLport`; the spec's to-target direction). -/
def ACLDirectionToLport : String := "to-lport"

/-- Modelled from the spec: the direction of an ACL from the ports of its parent
(`ovnnb.ACLDirectionFromLport`; the spec's from-target direction). -/
def ACLDirectionFromLport : String := "from-lport"

/-- Modelled from the spec: the ACL action `allow-related` (`ovnnb.ACLActionAllowRelated`). -/
def ACLActionAllowRelated : String := "allow-related"

/-- Modelled from the spec: the ACL action `drop` (`ovnnb.ACLActionDrop`). -/
def ACLActionDrop : String := "drop"

/-- Modelled from the spec: the external-id key under which an ACL carries the
name of its parent (the unexported constant `aclParentKey` of `pkg/ovs`). -/
def aclParentKey : String := "parent"

/-- Modelled from the spec: the highest security-group priority
(`util.SecurityGroupHighestPriority`, a string constant the callers parse with
`strconv.Atoi`; the spec gives its value as 2300). -/
def SecurityGroupHighestPriority : String := "2300"

/-- The fields of `ovnnb.ACL` the compilers fill; the generated `UUID` is left out. -/
structure ACL where
  Action : String
  Direction : String
  Match : String
  Priority : Int
  ExternalIDs : List (String × String)
  deriving DecidableEq, Repr

/-- The helper `newAcl` of `ovn-nb-acl_test.go`, without options: the priority
string is parsed with `strconv.Atoi`, whose error is dropped (the value is then 0). -/
def newAcl (parentName direction priority aclMatch action : String) : ACL :=
  { Action := action
    Direction := direction
    Match := aclMatch
    Priority := (Atoi priority).getD 0
    ExternalIDs := [(aclParentKey, parentName)] }

/-- IP version of a rule or of an address set. -/
inductive IPVersion where
  | v4
  | v6
  deriving DecidableEq, Repr

/-- The protocol token `ip4` or `ip6`. -/
def IPVersion.ipSuffix : IPVersion → String
  | IPVersion.v4 => "ip4"
  | IPVersion.v6 => "ip6"

/-- Remote type of a security-group rule: a CIDR or address, or a referenced
security group. -/
inductive SgRemoteType where
  | address
  | securityGroup
  deriving DecidableEq, Repr

/-- Protocol of a security-group rule. -/
inductive SgProtocol where
  | all
  | icmp
  | tcp
  | udp
  deriving DecidableEq, Repr

/-- Policy of a security-group rule. -/
inductive SgPolicy where
  | allow
  | drop
  deriving DecidableEq, Repr

/-- The record `kubeovnv1.SgRule` with the fields the spec lists. -/
structure SgRule where
  IPVersion : IPVersion
  RemoteType : SgRemoteType
  RemoteAddress : String
  RemoteSecurityGroup : String
  Protocol : SgProtocol
  Priority : Int
  Policy : SgPolicy
  PortRangeMin : Int
  PortRangeMax : Int
  deriving DecidableEq, Repr

/-- Modelled from the spec: the match of a security-group rule,
`<direction-port> == @<pg> && ip<ver> && ip<ver>.<src|dst> == <remote>` followed
by the protocol clause: none for `all`, `icmp<ver>` for icmp, the port range for
tcp and udp. `asName` gives the address-set name of a referenced security group
for an IP version (`GetSgV4AssociatedName`, `GetSgV6AssociatedName`). -/
def sgRuleMatch (asName : IPVersion → String → String) (pgName direction : String)
    (rule : SgRule) : String :=
  let ipSuffix := rule.IPVersion.ipSuffix
  let srcOrDst := if direction = ACLDirectionFromLport then "dst" else "src"
  let portDirection := if direction = ACLDirectionFromLport then "inport" else "outport"
  let remote :=
    match rule.RemoteType with
    | SgRemoteType.address => rule.RemoteAddress
    | SgRemoteType.securityGroup => "$" ++ asName rule.IPVersion rule.RemoteSecurityGroup
  let base := portDirection ++ " == @" ++ pgName ++ " && " ++ ipSuffix ++ " && " ++
    ipSuffix ++ "." ++ srcOrDst ++ " == " ++ remote
  match rule.Protocol with
  | SgProtocol.all => base
  | SgProtocol.icmp =>
    base ++ " && " ++ (match rule.IPVersion with | IPVersion.v4 => "icmp4" | IPVersion.v6 => "icmp6")
  | SgProtocol.tcp =>
    base ++ " && " ++ Itoa rule.PortRangeMin ++ " <= tcp.dst <= " ++ Itoa rule.PortRangeMax
  | SgProtocol.udp =>
    base ++ " && " ++ Itoa rule.PortRangeMin ++ " <= udp.dst <= " ++ Itoa rule.PortRangeMax

/-- Modelled from the spec: the function `newSgRuleACL` of `ovn-nb-acl.go`, which
is not part of the sources. The ACL is assembled the way `test_newSgRuleACL`
assembles the value it expects: the priority is the string
`strconv.Itoa(highestPriority - rule.Priority)` with `highestPriority` parsed
from `util.SecurityGroupHighestPriority`, the action follows the policy, and
the record is built by `newAcl` for the port group of the security group.
`pgOf` is `GetSgPortGroupName`. -/
def newSgRuleACL (pgOf : String → String) (asName : IPVersion → String → String)
    (sgName direction : String) (rule : SgRule) : ACL :=
  let pgName := pgOf sgName
  let highestPriority := (Atoi SecurityGroupHighestPriority).getD 0
  let priority := Itoa (highestPriority - rule.Priority)
  let action :=
    match rule.Policy with
    | SgPolicy.allow => ACLActionAllowRelated
    | SgPolicy.drop => ACLActionDrop
  newAcl pgName direction priority (sgRuleMatch asName pgName direction rule) action

/-- Transport protocol of a network-policy port selector (`v1.Protocol`). -/
inductive Protocol where
  | TCP
  | UDP
  | SCTP
  deriving DecidableEq, Repr

/-- The lower-case protocol token of a match (`strings.ToLower` of the protocol). -/
def Protocol.token : Protocol → String
  | Protocol.TCP => "tcp"
  | Protocol.UDP => "udp"
  | Protocol.SCTP => "sctp"

/-- The type `intstr.IntOrString`: a numeric port or a port name. -/
inductive IntOrString where
  | int (IntVal : Int)
  | str (StrVal : String)
  deriving DecidableEq, Repr

/-- The record `netv1.NetworkPolicyPort`. -/
structure NetworkPolicyPort where
  Protocol : Protocol
  Port : Option IntOrString
  EndPort : Option Int
  deriving DecidableEq, Repr

/-- The record `util.NamedPortInfo`, of which the builder reads the port id. -/
structure NamedPortInfo where
  PortId : Int
  deriving DecidableEq, Repr

/-- Lookup in a named-port table; a nil table has no entry. -/
def lookupNamedPort (namedPortMap : Option (List (String × NamedPortInfo))) (name : String) :
    Option NamedPortInfo :=
  match namedPortMap with
  | none => none
  | some m => (m.find? (fun e => e.1 == name)).map Prod.snd

/-- Modelled from the spec: the numeric port of a selector port. A named port is
resolved through the lookup table; an unresolved name yields port 0. -/
def resolvePort (namedPortMap : Option (List (String × NamedPortInfo))) : IntOrString → Int
  | IntOrString.int v => v
  | IntOrString.str name =>
    match lookupNamedPort namedPortMap name with
    | some info => info.PortId
    | none => 0

/-- Modelled from the spec: the base predicate of the network-policy match
builder, `outport == @<pg> && ip && ip<ver>.src == $<allow> && ip<ver>.src != $<except>`
for the to-lport direction, with `inport` and `dst` for the from-lport direction. -/
def networkPolicyBaseMatch (pgName asAllowName asExceptName : String) (protocol : IPVersion)
    (direction : String) : String :=
  let srcOrDst := if direction = ACLDirectionFromLport then "dst" else "src"
  let portDirection := if direction = ACLDirectionFromLport then "inport" else "outport"
  let ipKey := protocol.ipSuffix ++ "." ++ srcOrDst
  portDirection ++ " == @" ++ pgName ++ " && ip && " ++ ipKey ++ " == $" ++ asAllowName ++
    " && " ++ ipKey ++ " != $" ++ asExceptName

/-- Modelled from the spec: the expansion of one port selector. Without a port
the bare protocol token; with a port and no end-port `<proto>.dst == <port>`;
with an end-port the range `<port> <= <proto>.dst <= <endPort>` (the spec calls
a selector whose end-port is set, and greater than its port, a port range; the
builder decides on the presence of the end-port, as its test does). -/
def networkPolicyPortMatch (base : String)
    (namedPortMap : Option (List (String × NamedPortInfo))) (port : NetworkPolicyPort) :
    String :=
  match port.Port with
  | none => base ++ " && " ++ port.Protocol.token
  | some p =>
    match port.EndPort with
    | none =>
      base ++ " && " ++ port.Protocol.token ++ ".dst == " ++ Itoa (resolvePort namedPortMap p)
    | some endPort =>
      base ++ " && " ++ Itoa (resolvePort namedPortMap p) ++ " <= " ++ port.Protocol.token ++
        ".dst <= " ++ Itoa endPort

/-- Modelled from the spec: the function `newNetworkPolicyAclMatch` of
`ovn-nb-acl.go`, which is not part of the sources: one match string per port
selector, or the base predicate alone when there is no selector. -/
def newNetworkPolicyAclMatch (pgName asAllowName asExceptName : String) (protocol : IPVersion)
    (direction : String) (npp : List NetworkPolicyPort)
    (namedPortMap : Option (List (String × NamedPortInfo))) : List String :=
  let base := networkPolicyBaseMatch pgName asAllowName asExceptName protocol direction
  if npp = [] then [base]
  else npp.map (networkPolicyPortMatch base namedPortMap)

/-- The selectors of the test helper `mockNetworkPolicyPort`. -/
def mockNetworkPolicyPort : List NetworkPolicyPort :=
  [⟨Protocol.TCP, some (IntOrString.int 12345), none⟩,
    ⟨Protocol.TCP, some (IntOrString.int 12346), some 20000⟩]

/-! ## ACL lookup, listing and deletion (`pkg/ovs`, `ovn-nb-acl.go` and its tests) -/

/-- Go map lookup with the presence flag, `v, ok := m[k]`, on an association list. -/
def mapGet (m : List (String × String)) (k : String) : Option String :=
  (m.find? (fun e => e.1 == k)).map Prod.snd

/-- The parent tag of an ACL: the value its external ids hold under `aclParentKey`. -/
def aclParent (acl : ACL) : Option String :=
  mapGet acl.ExternalIDs aclParentKey

/-- The errors of an ACL lookup: no ACL, or more than one, under the identity
`(parent, direction, priority, match)`. -/
inductive AclError where
  | notFound (parent direction priority aclMatch : String)
  | moreThanOne (parent direction priority aclMatch : String)
  deriving DecidableEq, Repr

/-- Modelled from the spec: the function `GetAcl` of `ovn-nb-acl.go`, which is not
part of the sources, on the ACL table `db` of the backend. The lookup goes by the
identity key (parent tag, direction, priority, match), the priority being given
as a string and parsed as `newAcl` parses it; an absent ACL is a nil result
under `ignoreNotFound` and a not-found error otherwise; more than one ACL is an
error. -/
def GetAcl (db : List ACL) (parent direction priority aclMatch : String)
    (ignoreNotFound : Bool) : Except AclError (Option ACL) :=
  let intPriority := (Atoi priority).getD 0
  let aclList := db.filter (fun acl => decide (aclParent acl = some parent) &&
    decide (acl.Direction = direction) && decide (acl.Priority = intPriority) &&
    decide (acl.Match = aclMatch))
  match aclList with
  | [] =>
    if ignoreNotFound then Except.ok none
    else Except.error (AclError.notFound parent direction priority aclMatch)
  | [acl] => Except.ok (some acl)
  | _ :: _ :: _ => Except.error (AclError.moreThanOne parent direction priority aclMatch)

/-- Modelled from the spec: the external-id condition of the listing filters of
`pkg/ovs` (`aclFilter`, `ListPortGroups`), which are not part of the sources. An
object with fewer external ids than the filter is excluded; every key of the
filter must be a key of the object, with the same value when the filter gives
one. An object with more keys than the filter is not excluded on that ground:
`test_aclFilter` counts ACLs that carry a parent tag under a nil filter, and
`testListPortGroups` finds a port group of three external ids with a filter of
two. -/
def externalIDsMatch (externalIDs ids : List (String × String)) : Bool :=
  if ids.length < externalIDs.length then false
  else externalIDs.all (fun kv =>
    if kv.2 = "" then (mapGet ids kv.1).isSome
    else decide (mapGet ids kv.1 = some kv.2))

/-- Modelled from the spec: the function `aclFilter` of `ovn-nb-acl.go`, which is
not part of the sources: the external-id condition, and the direction of the
ACL unless the given direction is empty. -/
def aclFilter (direction : String) (externalIDs : List (String × String)) (acl : ACL) : Bool :=
  externalIDsMatch externalIDs acl.ExternalIDs &&
    (decide (direction = "") || decide (acl.Direction = direction))

/-- The fields of `ovnnb.PortGroup` the listing reads. -/
structure PortGroup where
  Name : String
  ExternalIDs : List (String × String)
  deriving DecidableEq, Repr

/-- Modelled from the spec: the function `ListPortGroups` of
`ovn-nb-port_group.go`, which is not part of the sources, on the port-group
table `db`. -/
def ListPortGroups (db : List PortGroup) (externalIDs : List (String × String)) :
    List PortGroup :=
  db.filter (fun pg => externalIDsMatch externalIDs pg.ExternalIDs)

/-- The identity key of an ACL: parent tag, direction, priority and match. -/
def aclIdentity (acl : ACL) : Option String × String × Int × String :=
  (aclParent acl, acl.Direction, acl.Priority, acl.Match)

/-- Modelled from the spec: the diff of the ACL reconciler, `(adds, deletes)`: an
ACL of the target whose identity key no live ACL has is an add, a live ACL
whose identity key no target ACL has is a delete. -/
def aclDiff (target live : List ACL) : List ACL × List ACL :=
  (target.filter (fun a => decide (aclIdentity a ∉ live.map aclIdentity)),
    live.filter (fun a => decide (aclIdentity a ∉ target.map aclIdentity)))

/-- Modelled from the spec: the live ACLs after a diff is applied: the live ACLs
whose identity key is not one of a delete, followed by the adds. -/
def aclApply (live : List ACL) (diff : List ACL × List ACL) : List ACL :=
  live.filter (fun a => decide (aclIdentity a ∉ diff.2.map aclIdentity)) ++ diff.1

/-- Modelled from the spec: the function `DeleteAcls` of `ovn-nb-acl.go`, which is
not part of the sources, on the ACL table `db`: the ACLs that the listing filter
selects for the direction and the parent tag are removed; `parentType` names the
table of the parent (port group or logical switch) whose references go with
them. -/
def DeleteAcls (db : List ACL) (parentName _parentType direction : String) : List ACL :=
  db.filter (fun acl => !(aclFilter direction [(aclParentKey, parentName)] acl))

/-! ## The VPC controller (`vpc.go`): objects, collaborators and effects -/

/-- A Go `error` value of a collaborator; `notFound` is the answer of
`k8serrors.IsNotFound`. -/
structure GoError where
  message : String
  notFound : Bool
  deriving DecidableEq, Repr

/-- The record `kubeovnv1.VpcPeering`. -/
structure VpcPeering where
  RemoteVpc : String
  LocalConnectIP : String
  deriving DecidableEq, Repr

/-- The record `kubeovnv1.VpcSpec`; `PolicyRoutes` is `none` for a nil slice,
which `handleAddOrUpdateVpc` tells apart from an empty one. -/
structure VpcSpec where
  Namespaces : List String
  StaticRoutes : List StaticRoute
  PolicyRoutes : Option (List PolicyRoute)
  VpcPeerings : List VpcPeering
  EnableExternal : Bool
  deriving DecidableEq, Repr

/-- The record `kubeovnv1.VpcStatus`. -/
structure VpcStatus where
  Default : Bool
  Router : String
  Standby : Bool
  VpcPeerings : List String
  Subnets : List String
  DefaultLogicalSwitch : String
  TcpLoadBalancer : String
  TcpSessionLoadBalancer : String
  UdpLoadBalancer : String
  UdpSessionLoadBalancer : String
  EnableExternal : Bool
  deriving DecidableEq, Repr

/-- The object `kubeovnv1.Vpc` with its metadata, as the controller handles it. -/
structure VpcObject where
  Name : String
  Labels : List (String × String)
  Annotations : List (String × String)
  Spec : VpcSpec
  Status : VpcStatus
  deriving DecidableEq, Repr

/-- The fields of `kubeovnv1.Subnet` that `vpc.go` reads; `Deleting` tells that
the deletion timestamp is set. -/
structure Subnet where
  Name : String
  Vpc : String
  Gateway : String
  Default : Bool
  Deleting : Bool
  deriving DecidableEq, Repr

/-- The fields of `ovnnb.LogicalRouterStaticRoute` that `GetStaticRoutes` reads;
`Policy` is a pointer. -/
structure LogicalRouterStaticRoute where
  Policy : Option String
  IPPrefix : String
  Nexthop : String
  deriving DecidableEq, Repr

/-- The fields of `ovnnb.LogicalRouterPolicy` that `GetPolicyRoutes` reads. -/
structure LogicalRouterPolicy where
  Priority : Int
  Match : String
  Action : String
  Nexthops : List String
  deriving DecidableEq, Repr

/-- The field of `ovnnb.NAT` that `handleAddOrUpdateVpc` reads. -/
structure NAT where
  LogicalIP : String
  deriving DecidableEq, Repr

/-- The fields of `kubeovnv1.VpcNatGateway` that `handleUpdateVpcStatus` reads. -/
structure VpcNatGateway where
  Name : String
  Vpc : String
  deriving DecidableEq, Repr

/-- The fields of the controller configuration that `vpc.go` reads. -/
structure Config where
  ClusterRouter : String
  NodeSwitch : String
  ExternalGatewayConfigNS : String
  ExternalGatewaySwitch : String
  EnableEipSnat : Bool
  EnableLb : Bool
  ClusterTcpLoadBalancer : String
  ClusterTcpSessionLoadBalancer : String
  ClusterUdpLoadBalancer : String
  ClusterUdpSessionLoadBalancer : String
  deriving DecidableEq, Repr

/-- The constants of package `util` that `vpc.go` names; their values are not
part of the sources. -/
structure UtilConsts where
  DefaultVpc : String
  VpcExternalLabel : String
  VpcLbAnnotation : String
  NormalRouteType : String
  CniTypeName : String
  ProtocolTCP : String
  ProtocolUDP : String
  ExternalGatewayConfig : String
  DefaultServiceSessionStickinessTimeout : Int
  deriving DecidableEq, Repr

/-- The operations a pass issues that change the backend, the API server or a
work queue, with their arguments. The handlers `handleAddVpcExternal` and
`handleDelVpcExternal` and the helpers `createVpcLb` and `deleteVpcLb` count as
one operation each: what they issue, they issue within the call. -/
inductive Event where
  | updateVpc (vpc : Vpc)
  | createLogicalRouter (name : String)
  | createPeerRouterPort (localRouter remoteRouter localConnectIP : String)
  | deleteLogicalRouterPort (name : String)
  | deleteLogicalRouterStaticRoute (lr policy cidr nextHop routeTable : String)
  | addLogicalRouterStaticRoute (lr policy cidr nextHop routeType : String)
  | clearLogicalRouterPolicy (lr : String)
  | deleteLogicalRouterPolicy (lr : String) (priority : Int) (policyMatch : String)
  | addLogicalRouterPolicy (lr : String) (priority : Int) (policyMatch action : String)
      (nextHops : List String) (externalIDs : List (String × String))
  | createLoadBalancer (name protocol selectFields : String)
  | setLoadBalancerAffinityTimeout (name : String) (timeout : Int)
  | patchVpcStatus (name : String) (status : VpcStatus)
  | createVpcLb (vpc : VpcObject)
  | deleteVpcLb (vpc : VpcObject)
  | addSubnetQueue (key : String)
  | handleAddVpcExternal (key : String)
  | handleDelVpcExternal (key : String)
  | addNamespaceQueue (ns : String)
  | addVpcSubnetQueue (gw : String)
  deriving DecidableEq, Repr

/-- The collaborators of the controller. Every answer may depend on the
operations issued so far in the pass (the first argument). A mutation answers
with its error, if any; a read with its value or its error. -/
structure Env where
  config : Config
  util : UtilConsts
  ParseIP : String → Bool
  ParseCIDR : String → Bool
  CheckCidrs : String → Option GoError
  SplitStringIP : String → String × String
  ToLower : String → String
  isOvnSubnet : Subnet → Bool
  getVpc : List Event → String → Except GoError VpcObject
  listerGetVpc : List Event → String → Except GoError VpcObject
  updateVpc : List Event → Vpc → Option GoError
  createLogicalRouter : List Event → String → Option GoError
  createPeerRouterPort : List Event → String → String → String → Option GoError
  deleteLogicalRouterPort : List Event → String → Option GoError
  listLogicalRouterStaticRoutes :
    List Event → String → Except GoError (List LogicalRouterStaticRoute)
  getSubnet : List Event → String → Except GoError Subnet
  getConfigMap : List Event → String → String → Except GoError (List (String × String))
  listNats : List Event → String → Except GoError (List NAT)
  deleteLogicalRouterStaticRoute :
    List Event → String → String → String → String → String → Option GoError
  addLogicalRouterStaticRoute :
    List Event → String → String → String → String → String → Option GoError
  clearLogicalRouterPolicy : List Event → String → Option GoError
  listLogicalRouterPolicies : List Event → String → Except GoError (List LogicalRouterPolicy)
  deleteLogicalRouterPolicy : List Event → String → Int → String → Option GoError
  addLogicalRouterPolicy :
    List Event → String → Int → String → String → List String → List (String × String) →
      Option GoError
  createLoadBalancer : List Event → String → String → String → Option GoError
  setLoadBalancerAffinityTimeout : List Event → String → Int → Option GoError
  statusBytes : VpcStatus → Option GoError
  patchVpcStatus : List Event → String → VpcStatus → Except GoError VpcObject
  createVpcLb : List Event → VpcObject → Option GoError
  deleteVpcLb : List Event → VpcObject → Option GoError
  listSubnets : List Event → Except GoError (List Subnet)
  listVpcNatGateways : List Event → Except GoError (List VpcNatGateway)
  handleAddVpcExternal : List Event → String → Option GoError
  handleDelVpcExternal : List Event → String → Option GoError

/-- The errors a handler of `vpc.go` returns: an error of `formatVpc`, the error
of a collaborator unchanged, or one built with `fmt.Errorf`. -/
inductive HandlerError where
  | format (e : FormatError)
  | collaborator (e : GoError)
  | listRoutes (e : GoError)
  | listPolicies (e : GoError)
  | noGatewayAddress
  deriving DecidableEq, Repr

/-- The run-time panics the code of `vpc.go` can raise. -/
inductive Panic where
  | nilDereference (what : String)
  | indexOutOfRange (what : String)
  deriving DecidableEq, Repr

/-- How a handler ends: it returns `nil` or an error, or it panics. -/
inductive Outcome where
  | returned (err : Option HandlerError)
  | panicked (p : Panic)
  deriving DecidableEq, Repr

/-- Result of a stretch of code: a value, an error to return, or a panic. -/
inductive Res (α : Type) where
  | ok (a : α)
  | fail (e : HandlerError)
  | panic (p : Panic)

/-- A stretch of code of a handler: from the operations issued so far to its
result and the operations issued after it. -/
def Act (α : Type) : Type := List Event → Res α × List Event

/-- Sequencing: what follows runs only after a value. -/
def Act.bind {α β : Type} (m : Act α) (f : α → Act β) : Act β := fun tr =>
  match m tr with
  | (Res.ok a, tr1) => f a tr1
  | (Res.fail e, tr1) => (Res.fail e, tr1)
  | (Res.panic p, tr1) => (Res.panic p, tr1)

/-- A stretch of code without operations. -/
def Act.pure {α : Type} (a : α) : Act α := fun tr => (Res.ok a, tr)

/-- A `return err` statement. -/
def Act.fail {α : Type} (e : HandlerError) : Act α := fun tr => (Res.fail e, tr)

/-- A panic. -/
def Act.panic {α : Type} (p : Panic) : Act α := fun tr => (Res.panic p, tr)

/-- A mutation: the operation is issued, and its error, if any, is returned
unchanged. -/
def Act.call (ev : Event) (answer : List Event → Option GoError) : Act Unit := fun tr =>
  match answer tr with
  | none => (Res.ok (), tr ++ [ev])
  | some e => (Res.fail (HandlerError.collaborator e), tr ++ [ev])

/-- An operation that cannot fail (a queue `Add`). -/
def Act.emit (ev : Event) : Act Unit := fun tr => (Res.ok (), tr ++ [ev])

/-- A read whose error is returned unchanged. -/
def Act.read {α : Type} (answer : List Event → Except GoError α) : Act α := fun tr =>
  match answer tr with
  | Except.ok a => (Res.ok a, tr)
  | Except.error e => (Res.fail (HandlerError.collaborator e), tr)

/-- A `for` loop over a slice whose body is a stretch of code. -/
def Act.forEach {α : Type} (f : α → Act Unit) : List α → Act Unit
  | [] => Act.pure ()
  | x :: xs => Act.bind (f x) (fun _ => Act.forEach f xs)

/-! ## The VPC controller (`vpc.go`): the handlers -/

/-- Go map index `m[k]` on a string map: the empty string for an absent key. -/
def mapIndex (m : List (String × String)) (k : String) : String :=
  (mapGet m k).getD ""

/-- The function `enqueueDelVpc`: the objects handed to `delVpcQueue.Add`.
`keyFunc` is `cache.MetaNamespaceKeyFunc`, whose error ends the function. -/
def enqueueDelVpc (util : UtilConsts) (keyFunc : VpcObject → Except GoError String)
    (vpc : VpcObject) : List VpcObject :=
  match keyFunc vpc with
  | Except.error _ => []
  | Except.ok _ =>
    let ok := (mapGet vpc.Labels util.VpcExternalLabel).isSome
    if !vpc.Status.Default || !ok then [vpc] else []

/-- The routes of a VPC object, on which `formatVpc` works. -/
def VpcObject.routes (v : VpcObject) : Vpc :=
  ⟨v.Name, v.Spec.StaticRoutes, v.Spec.PolicyRoutes.getD []⟩

/-- A VPC object with the routes `formatVpc` leaves; a nil slice of policy routes
stays nil. -/
def VpcObject.withRoutes (v : VpcObject) (r : Vpc) : VpcObject :=
  { v with Spec := { v.Spec with
      StaticRoutes := r.StaticRoutes
      PolicyRoutes := v.Spec.PolicyRoutes.map (fun _ => r.PolicyRoutes) } }

/-- The call `formatVpc(vpc, c)` within a pass: the object is formatted in place,
the update it sends is an operation of the pass. -/
def formatVpcObject (env : Env) (vpc : VpcObject) : Act VpcObject := fun tr =>
  let r := formatVpc env.ParseIP env.ParseCIDR
    (fun v => (env.updateVpc tr v).map GoError.message) vpc.routes
  match r.err with
  | none => (Res.ok (vpc.withRoutes r.vpc), tr ++ r.updates.map Event.updateVpc)
  | some e => (Res.fail (HandlerError.format e), tr ++ r.updates.map Event.updateVpc)

/-- The loop of `GetStaticRoutes`; `*r.Policy` dereferences a pointer. -/
def convertStaticRoutes : List LogicalRouterStaticRoute → Res (List StaticRoute)
  | [] => Res.ok []
  | r :: rest =>
    match r.Policy with
    | none => Res.panic (Panic.nilDereference "r.Policy")
    | some policy =>
      match convertStaticRoutes rest with
      | Res.ok routes => Res.ok (⟨policy, r.IPPrefix, r.Nexthop⟩ :: routes)
      | Res.fail e => Res.fail e
      | Res.panic p => Res.panic p

/-- The function `GetStaticRoutes`. -/
def GetStaticRoutes (env : Env) (lrName : String) : Act (List StaticRoute) := fun tr =>
  match env.listLogicalRouterStaticRoutes tr lrName with
  | Except.error e => (Res.fail (HandlerError.listRoutes e), tr)
  | Except.ok output => (convertStaticRoutes output, tr)

/-- The conversion `int32(n)` of a Go `int`. -/
def toInt32 (n : Int) : Int := (n + 2147483648) % 4294967296 - 2147483648

/-- The loop of `GetPolicyRoutes`; `r.Nexthops[0]` indexes a slice. -/
def convertPolicyRoutes : List LogicalRouterPolicy → Res (List PolicyRoute)
  | [] => Res.ok []
  | r :: rest =>
    match r.Nexthops with
    | [] => Res.panic (Panic.indexOutOfRange "r.Nexthops[0]")
    | nextHop :: _ =>
      match convertPolicyRoutes rest with
      | Res.ok routes => Res.ok (⟨toInt32 r.Priority, r.Match, r.Action, nextHop⟩ :: routes)
      | Res.fail e => Res.fail e
      | Res.panic p => Res.panic p

/-- The function `GetPolicyRoutes`. -/
def GetPolicyRoutes (env : Env) (lrName : String) : Act (List PolicyRoute) := fun tr =>
  match env.listLogicalRouterPolicies tr lrName with
  | Except.error e => (Res.fail (HandlerError.listPolicies e), tr)
  | Except.ok output => (convertPolicyRoutes output, tr)

/-- The peering loop of `handleAddOrUpdateVpc` from the list `newPeers`. -/
def peeringLoop (env : Env) (vpcName : String) :
    List VpcPeering → List String → Act (List String)
  | [], newPeers => Act.pure newPeers
  | peering :: rest, newPeers => fun tr =>
    match env.CheckCidrs peering.LocalConnectIP with
    | some e => (Res.fail (HandlerError.collaborator e), tr)
    | none =>
      Act.bind
        (Act.call
          (Event.createPeerRouterPort vpcName peering.RemoteVpc peering.LocalConnectIP)
          (fun t => env.createPeerRouterPort t vpcName peering.RemoteVpc
            peering.LocalConnectIP))
        (fun _ => peeringLoop env vpcName rest (newPeers ++ [peering.RemoteVpc])) tr

/-- The loop of `handleAddOrUpdateVpc` over the peers of the status: the router
port of a peer that is no longer declared is deleted. -/
def stalePeerLoop (env : Env) (vpcName : String) (newPeers : List String) :
    List String → Act Unit :=
  Act.forEach (fun oldPeer =>
    if oldPeer ∈ newPeers then Act.pure ()
    else Act.call (Event.deleteLogicalRouterPort (vpcName ++ "-" ++ oldPeer))
      (fun t => env.deleteLogicalRouterPort t (vpcName ++ "-" ++ oldPeer)))

/-- The default routes appended for the gateway of the join subnet: one per IP
family that `util.SplitStringIP` finds in it. -/
def joinGatewayRoutes (env : Env) (gateway : String) : List StaticRoute :=
  (if (env.SplitStringIP gateway).1 ≠ "" then
      [(⟨PolicyDst, "0.0.0.0/0", (env.SplitStringIP gateway).1⟩ : StaticRoute)]
    else []) ++
  (if (env.SplitStringIP gateway).2 ≠ "" then
      [(⟨PolicyDst, "::/0", (env.SplitStringIP gateway).2⟩ : StaticRoute)]
    else [])

/-- The next hop of the SNAT routes: the gateway address up to its first `/`. -/
def stripMask (nextHop : String) : String :=
  if '/' ∈ nextHop.data then String.mk (nextHop.data.takeWhile (fun c => c != '/'))
  else nextHop

/-- The source routes appended for the NAT entries that have a logical IP. -/
def snatRoutes (nextHop : String) (nats : List NAT) : List StaticRoute :=
  (nats.filter (fun nat => nat.LogicalIP != "")).map
    (fun nat => (⟨PolicySrc, nat.LogicalIP, nextHop⟩ : StaticRoute))

/-- The block of `handleAddOrUpdateVpc` under `c.config.EnableEipSnat`: the
routes it appends. An error of the config-map lookup skips the block. -/
def eipSnatRoutes (env : Env) (vpc : VpcObject) : Act (List StaticRoute) := fun tr =>
  if env.config.EnableEipSnat then
    match env.getConfigMap tr env.config.ExternalGatewayConfigNS
        env.util.ExternalGatewayConfig with
    | Except.error _ => (Res.ok [], tr)
    | Except.ok data =>
      if mapIndex data "external-gw-addr" = "" then
        (Res.fail HandlerError.noGatewayAddress, tr)
      else
        match env.listNats tr vpc.Name with
        | Except.error e => (Res.fail (HandlerError.collaborator e), tr)
        | Except.ok nats =>
          (Res.ok (snatRoutes (stripMask (mapIndex data "external-gw-addr")) nats), tr)
  else (Res.ok [], tr)

/-- The block of `handleAddOrUpdateVpc` that builds `targetRoutes`. For the
cluster router the join subnet is looked up; an error other than not-found is
returned, and after a not-found error the code reads `joinSubnet.Spec.Gateway`
of a nil subnet. -/
def targetStaticRoutes (env : Env) (vpc : VpcObject) : Act (List StaticRoute) := fun tr =>
  if vpc.Name = env.config.ClusterRouter then
    match env.getSubnet tr env.config.NodeSwitch with
    | Except.error e =>
      if !e.notFound then (Res.fail (HandlerError.collaborator e), tr)
      else (Res.panic (Panic.nilDereference "joinSubnet"), tr)
    | Except.ok joinSubnet =>
      Act.bind (eipSnatRoutes env vpc)
        (fun snat => Act.pure
          (vpc.Spec.StaticRoutes ++ joinGatewayRoutes env joinSubnet.Gateway ++ snat)) tr
  else (Res.ok vpc.Spec.StaticRoutes, tr)

/-- Modelled from the spec: the backend policy of a destination route
(`ovnnb.LogicalRouterStaticRoutePolicyDstIP`, a constant of the generated
package `ovnnb`). -/
def LogicalRouterStaticRoutePolicyDstIP : String := "dst-ip"

/-- Modelled from the spec: the backend policy of a source route
(`ovnnb.LogicalRouterStaticRoutePolicySrcIP`). -/
def LogicalRouterStaticRoutePolicySrcIP : String := "src-ip"

/-- The function `convertPolicy`. -/
def convertPolicy (origin : String) : String :=
  if origin = PolicyDst then LogicalRouterStaticRoutePolicyDstIP
  else LogicalRouterStaticRoutePolicySrcIP

/-- The static-route block of `handleAddOrUpdateVpc`: the installed routes are
read, the target is built and diffed, the deletions are issued, then the
additions. The error result of `diffStaticRoute` is always nil. -/
def reconcileStaticRoutes (env : Env) (vpc : VpcObject) : Act Unit :=
  Act.bind (GetStaticRoutes env vpc.Name) (fun existRoute =>
  Act.bind (targetStaticRoutes env vpc) (fun targetRoutes =>
  Act.bind
    (Act.forEach (fun (item : StaticRoute) =>
      Act.call
        (Event.deleteLogicalRouterStaticRoute vpc.Name item.Policy item.CIDR item.NextHopIP "")
        (fun t => env.deleteLogicalRouterStaticRoute t vpc.Name item.Policy item.CIDR
          item.NextHopIP ""))
      (diffStaticRoute existRoute targetRoutes).1) (fun _ =>
    Act.forEach (fun (item : StaticRoute) =>
      Act.call
        (Event.addLogicalRouterStaticRoute vpc.Name (convertPolicy item.Policy) item.CIDR
          item.NextHopIP env.util.NormalRouteType)
        (fun t => env.addLogicalRouterStaticRoute t vpc.Name (convertPolicy item.Policy)
          item.CIDR item.NextHopIP env.util.NormalRouteType))
      (diffStaticRoute existRoute targetRoutes).2.1)))

/-- The policy-route block of `handleAddOrUpdateVpc`: the policies of a VPC other
than the default one are cleared when the declared list is nil; a declared
list, empty or not, is diffed against the installed policies. -/
def reconcilePolicyRoutes (env : Env) (vpc : VpcObject) : Act Unit :=
  Act.bind
    (if vpc.Name ≠ env.util.DefaultVpc ∧ vpc.Spec.PolicyRoutes = none then
      Act.call (Event.clearLogicalRouterPolicy vpc.Name)
        (fun t => env.clearLogicalRouterPolicy t vpc.Name)
    else Act.pure ()) (fun _ =>
  match vpc.Spec.PolicyRoutes with
  | none => Act.pure ()
  | some target =>
    Act.bind (GetPolicyRoutes env vpc.Name) (fun existPolicyRoute =>
    Act.bind
      (Act.forEach (fun (item : PolicyRoute) =>
        Act.call (Event.deleteLogicalRouterPolicy vpc.Name item.Priority item.Match)
          (fun t => env.deleteLogicalRouterPolicy t vpc.Name item.Priority item.Match))
        (diffPolicyRoute existPolicyRoute target).1) (fun _ =>
      Act.forEach (fun (item : PolicyRoute) =>
        Act.call
          (Event.addLogicalRouterPolicy vpc.Name item.Priority item.Match item.Action
            [item.NextHopIP] [("vendor", env.util.CniTypeName)])
          (fun t => env.addLogicalRouterPolicy t vpc.Name item.Priority item.Match
            item.Action [item.NextHopIP] [("vendor", env.util.CniTypeName)]))
        (diffPolicyRoute existPolicyRoute target).2.1)))

/-- The record `VpcLoadBalancer`. -/
structure VpcLoadBalancer where
  TcpLoadBalancer : String
  TcpSessLoadBalancer : String
  UdpLoadBalancer : String
  UdpSessLoadBalancer : String
  deriving DecidableEq, Repr

/-- The function `GenVpcLoadBalancer`. -/
def GenVpcLoadBalancer (env : Env) (vpcKey : String) : VpcLoadBalancer :=
  if vpcKey = env.util.DefaultVpc ∨ vpcKey = "" then
    ⟨env.config.ClusterTcpLoadBalancer, env.config.ClusterTcpSessionLoadBalancer,
      env.config.ClusterUdpLoadBalancer, env.config.ClusterUdpSessionLoadBalancer⟩
  else
    ⟨"vpc-" ++ vpcKey ++ "-tcp-load", "vpc-" ++ vpcKey ++ "-tcp-sess-load",
      "vpc-" ++ vpcKey ++ "-udp-load", "vpc-" ++ vpcKey ++ "-udp-sess-load"⟩

/-- The function `addLoadBalancer`. -/
def addLoadBalancer (env : Env) (vpcName : String) : Act VpcLoadBalancer :=
  let vpcLb := GenVpcLoadBalancer env vpcName
  let create := fun (name protocol selectFields : String) =>
    Act.call (Event.createLoadBalancer name protocol selectFields)
      (fun t => env.createLoadBalancer t name protocol selectFields)
  let setTimeout := fun (name : String) =>
    Act.call
      (Event.setLoadBalancerAffinityTimeout name
        env.util.DefaultServiceSessionStickinessTimeout)
      (fun t => env.setLoadBalancerAffinityTimeout t name
        env.util.DefaultServiceSessionStickinessTimeout)
  Act.bind (create vpcLb.TcpLoadBalancer env.util.ProtocolTCP "") (fun _ =>
  Act.bind (create vpcLb.UdpLoadBalancer env.util.ProtocolUDP "") (fun _ =>
  Act.bind (create vpcLb.TcpSessLoadBalancer env.util.ProtocolTCP "ip_src") (fun _ =>
  Act.bind (create vpcLb.UdpSessLoadBalancer env.util.ProtocolUDP "ip_src") (fun _ =>
  Act.bind (setTimeout vpcLb.TcpSessLoadBalancer) (fun _ =>
  Act.bind (setTimeout vpcLb.UdpSessLoadBalancer) (fun _ =>
  Act.pure vpcLb))))))

/-- The status `handleAddOrUpdateVpc` assigns before the patch; with load
balancers enabled they are ensured and their names recorded. -/
def buildStatus (env : Env) (key : String) (vpc : VpcObject) (newPeers : List String) :
    Act VpcStatus :=
  if env.config.EnableLb then
    Act.bind (addLoadBalancer env key) (fun vpcLb => Act.pure
      { vpc.Status with
        Router := key
        Standby := true
        VpcPeerings := newPeers
        TcpLoadBalancer := vpcLb.TcpLoadBalancer
        TcpSessionLoadBalancer := vpcLb.TcpSessLoadBalancer
        UdpLoadBalancer := vpcLb.UdpLoadBalancer
        UdpSessionLoadBalancer := vpcLb.UdpSessLoadBalancer })
  else
    Act.pure { vpc.Status with Router := key, Standby := true, VpcPeerings := newPeers }

/-- The part of `handleAddOrUpdateVpc` from `formatVpc` to the assignment of the
status: the VPC object as it stands before the status patch. -/
def reconcileBackend (env : Env) (key : String) (cachedVpc : VpcObject) : Act VpcObject :=
  Act.bind (formatVpcObject env cachedVpc) (fun vpc =>
  Act.bind (Act.call (Event.createLogicalRouter key) (fun t => env.createLogicalRouter t key))
    (fun _ =>
  Act.bind (peeringLoop env vpc.Name vpc.Spec.VpcPeerings []) (fun newPeers =>
  Act.bind (stalePeerLoop env vpc.Name newPeers vpc.Status.VpcPeerings) (fun _ =>
  Act.bind (reconcileStaticRoutes env vpc) (fun _ =>
  Act.bind (reconcilePolicyRoutes env vpc) (fun _ =>
  Act.bind (buildStatus env key vpc newPeers) (fun status =>
  Act.pure { vpc with Status := status })))))))

/-- The status patch: the status is serialized (`vpc.Status.Bytes()`), then sent
as a merge patch of the sub-resource `status`; the answer is the patched object. -/
def patchStatus (env : Env) (vpc : VpcObject) : Act VpcObject := fun tr =>
  match env.statusBytes vpc.Status with
  | some e => (Res.fail (HandlerError.collaborator e), tr)
  | none =>
    match env.patchVpcStatus tr vpc.Name vpc.Status with
    | Except.ok patched => (Res.ok patched, tr ++ [Event.patchVpcStatus vpc.Name vpc.Status])
    | Except.error e =>
      (Res.fail (HandlerError.collaborator e), tr ++ [Event.patchVpcStatus vpc.Name vpc.Status])

/-- The call of `createVpcLb` or `deleteVpcLb` after the patch, by the load-balancer
annotation of the patched object. -/
def ensureVpcLb (env : Env) (vpc : VpcObject) : Act Unit :=
  if vpc.Annotations.length ≠ 0 ∧
      env.ToLower (mapIndex vpc.Annotations env.util.VpcLbAnnotation) = "on" then
    Act.call (Event.createVpcLb vpc) (fun t => env.createVpcLb t vpc)
  else
    Act.call (Event.deleteVpcLb vpc) (fun t => env.deleteVpcLb t vpc)

/-- The loop of `handleAddOrUpdateVpc` over the subnets: the subnets of the VPC
are added to the subnet queue. -/
def notifySubnets (key : String) : List Subnet → Act Unit :=
  Act.forEach (fun subnet =>
    if subnet.Vpc = key then Act.emit (Event.addSubnetQueue subnet.Name) else Act.pure ())

/-- The end of `handleAddOrUpdateVpc`: the VPC is connected to or disconnected
from the external network when the declared flag and the status differ. Each
handler is one call here, which answers with its error or nil; the operations a
handler issues within the call, its own status patch among them, and its panic
on a missing config map are those of `reconcileExternalExpanded`. -/
def reconcileExternal (env : Env) (key : String) (cachedVpc : VpcObject) : Act Unit :=
  Act.bind
    (if cachedVpc.Spec.EnableExternal = true ∧ cachedVpc.Status.EnableExternal = false then
      Act.call (Event.handleAddVpcExternal key) (fun t => env.handleAddVpcExternal t key)
    else Act.pure ()) (fun _ =>
  if cachedVpc.Spec.EnableExternal = false ∧ cachedVpc.Status.EnableExternal = true then
    Act.call (Event.handleDelVpcExternal key) (fun t => env.handleDelVpcExternal t key)
  else Act.pure ())

/-- The part of `handleAddOrUpdateVpc` from the status patch to the end. -/
def publishVpc (env : Env) (key : String) (cachedVpc vpc : VpcObject) : Act Unit :=
  Act.bind (patchStatus env vpc) (fun patched =>
  Act.bind (ensureVpcLb env patched) (fun _ =>
  Act.bind (Act.read env.listSubnets) (fun subnets =>
  Act.bind (notifySubnets key subnets) (fun _ =>
  reconcileExternal env key cachedVpc))))

/-- The outcome of a stretch of code that ends a handler. -/
def finish (r : Res Unit × List Event) : Outcome × List Event :=
  match r with
  | (Res.ok _, tr) => (Outcome.returned none, tr)
  | (Res.fail e, tr) => (Outcome.returned (some e), tr)
  | (Res.panic p, tr) => (Outcome.panicked p, tr)

/-- The function `handleAddOrUpdateVpc`: how the pass ends and the operations it
issues, in order. -/
def handleAddOrUpdateVpc (env : Env) (key : String) : Outcome × List Event :=
  match env.getVpc [] key with
  | Except.error e =>
    if e.notFound then (Outcome.returned none, [])
    else (Outcome.returned (some (HandlerError.collaborator e)), [])
  | Except.ok cachedVpc =>
    finish (Act.bind (reconcileBackend env key cachedVpc)
      (fun vpc => publishVpc env key cachedVpc vpc) [])

/-- The function `getVpcSubnets` on the listed subnets: the names of the OVN
subnets of the VPC that are not being deleted, and the default one among them. -/
def getVpcSubnets (env : Env) (vpc : VpcObject) :
    List Subnet → List String × String → List String × String
  | [], acc => acc
  | subnet :: rest, acc =>
    if subnet.Vpc ≠ vpc.Name ∨ subnet.Deleting = true ∨ env.isOvnSubnet subnet = false then
      getVpcSubnets env vpc rest acc
    else
      getVpcSubnets env vpc rest
        (acc.1 ++ [subnet.Name], if subnet.Default then subnet.Name else acc.2)

/-- The function `handleUpdateVpcStatus` after the lookup of the VPC. -/
def updateVpcStatus (env : Env) (key : String) (cachedVpc : VpcObject) : Act Unit :=
  Act.bind (Act.read env.listSubnets) (fun allSubnets =>
  let found := getVpcSubnets env cachedVpc allSubnets ([], "")
  let change := decide (cachedVpc.Status.DefaultLogicalSwitch ≠ found.2)
  Act.bind
    (patchStatus env
      { cachedVpc with Status := { cachedVpc.Status with
          DefaultLogicalSwitch := found.2
          Subnets := found.1 } }) (fun vpc =>
  Act.bind
    (if change then Act.forEach (fun ns => Act.emit (Event.addNamespaceQueue ns))
        vpc.Spec.Namespaces
      else Act.pure ()) (fun _ =>
  Act.bind (Act.read env.listVpcNatGateways) (fun natGws =>
  Act.forEach (fun (gw : VpcNatGateway) =>
    if key = gw.Vpc then Act.emit (Event.addVpcSubnetQueue gw.Name) else Act.pure ())
    natGws))))

/-- The function `handleUpdateVpcStatus`. -/
def handleUpdateVpcStatus (env : Env) (key : String) : Outcome × List Event :=
  match env.listerGetVpc [] key with
  | Except.error e =>
    if e.notFound then (Outcome.returned none, [])
    else (Outcome.returned (some (HandlerError.collaborator e)), [])
  | Except.ok cachedVpc => finish (updateVpcStatus env key cachedVpc [])

/-! ## The VPC controller: worked instances -/

/-- Constants of package `util` for the worked instances. -/
def sampleUtil : UtilConsts :=
  ⟨"ovn-cluster", "ovn.kubernetes.io/vpc_external", "ovn.kubernetes.io/vpc_lb", "normal",
    "kube-ovn", "tcp", "udp", "ovn-external-gw-config", 10800⟩

/-- A configuration for the worked instances: the cluster router is `ovn-cluster`,
the join subnet is `join`, SNAT and load balancers are off. -/
def sampleConfig : Config :=
  ⟨"ovn-cluster", "join", "kube-system", "external", false, false, "cluster-tcp-loadbalancer",
    "cluster-tcp-session-loadbalancer", "cluster-udp-loadbalancer",
    "cluster-udp-session-loadbalancer"⟩

/-- An empty status. -/
def sampleStatus : VpcStatus :=
  ⟨false, "", false, [], [], "", "", "", "", "", false⟩

/-- A VPC object of the given name that declares nothing but the external flag. -/
def sampleVpcObject (name : String) (enableExternal : Bool) : VpcObject :=
  ⟨name, [], [], ⟨[], [], none, [], enableExternal⟩, sampleStatus⟩

/-- Collaborators for the worked instances: the API server holds the one VPC
`vpc`, the router has no route and no policy, every mutation succeeds, the
lookup of the join subnet answers `joinSubnet` and the subnet lister `subnets`. -/
def sampleEnv (vpc : VpcObject) (joinSubnet : Except GoError Subnet) (subnets : List Subnet) :
    Env where
  config := sampleConfig
  util := sampleUtil
  ParseIP := sampleParseIP
  ParseCIDR := sampleParseCIDR
  CheckCidrs := fun _ => none
  SplitStringIP := fun s => (s, "")
  ToLower := fun s => s
  isOvnSubnet := fun _ => true
  getVpc := fun _ key =>
    if key = vpc.Name then Except.ok vpc else Except.error ⟨"vpc not found", true⟩
  listerGetVpc := fun _ key =>
    if key = vpc.Name then Except.ok vpc else Except.error ⟨"vpc not found", true⟩
  updateVpc := fun _ _ => none
  createLogicalRouter := fun _ _ => none
  createPeerRouterPort := fun _ _ _ _ => none
  deleteLogicalRouterPort := fun _ _ => none
  listLogicalRouterStaticRoutes := fun _ _ => Except.ok []
  getSubnet := fun _ _ => joinSubnet
  getConfigMap := fun _ _ _ => Except.error ⟨"configmap not found", true⟩
  listNats := fun _ _ => Except.ok []
  deleteLogicalRouterStaticRoute := fun _ _ _ _ _ _ => none
  addLogicalRouterStaticRoute := fun _ _ _ _ _ _ => none
  clearLogicalRouterPolicy := fun _ _ => none
  listLogicalRouterPolicies := fun _ _ => Except.ok []
  deleteLogicalRouterPolicy := fun _ _ _ _ => none
  addLogicalRouterPolicy := fun _ _ _ _ _ _ _ => none
  createLoadBalancer := fun _ _ _ _ => none
  setLoadBalancerAffinityTimeout := fun _ _ _ => none
  statusBytes := fun _ => none
  patchVpcStatus := fun _ _ status => Except.ok { vpc with Status := status }
  createVpcLb := fun _ _ => none
  deleteVpcLb := fun _ _ => none
  listSubnets := fun _ => Except.ok subnets
  listVpcNatGateways := fun _ => Except.ok []
  handleAddVpcExternal := fun _ _ => none
  handleDelVpcExternal := fun _ _ => none

/-- The operations of the part of a pass that reconciles the backend: the update
by `formatVpc` and the mutations of routers, ports, routes, policies and load
balancers. -/
def Event.isBackend : Event → Bool
  | Event.updateVpc _ => true
  | Event.createLogicalRouter _ => true
  | Event.createPeerRouterPort _ _ _ => true
  | Event.deleteLogicalRouterPort _ => true
  | Event.deleteLogicalRouterStaticRoute _ _ _ _ _ => true
  | Event.addLogicalRouterStaticRoute _ _ _ _ _ => true
  | Event.clearLogicalRouterPolicy _ => true
  | Event.deleteLogicalRouterPolicy _ _ _ => true
  | Event.addLogicalRouterPolicy _ _ _ _ _ _ => true
  | Event.createLoadBalancer _ _ _ => true
  | Event.setLoadBalancerAffinityTimeout _ _ => true
  | _ => false

/-- A stretch of code that only adds operations satisfying `P` to those issued
before it. -/
def Act.Emits {α : Type} (P : Event → Prop) (m : Act α) : Prop :=
  ∀ tr, ∃ ext, (m tr).2 = tr ++ ext ∧ ∀ e ∈ ext, P e

/-- The order of the operations of a successful pass of `handleAddOrUpdateVpc` on
the VPC `cachedVpc`: backend operations, the status patch, the call of
`createVpcLb` or `deleteVpcLb`, the subnet keys added to the subnet queue, and
last the call that connects the VPC to the external network, when the flag is
declared and the status lacks it, or the call that disconnects it, when the
status has the flag and it is not declared. -/
def PassOrder (key : String) (cachedVpc : VpcObject) (tr : List Event) : Prop :=
  ∃ (pre : List Event) (name : String) (status : VpcStatus) (patched : VpcObject)
      (lb : Event) (keys : List String) (ext : List Event),
    tr = pre ++ [Event.patchVpcStatus name status] ++ [lb] ++
        keys.map Event.addSubnetQueue ++ ext ∧
      (∀ e ∈ pre, e.isBackend = true) ∧
      (lb = Event.createVpcLb patched ∨ lb = Event.deleteVpcLb patched) ∧
      ((cachedVpc.Spec.EnableExternal = true ∧ cachedVpc.Status.EnableExternal = false ∧
          ext = [Event.handleAddVpcExternal key]) ∨
        (cachedVpc.Spec.EnableExternal = false ∧ cachedVpc.Status.EnableExternal = true ∧
          ext = [Event.handleDelVpcExternal key]) ∨
        (cachedVpc.Spec.EnableExternal = cachedVpc.Status.EnableExternal ∧ ext = []))

/-- What is specified of the protocol token `<proto>` of a match: `tcp` for a TCP
selector, `udp` for a UDP selector and `sctp` for an SCTP selector. -/
def ProtocolToken (p : Protocol) (token : String) : Prop :=
  (p = Protocol.TCP ∧ token = "tcp") ∨ (p = Protocol.UDP ∧ token = "udp") ∨
    (p = Protocol.SCTP ∧ token = "sctp")

/-- What is specified of the match `m` of a selector `sel` with a named port and no
end-port, `base` being the base predicate and `<proto>` the token of the
protocol of the selector (`tcp`, `udp` or `sctp`): for a name that is a key of
the named-port table, `m` is the base followed by ` && <proto>.dst == <PortId>`
for the port id of an entry of that name; for a nil table or a name the table
lacks, `m` is the base followed by ` && <proto>.dst == 0`. -/
def NamedPortMatch (base : String) (namedPortMap : Option (List (String × NamedPortInfo)))
    (sel : NetworkPolicyPort) (m : String) : Prop :=
  ∀ name : String, sel.Port = some (IntOrString.str name) → sel.EndPort = none →
    ∃ proto, ProtocolToken sel.Protocol proto ∧
      (∀ table, namedPortMap = some table → name ∈ table.map Prod.fst →
        ∃ info, (name, info) ∈ table ∧
          m = base ++ " && " ++ proto ++ ".dst == " ++ Itoa info.PortId) ∧
      ((namedPortMap = none ∨
          ∃ table, namedPortMap = some table ∧ name ∉ table.map Prod.fst) →
        m = base ++ " && " ++ proto ++ ".dst == 0")

/-- The name of one load balancer of a set, by kind: 0 TCP, 1 TCP with session affinity,
2 UDP, 3 UDP with session affinity. -/
def VpcLoadBalancer.name (lb : VpcLoadBalancer) : Fin 4 → String
  | 0 => lb.TcpLoadBalancer
  | 1 => lb.TcpSessLoadBalancer
  | 2 => lb.UdpLoadBalancer
  | 3 => lb.UdpSessLoadBalancer

/-! ## Deletion of a VPC (`vpc.go`, `handleDelVpc`) -/

/-- The operations `handleDelVpc` issues. -/
inductive DelEvent where
  | deleteVpcLb (vpc : VpcObject)
  | deleteLogicalRouter (lr : String)
  | handleDelVpcExternal (key : String)
  deriving DecidableEq, Repr

/-- The collaborators of `handleDelVpc`: each answers with its error, if any, and
may depend on the operations issued so far. -/
structure DelEnv where
  deleteVpcLb : List DelEvent → VpcObject → Option GoError
  deleteLogicalRouter : List DelEvent → String → Option GoError
  handleDelVpcExternal : List DelEvent → String → Option GoError

/-- The function `deleteVpcRouter`: the name of the router it deletes is its
argument. -/
def deleteVpcRouter (env : DelEnv) (tr : List DelEvent) (lr : String) :
    Option GoError × List DelEvent :=
  (env.deleteLogicalRouter tr lr, tr ++ [DelEvent.deleteLogicalRouter lr])

/-- The function `handleDelVpc`: the error it returns, if any, and the operations
it issues, in order. -/
def handleDelVpc (env : DelEnv) (vpc : VpcObject) : Option GoError × List DelEvent :=
  match env.deleteVpcLb [] vpc with
  | some e => (some e, [DelEvent.deleteVpcLb vpc])
  | none =>
    match deleteVpcRouter env [DelEvent.deleteVpcLb vpc] vpc.Status.Router with
    | (some e, tr) => (some e, tr)
    | (none, tr) =>
      match env.handleDelVpcExternal tr vpc.Name with
      | some e => (some e, tr ++ [DelEvent.handleDelVpcExternal vpc.Name])
      | none => (none, tr ++ [DelEvent.handleDelVpcExternal vpc.Name])

/-- Collaborators of `handleDelVpc` for the worked instances: every operation
succeeds. -/
def sampleDelEnv : DelEnv :=
  ⟨fun _ _ => none, fun _ _ => none, fun _ _ => none⟩

/-! ## The workers of the three VPC queues (`vpc.go`, `processNext…WorkItem`) -/

/-- An item taken from a work queue (an `interface{}`): a key, a VPC object, or
a value of another type. -/
inductive WorkItem where
  | key (s : String)
  | vpc (v : VpcObject)
  | other (description : String)
  deriving DecidableEq, Repr

/-- The errors a worker step hands to `utilruntime.HandleError`. -/
inductive WorkerError where
  | unexpectedItem (obj : WorkItem)
  | syncing (name : String) (e : HandlerError)
  deriving DecidableEq, Repr

/-- The operations a worker step issues on its queue, and its calls of
`utilruntime.HandleError`. -/
inductive QueueEvent where
  | done (obj : WorkItem)
  | forget (obj : WorkItem)
  | addRateLimited (obj : WorkItem)
  | handleError (e : WorkerError)
  deriving DecidableEq, Repr

/-- How a worker step ends: it returns whether the loop goes on, or the panic of
the handler goes through it. -/
inductive StepResult where
  | returned (goOn : Bool)
  | panicked (p : Panic)
  deriving DecidableEq, Repr

/-- The function `processNextUpdateStatusVpcWorkItem`. The arguments are the
answer of `Get` and the outcome of `handleUpdateVpcStatus` on a key. The
deferred `Done` runs when the inner function returns or panics. -/
def processNextUpdateStatusVpcWorkItem (obj : WorkItem) (shutdown : Bool)
    (handler : String → Outcome) : StepResult × List QueueEvent :=
  if shutdown then (StepResult.returned false, [])
  else
    match obj with
    | WorkItem.key key =>
      match handler key with
      | Outcome.panicked p => (StepResult.panicked p, [QueueEvent.done obj])
      | Outcome.returned (some e) =>
        (StepResult.returned true,
          [QueueEvent.addRateLimited (WorkItem.key key), QueueEvent.done obj,
            QueueEvent.handleError (WorkerError.syncing key e)])
      | Outcome.returned none =>
        (StepResult.returned true, [QueueEvent.forget obj, QueueEvent.done obj])
    | _ =>
      (StepResult.returned true,
        [QueueEvent.forget obj, QueueEvent.handleError (WorkerError.unexpectedItem obj),
          QueueEvent.done obj])

/-- The function `processNextAddVpcWorkItem`. The item is added again by the outer
function, after the deferred `Done` of the inner one. -/
def processNextAddVpcWorkItem (obj : WorkItem) (shutdown : Bool)
    (handler : String → Outcome) : StepResult × List QueueEvent :=
  if shutdown then (StepResult.returned false, [])
  else
    match obj with
    | WorkItem.key key =>
      match handler key with
      | Outcome.panicked p => (StepResult.panicked p, [QueueEvent.done obj])
      | Outcome.returned (some e) =>
        (StepResult.returned true,
          [QueueEvent.done obj, QueueEvent.handleError (WorkerError.syncing key e),
            QueueEvent.addRateLimited obj])
      | Outcome.returned none =>
        (StepResult.returned true, [QueueEvent.forget obj, QueueEvent.done obj])
    | _ =>
      (StepResult.returned true,
        [QueueEvent.forget obj, QueueEvent.handleError (WorkerError.unexpectedItem obj),
          QueueEvent.done obj])

/-- The function `processNextDeleteVpcWorkItem`; the handler is `handleDelVpc`. -/
def processNextDeleteVpcWorkItem (obj : WorkItem) (shutdown : Bool)
    (handler : VpcObject → Outcome) : StepResult × List QueueEvent :=
  if shutdown then (StepResult.returned false, [])
  else
    match obj with
    | WorkItem.vpc vpc =>
      match handler vpc with
      | Outcome.panicked p => (StepResult.panicked p, [QueueEvent.done obj])
      | Outcome.returned (some e) =>
        (StepResult.returned true,
          [QueueEvent.addRateLimited obj, QueueEvent.done obj,
            QueueEvent.handleError (WorkerError.syncing vpc.Name e)])
      | Outcome.returned none =>
        (StepResult.returned true, [QueueEvent.forget obj, QueueEvent.done obj])
    | _ =>
      (StepResult.returned true,
        [QueueEvent.forget obj, QueueEvent.handleError (WorkerError.unexpectedItem obj),
          QueueEvent.done obj])

/-! ## Load balancers (`pkg/ovs`, `ovn-nb-load_balancer.go`) -/

/-- The columns of a row of the table of load balancers (`ovnnb.LoadBalancer`)
that creation, lookup and deletion touch; `Protocol` is a pointer. -/
structure LoadBalancer where
  UUID : String
  Name : String
  Protocol : Option String
  SelectionFields : List String
  deriving DecidableEq, Repr

/-- An operation of a transaction on the table of load balancers. -/
inductive LbOperation where
  | insert (lb : LoadBalancer)
  | delete (lb : LoadBalancer)
  deriving DecidableEq, Repr

/-- The database client the functions call, as answers on the rows `db` of the
table: `list` is `WhereCache(predicate).List`, `create` is `Create`, `delete`
is `Where(lb).Delete`, and `transact` is `Transact`, which answers with the rows
after the transaction and its error, if any. -/
structure NbClient where
  list : List LoadBalancer → (LoadBalancer → Bool) → Except String (List LoadBalancer)
  create : LoadBalancer → Except String (List LbOperation)
  delete : LoadBalancer → Except String (List LbOperation)
  transact : List LoadBalancer → String → List LbOperation → List LoadBalancer × Option String

/-- The errors of the functions on load balancers: an error of the client
returned as it is, or one of the messages built with `fmt.Errorf`. -/
inductive LbError where
  | client (cause : String)
  | list (lbName cause : String)
  | notFound (lbName : String)
  | moreThanOne (lbName : String)
  | generateCreate (lbName cause : String)
  | create (lbName cause : String)
  | delete (lbName cause : String)
  deriving DecidableEq, Repr

/-- What a mutating function leaves: the rows of the table, the transactions it
sent, and the error it returns, if any. -/
structure LbResult where
  db : List LoadBalancer
  transactions : List (String × List LbOperation)
  err : Option LbError
  deriving DecidableEq, Repr

/-- The function `GetLoadBalancer`. -/
def GetLoadBalancer (client : NbClient) (db : List LoadBalancer) (lbName : String)
    (ignoreNotFound : Bool) : Except LbError (Option LoadBalancer) :=
  match client.list db (fun lb => lb.Name == lbName) with
  | Except.error e => Except.error (LbError.list lbName e)
  | Except.ok lbList =>
    match lbList with
    | [] => if ignoreNotFound then Except.ok none else Except.error (LbError.notFound lbName)
    | [lb] => Except.ok (some lb)
    | _ :: _ :: _ => Except.error (LbError.moreThanOne lbName)

/-- The function `LoadBalancerExists`: `lrp != nil` and the error. -/
def LoadBalancerExists (client : NbClient) (db : List LoadBalancer) (lbName : String) :
    Bool × Option LbError :=
  match GetLoadBalancer client db lbName true with
  | Except.ok lrp => (lrp.isSome, none)
  | Except.error e => (false, some e)

/-- The function `CreateLoadBalancer`; `uuid` is the value of `ovsclient.NamedUUID()`. -/
def CreateLoadBalancer (client : NbClient) (uuid : String) (db : List LoadBalancer)
    (lbName protocol selectFields : String) : LbResult :=
  match LoadBalancerExists client db lbName with
  | (_, some e) => ⟨db, [], some e⟩
  | (true, none) => ⟨db, [], none⟩
  | (false, none) =>
    match client.create
      ⟨uuid, lbName, some protocol, if selectFields.length ≠ 0 then [selectFields] else []⟩ with
    | Except.error e => ⟨db, [], some (LbError.generateCreate lbName e)⟩
    | Except.ok op =>
      match client.transact db "lb-add" op with
      | (db1, some e) => ⟨db1, [("lb-add", op)], some (LbError.create lbName e)⟩
      | (db1, none) => ⟨db1, [("lb-add", op)], none⟩

/-- The function `DeleteLoadBalancerOp`: the operations that delete the load
balancer, none when it is absent. -/
def DeleteLoadBalancerOp (client : NbClient) (db : List LoadBalancer) (lbName : String) :
    Except LbError (List LbOperation) :=
  match GetLoadBalancer client db lbName true with
  | Except.error e => Except.error e
  | Except.ok none => Except.ok []
  | Except.ok (some lb) =>
    match client.delete lb with
    | Except.error e => Except.error (LbError.client e)
    | Except.ok op => Except.ok op

/-- The function `DeleteLoadBalancer`. After an error of `DeleteLoadBalancerOp`
the code executes `return nil`. -/
def DeleteLoadBalancer (client : NbClient) (db : List LoadBalancer) (lbName : String) :
    LbResult :=
  match DeleteLoadBalancerOp client db lbName with
  | Except.error _ => ⟨db, [], none⟩
  | Except.ok op =>
    match client.transact db "lb-del" op with
    | (db1, some e) => ⟨db1, [("lb-del", op)], some (LbError.delete lbName e)⟩
    | (db1, none) => ⟨db1, [("lb-del", op)], none⟩

/-- The rows of the table after the operations of a committed transaction: an
insertion appends its row, a deletion removes the rows with the UUID of its row. -/
def applyOperations : List LoadBalancer → List LbOperation → List LoadBalancer
  | db, [] => db
  | db, LbOperation.insert lb :: ops => applyOperations (db ++ [lb]) ops
  | db, LbOperation.delete lb :: ops =>
    applyOperations (db.filter (fun row => row.UUID != lb.UUID)) ops

/-- A client that answers from the table and commits: it lists the rows that
satisfy the predicate, builds the one operation asked for, and every transaction
commits its operations. -/
def NbClient.Commits (client : NbClient) : Prop :=
  (∀ db p, client.list db p = Except.ok (db.filter p)) ∧
  (∀ lb, client.create lb = Except.ok [LbOperation.insert lb]) ∧
  (∀ lb, client.delete lb = Except.ok [LbOperation.delete lb]) ∧
  (∀ db method ops, client.transact db method ops = (applyOperations db ops, none))

/-- The client of the worked instances: it answers from the table and commits. -/
def sampleNbClient : NbClient :=
  ⟨fun db p => Except.ok (db.filter p), fun lb => Except.ok [LbOperation.insert lb],
    fun lb => Except.ok [LbOperation.delete lb],
    fun db _ ops => (applyOperations db ops, none)⟩

/-- Two rows of the worked instances that carry the same name. -/
def sampleLbRows : List LoadBalancer :=
  [⟨"uuid-1", "lb", some "tcp", []⟩, ⟨"uuid-2", "lb", some "tcp", []⟩]

/-! ## Worked instances and contracts for the routes, the workers and the deletion -/

/-- A VPC object `vpc1` that declares one destination route and whose status was
patched by an earlier pass. -/
def sampleVpcWithRoute : VpcObject :=
  ⟨"vpc1", [], [], ⟨[], [⟨PolicyDst, "10.0.0.0/24", "10.0.0.1"⟩], none, [], false⟩,
    ⟨false, "vpc1", true, [], [], "", "", "", "", "", false⟩⟩

/-- The record the backend holds after the route of `sampleVpcWithRoute` was
installed: the policy is the one `convertPolicy` gave to
`AddLogicalRouterStaticRoute`. -/
def sampleInstalledRoute : LogicalRouterStaticRoute :=
  ⟨some (convertPolicy PolicyDst), "10.0.0.0/24", "10.0.0.1"⟩

/-- Collaborators of a second pass over the unchanged `sampleVpcWithRoute`: the
router lists the route the first pass installed. -/
def sampleEnvSecondPass : Env :=
  { sampleEnv sampleVpcWithRoute (Except.error ⟨"subnet join not found", true⟩) [] with
    listLogicalRouterStaticRoutes := fun _ _ => Except.ok [sampleInstalledRoute] }

/-- The default VPC `ovn-cluster` with a declared list of policy routes that is
empty (not nil). -/
def sampleDefaultVpcEmptyPolicies : VpcObject :=
  ⟨"ovn-cluster", [], [], ⟨[], [], some [], [], false⟩, sampleStatus⟩

/-- A reroute policy installed on the router. -/
def sampleReroutePolicy : LogicalRouterPolicy :=
  ⟨29000, "ip4.src == 10.16.0.0/16", "reroute", ["100.64.0.2"]⟩

/-- Collaborators of a pass over `sampleDefaultVpcEmptyPolicies`: the join subnet
is found and the router holds `sampleReroutePolicy`. -/
def sampleEnvDefaultVpc : Env :=
  { sampleEnv sampleDefaultVpcEmptyPolicies
      (Except.ok ⟨"join", "ovn-cluster", "100.64.0.1", false, false⟩) [] with
    listLogicalRouterPolicies := fun _ _ => Except.ok [sampleReroutePolicy] }

/-- An allow policy as the backend holds it: it has no next hop. -/
def sampleAllowPolicy : LogicalRouterPolicy :=
  ⟨31000, "ip4.dst == 10.16.0.0/16", "allow", []⟩

/-- Collaborators whose router holds `sampleAllowPolicy`. -/
def sampleEnvAllowPolicy : Env :=
  { sampleEnv (sampleVpcObject "vpc1" false) (Except.error ⟨"subnet join not found", true⟩) []
    with listLogicalRouterPolicies := fun _ _ => Except.ok [sampleAllowPolicy] }

/-- Whether an operation is a call of `Done`. -/
def QueueEvent.isDone : QueueEvent → Bool
  | QueueEvent.done _ => true
  | _ => false

/-- Whether an operation is a call of `Forget`. -/
def QueueEvent.isForget : QueueEvent → Bool
  | QueueEvent.forget _ => true
  | _ => false

/-- Whether an operation is a call of `AddRateLimited`. -/
def QueueEvent.isAddRateLimited : QueueEvent → Bool
  | QueueEvent.addRateLimited _ => true
  | _ => false

/-- What is specified of a worker step on the item `obj` of the expected type,
`outcome` being the outcome of the handler on it and `step` the step as a
function of the shutdown answer of `Get`: after an error the item is added
again with `AddRateLimited`, by the one call of `AddRateLimited`, and `Forget`
is not called; after a success the item is forgotten, by the one call of
`Forget`, and `AddRateLimited` is not called; in both cases `Done` is called
once, on the item; and the step returns false exactly on shutdown. -/
def WorkerContract (obj : WorkItem) (outcome : Outcome)
    (step : Bool → StepResult × List QueueEvent) : Prop :=
  (∀ e, outcome = Outcome.returned (some e) →
    (step false).2.countP QueueEvent.isAddRateLimited = 1 ∧
    QueueEvent.addRateLimited obj ∈ (step false).2 ∧
    (step false).2.countP QueueEvent.isForget = 0 ∧
    (step false).2.countP QueueEvent.isDone = 1 ∧
    QueueEvent.done obj ∈ (step false).2) ∧
  (outcome = Outcome.returned none →
    (step false).2.countP QueueEvent.isForget = 1 ∧
    QueueEvent.forget obj ∈ (step false).2 ∧
    (step false).2.countP QueueEvent.isAddRateLimited = 0 ∧
    (step false).2.countP QueueEvent.isDone = 1 ∧
    QueueEvent.done obj ∈ (step false).2) ∧
  (∀ shutdown, (step shutdown).1 = StepResult.returned false ↔ shutdown = true)

/-- Whether an operation cleans policies of a router: a call of
`ClearLogicalRouterPolicy` or of `DeleteLogicalRouterPolicy`. -/
def Event.isPolicyCleanup : Event → Bool
  | Event.clearLogicalRouterPolicy _ => true
  | Event.deleteLogicalRouterPolicy _ _ _ => true
  | _ => false

/-! ## The external connection of a VPC (`vpc.go`, `handleAddVpcExternal`, `handleDelVpcExternal`) -/

/-- The field of the subnet of the external gateway switch that
`handleAddVpcExternal` reads (`Spec.CIDRBlock`). -/
structure ExternalSubnet where
  CIDRBlock : String
  deriving DecidableEq, Repr

/-- The fields of an `OvnEip` that the external handlers read. -/
structure OvnEip where
  Name : String
  V4Ip : String
  MacAddress : String
  deriving DecidableEq, Repr

/-- The operations the handlers `handleAddVpcExternal` and `handleDelVpcExternal`
issue, with their arguments. -/
inductive ExternalEvent where
  | acquireIpAddress (subnetName name nicName : String)
  | createOrUpdateCrdOvnEip (name subnet v4ip v6ip mac usage : String)
  | patchOvnEipStatus (name : String)
  | createLogicalPatchPort (lsName lrName lspName lrpName ip mac : String)
      (chassises : List String)
  | removeLogicalPatchPort (lspName lrpName : String)
  | patchVpcStatus (name : String) (status : VpcStatus)
  | handleAddOvnEipFinalizer (eip : OvnEip)
  | handleDelOvnEipFinalizer (eip : OvnEip)
  | deleteOvnEip (name : String)
  deriving DecidableEq, Repr

/-- The collaborators of the external handlers beyond the configuration: the
listers, the address allocation, the OVN client and the API server. An answer
may depend on the operations the handler issued so far. `LrpUsingEip` is the
constant `util.LrpUsingEip`; `getGatewayChassis` and `GetIpAddrWithMask` are the
functions of these names. -/
structure ExternalEnv where
  LrpUsingEip : String
  getSubnet : List ExternalEvent → String → Except GoError ExternalSubnet
  getOvnEip : List ExternalEvent → String → Except GoError OvnEip
  acquireIpAddress : List ExternalEvent → String → String → String →
    Except GoError (String × String × String)
  createOrUpdateCrdOvnEip : List ExternalEvent → String → String → String → String →
    String → String → Option GoError
  patchOvnEipStatus : List ExternalEvent → String → Option GoError
  getConfigMap : List ExternalEvent → String → String → Except GoError (List (String × String))
  getGatewayChassis : List (String × String) → Except GoError (List String)
  GetIpAddrWithMask : String → String → String
  createLogicalPatchPort : List ExternalEvent → String → String → String → String → String →
    String → List String → Option GoError
  removeLogicalPatchPort : List ExternalEvent → String → String → Option GoError
  listerGetVpc : List ExternalEvent → String → Except GoError VpcObject
  patchVpcStatus : List ExternalEvent → String → VpcStatus → Option GoError
  handleAddOvnEipFinalizer : List ExternalEvent → OvnEip → Option GoError
  handleDelOvnEipFinalizer : List ExternalEvent → OvnEip → Option GoError
  deleteOvnEip : List ExternalEvent → String → Option GoError

/-- A stretch of code of an external handler: from the operations issued so far
to its result and the operations issued after it. -/
def XAct (α : Type) : Type := List ExternalEvent → Res α × List ExternalEvent

/-- Sequencing: what follows runs only after a value. -/
def XAct.bind {α β : Type} (m : XAct α) (f : α → XAct β) : XAct β := fun tr =>
  match m tr with
  | (Res.ok a, tr1) => f a tr1
  | (Res.fail e, tr1) => (Res.fail e, tr1)
  | (Res.panic p, tr1) => (Res.panic p, tr1)

/-- A value, with no operation. -/
def XAct.pure {α : Type} (a : α) : XAct α := fun tr => (Res.ok a, tr)

/-- The return of an error. -/
def XAct.fail {α : Type} (e : HandlerError) : XAct α := fun tr => (Res.fail e, tr)

/-- An operation that answers with its error, if any; the error is returned as
it is. -/
def XAct.call (ev : ExternalEvent) (answer : List ExternalEvent → Option GoError) :
    XAct Unit := fun tr =>
  match answer tr with
  | none => (Res.ok (), tr ++ [ev])
  | some e => (Res.fail (HandlerError.collaborator e), tr ++ [ev])

/-- An operation that answers with a value or an error. -/
def XAct.request {α : Type} (ev : ExternalEvent)
    (answer : List ExternalEvent → Except GoError α) : XAct α := fun tr =>
  match answer tr with
  | Except.ok a => (Res.ok a, tr ++ [ev])
  | Except.error e => (Res.fail (HandlerError.collaborator e), tr ++ [ev])

/-- A read whose error is returned as it is. -/
def XAct.read {α : Type} (answer : List ExternalEvent → Except GoError α) : XAct α := fun tr =>
  match answer tr with
  | Except.ok a => (Res.ok a, tr)
  | Except.error e => (Res.fail (HandlerError.collaborator e), tr)

/-- The block of `handleAddVpcExternal` that gives the IPv4 address and the MAC of
the router port: those of the `OvnEip` the lister holds, or, after a not-found
error, those `acquireIpAddress` allocates, which are then recorded with
`createOrUpdateCrdOvnEip`. Another error of the lister is returned. -/
def lrpEipAddress (env : Env) (x : ExternalEnv) (lrpEipName : String) :
    XAct (String × String) := fun tr =>
  match x.getOvnEip tr lrpEipName with
  | Except.ok cachedEip => (Res.ok (cachedEip.V4Ip, cachedEip.MacAddress), tr)
  | Except.error e =>
    if !e.notFound then (Res.fail (HandlerError.collaborator e), tr)
    else
      XAct.bind
        (XAct.request
          (ExternalEvent.acquireIpAddress env.config.ExternalGatewaySwitch lrpEipName
            lrpEipName)
          (fun t => x.acquireIpAddress t env.config.ExternalGatewaySwitch lrpEipName
            lrpEipName))
        (fun acquired =>
          XAct.bind
            (XAct.call
              (ExternalEvent.createOrUpdateCrdOvnEip lrpEipName
                env.config.ExternalGatewaySwitch acquired.1 acquired.2.1 acquired.2.2
                x.LrpUsingEip)
              (fun t => x.createOrUpdateCrdOvnEip t lrpEipName
                env.config.ExternalGatewaySwitch acquired.1 acquired.2.1 acquired.2.2
                x.LrpUsingEip))
            (fun _ => XAct.pure (acquired.1, acquired.2.2))) tr

/-- The block of `handleAddVpcExternal` that reads the gateway chassis: an error
of the config-map lookup other than not-found is returned; after a not-found
error the code reads `cm.Data` of a nil config map. -/
def gatewayChassis (env : Env) (x : ExternalEnv) : XAct (List String) := fun tr =>
  match x.getConfigMap tr env.config.ExternalGatewayConfigNS env.util.ExternalGatewayConfig with
  | Except.error e =>
    if !e.notFound then (Res.fail (HandlerError.collaborator e), tr)
    else (Res.panic (Panic.nilDereference "cm"), tr)
  | Except.ok data =>
    match x.getGatewayChassis data with
    | Except.error e => (Res.fail (HandlerError.collaborator e), tr)
    | Except.ok chassises => (Res.ok chassises, tr)

/-- The status patch of the external handlers: the status of the copy of the VPC
the lister gave, with `EnableExternal` set to the declared flag, is serialized
and sent as a merge patch of the sub-resource `status`. -/
def patchEnableExternal (env : Env) (x : ExternalEnv) (cachedVpc : VpcObject) :
    XAct Unit := fun tr =>
  match env.statusBytes
      { cachedVpc.Status with EnableExternal := cachedVpc.Spec.EnableExternal } with
  | some e => (Res.fail (HandlerError.collaborator e), tr)
  | none =>
    XAct.call
      (ExternalEvent.patchVpcStatus cachedVpc.Name
        { cachedVpc.Status with EnableExternal := cachedVpc.Spec.EnableExternal })
      (fun t => x.patchVpcStatus t cachedVpc.Name
        { cachedVpc.Status with EnableExternal := cachedVpc.Spec.EnableExternal }) tr

/-- The function `handleAddVpcExternal`. The error for an empty address or MAC is
built with `fmt.Errorf`. -/
def handleAddVpcExternal (env : Env) (x : ExternalEnv) (key : String) : XAct Unit :=
  XAct.bind (XAct.read (fun t => x.getSubnet t env.config.ExternalGatewaySwitch))
    (fun cachedSubnet =>
  XAct.bind (lrpEipAddress env x (key ++ "-" ++ env.config.ExternalGatewaySwitch))
    (fun address =>
  if address.1 = "" ∨ address.2 = "" then
    XAct.fail (HandlerError.collaborator
      ⟨"lrp '" ++ (key ++ "-" ++ env.config.ExternalGatewaySwitch) ++
        "' ip or mac should not be empty", false⟩)
  else
  XAct.bind
    (XAct.call
      (ExternalEvent.patchOvnEipStatus (key ++ "-" ++ env.config.ExternalGatewaySwitch))
      (fun t => x.patchOvnEipStatus t (key ++ "-" ++ env.config.ExternalGatewaySwitch)))
    (fun _ =>
  XAct.bind (gatewayChassis env x) (fun chassises =>
  XAct.bind
    (XAct.call
      (ExternalEvent.createLogicalPatchPort env.config.ExternalGatewaySwitch key
        (env.config.ExternalGatewaySwitch ++ "-" ++ key)
        (key ++ "-" ++ env.config.ExternalGatewaySwitch)
        (x.GetIpAddrWithMask address.1 cachedSubnet.CIDRBlock) address.2 chassises)
      (fun t => x.createLogicalPatchPort t env.config.ExternalGatewaySwitch key
        (env.config.ExternalGatewaySwitch ++ "-" ++ key)
        (key ++ "-" ++ env.config.ExternalGatewaySwitch)
        (x.GetIpAddrWithMask address.1 cachedSubnet.CIDRBlock) address.2 chassises))
    (fun _ => fun tr =>
  match x.listerGetVpc tr key with
  | Except.error e =>
    if e.notFound then (Res.ok (), tr) else (Res.fail (HandlerError.collaborator e), tr)
  | Except.ok cachedVpc =>
    XAct.bind (patchEnableExternal env x cachedVpc) (fun _ =>
    XAct.bind
      (XAct.read (fun t => x.getOvnEip t (key ++ "-" ++ env.config.ExternalGatewaySwitch)))
      (fun cachedEip =>
    XAct.call (ExternalEvent.handleAddOvnEipFinalizer cachedEip)
      (fun t => x.handleAddOvnEipFinalizer t cachedEip))) tr)))))

/-- The end of `handleDelVpcExternal`, after the status patch: the `OvnEip` of the
router port loses its finalizer and is deleted; a not-found error of the lister
or of the deletion ends the function with nil. -/
def deleteLrpEip (x : ExternalEnv) (lrpName : String) : XAct Unit := fun tr =>
  match x.getOvnEip tr lrpName with
  | Except.error e =>
    if e.notFound then (Res.ok (), tr) else (Res.fail (HandlerError.collaborator e), tr)
  | Except.ok cachedEip =>
    XAct.bind
      (XAct.call (ExternalEvent.handleDelOvnEipFinalizer cachedEip)
        (fun t => x.handleDelOvnEipFinalizer t cachedEip))
      (fun _ => fun t =>
        match x.deleteOvnEip t lrpName with
        | none => (Res.ok (), t ++ [ExternalEvent.deleteOvnEip lrpName])
        | some e =>
          if !e.notFound then
            (Res.fail (HandlerError.collaborator e), t ++ [ExternalEvent.deleteOvnEip lrpName])
          else (Res.ok (), t ++ [ExternalEvent.deleteOvnEip lrpName])) tr

/-- The function `handleDelVpcExternal`. -/
def handleDelVpcExternal (env : Env) (x : ExternalEnv) (key : String) : XAct Unit := fun tr =>
  match x.listerGetVpc tr key with
  | Except.error e =>
    if e.notFound then (Res.ok (), tr) else (Res.fail (HandlerError.collaborator e), tr)
  | Except.ok cachedVpc =>
    XAct.bind
      (XAct.call
        (ExternalEvent.removeLogicalPatchPort (env.config.ExternalGatewaySwitch ++ "-" ++ key)
          (key ++ "-" ++ env.config.ExternalGatewaySwitch))
        (fun t => x.removeLogicalPatchPort t (env.config.ExternalGatewaySwitch ++ "-" ++ key)
          (key ++ "-" ++ env.config.ExternalGatewaySwitch)))
      (fun _ =>
    XAct.bind (patchEnableExternal env x cachedVpc) (fun _ =>
    deleteLrpEip x (key ++ "-" ++ env.config.ExternalGatewaySwitch))) tr

/-- The part of `handleAddOrUpdateVpc` from the status patch to the subnet keys
added to the subnet queue. -/
def publishVpcHead (env : Env) (key : String) (vpc : VpcObject) : Act Unit :=
  Act.bind (patchStatus env vpc) (fun patched =>
  Act.bind (ensureVpcLb env patched) (fun _ =>
  Act.bind (Act.read env.listSubnets) (fun subnets =>
  notifySubnets key subnets)))

/-- The end of `handleAddOrUpdateVpc` with the bodies of the external handlers in
place of their calls. -/
def reconcileExternalExpanded (env : Env) (x : ExternalEnv) (key : String)
    (cachedVpc : VpcObject) : XAct Unit :=
  XAct.bind
    (if cachedVpc.Spec.EnableExternal = true ∧ cachedVpc.Status.EnableExternal = false then
      handleAddVpcExternal env x key
    else XAct.pure ()) (fun _ =>
  if cachedVpc.Spec.EnableExternal = false ∧ cachedVpc.Status.EnableExternal = true then
    handleDelVpcExternal env x key
  else XAct.pure ())

/-- The function `handleAddOrUpdateVpc` with the bodies of `handleAddVpcExternal`
and `handleDelVpcExternal` in place of their calls: how the pass ends, the
operations it issues up to the subnet keys, and the operations of the external
handler it then runs, both in order. -/
def handleAddOrUpdateVpcExpanded (env : Env) (x : ExternalEnv) (key : String) :
    Outcome × List Event × List ExternalEvent :=
  match env.getVpc [] key with
  | Except.error e =>
    if e.notFound then (Outcome.returned none, [], [])
    else (Outcome.returned (some (HandlerError.collaborator e)), [], [])
  | Except.ok cachedVpc =>
    match Act.bind (reconcileBackend env key cachedVpc)
        (fun vpc => publishVpcHead env key vpc) [] with
    | (Res.fail e, tr) => (Outcome.returned (some e), tr, [])
    | (Res.panic p, tr) => (Outcome.panicked p, tr, [])
    | (Res.ok _, tr) =>
      match reconcileExternalExpanded env x key cachedVpc [] with
      | (Res.ok _, xtr) => (Outcome.returned none, tr, xtr)
      | (Res.fail e, xtr) => (Outcome.returned (some e), tr, xtr)
      | (Res.panic p, xtr) => (Outcome.panicked p, tr, xtr)

/-- Collaborators of the external handlers for the worked instances: the lister
holds the copy `listerVpc` of the VPC, an `OvnEip` for every name and the
config map of the gateway; every operation succeeds. -/
def sampleExternalEnv (listerVpc : VpcObject) : ExternalEnv where
  LrpUsingEip := "lrp"
  getSubnet := fun _ _ => Except.ok ⟨"192.168.0.0/24"⟩
  getOvnEip := fun _ name => Except.ok ⟨name, "192.168.0.10", "00:00:00:0a:0b:0c"⟩
  acquireIpAddress := fun _ _ _ _ => Except.ok ("192.168.0.10", "", "00:00:00:0a:0b:0c")
  createOrUpdateCrdOvnEip := fun _ _ _ _ _ _ _ => none
  patchOvnEipStatus := fun _ _ => none
  getConfigMap := fun _ _ _ => Except.ok [("external-gw-nodes", "node1")]
  getGatewayChassis := fun _ => Except.ok ["chassis-1"]
  GetIpAddrWithMask := fun ip _ => ip ++ "/24"
  createLogicalPatchPort := fun _ _ _ _ _ _ _ _ => none
  removeLogicalPatchPort := fun _ _ _ => none
  listerGetVpc := fun _ key =>
    if key = listerVpc.Name then Except.ok listerVpc
    else Except.error ⟨"vpc not found", true⟩
  patchVpcStatus := fun _ _ _ => none
  handleAddOvnEipFinalizer := fun _ _ => none
  handleDelOvnEipFinalizer := fun _ _ => none
  deleteOvnEip := fun _ _ => none

/-- A stretch of code of an external handler that only adds operations
satisfying `P` to those issued before it. -/
def XAct.Emits {α : Type} (P : ExternalEvent → Prop) (m : XAct α) : Prop :=
  ∀ tr, ∃ ext, (m tr).2 = tr ++ ext ∧ ∀ e ∈ ext, P e

/-! ## Lemmas on decimal rendering and parsing -/

theorem digitChar_isDigit (d : Nat) (h : d < 10) : (digitChar d).isDigit = true := by
  interval_cases d <;> decide

theorem digitChar_val (d : Nat) (h : d < 10) : digitVal (digitChar d) = d := by
  interval_cases d <;> decide

theorem isDigit_ne (c x : Char) (h : c.isDigit = true) (hx : x.isDigit = false) : c ≠ x := by
  intro hc; rw [hc, hx] at h; exact Bool.false_ne_true h

/-- Parsing the digits of `n` in front of `rest`. -/
theorem parseDigits_natDigits (fuel : Nat) :
    ∀ (n : Nat) (acc : List Char), n < fuel →
      ∃ pre, natDigits fuel n acc = pre ++ acc ∧ pre ≠ [] ∧
        (∀ c ∈ pre, c.isDigit = true) ∧
        ∀ (a : Nat) (rest : List Char), ∃ k, parseDigits (pre ++ rest) a = parseDigits rest (a * 10 ^ k + n) := by
  induction fuel with
  | zero => intro n acc h; omega
  | succ f ih =>
    intro n acc h
    unfold natDigits
    by_cases hn : n < 10
    · rw [if_pos hn]
      refine ⟨[digitChar n], rfl, by simp, ?_, ?_⟩
      · intro c hc
        rw [List.mem_singleton] at hc
        exact hc ▸ digitChar_isDigit n hn
      · intro a rest
        refine ⟨1, ?_⟩
        simp [parseDigits, digitChar_isDigit n hn, digitChar_val n hn]
    · rw [if_neg hn]
      obtain ⟨pre, h1, h2, h3, h4⟩ := ih (n / 10) (digitChar (n % 10) :: acc) (by omega)
      have hm : n % 10 < 10 := Nat.mod_lt _ (by decide)
      refine ⟨pre ++ [digitChar (n % 10)], by rw [h1]; simp, by simp, ?_, ?_⟩
      · intro c hc
        rcases List.mem_append.1 hc with hc | hc
        · exact h3 c hc
        · rw [List.mem_singleton] at hc
          exact hc ▸ digitChar_isDigit _ hm
      · intro a rest
        obtain ⟨k, hk⟩ := h4 a (digitChar (n % 10) :: rest)
        refine ⟨k + 1, ?_⟩
        rw [List.append_assoc, List.singleton_append, hk]
        simp only [parseDigits, digitChar_isDigit _ hm, digitChar_val _ hm, if_true]
        congr 1
        have := Nat.div_add_mod n 10
        rw [pow_succ]
        nlinarith [this]

theorem natToDec_spec (n : Nat) :
    natToDec n ≠ [] ∧ (∀ c ∈ natToDec n, c.isDigit = true) ∧
      parseDigits (natToDec n) 0 = some n := by
  obtain ⟨pre, h1, h2, h3, h4⟩ := parseDigits_natDigits (n + 1) n [] (Nat.lt_succ_self n)
  rw [List.append_nil] at h1
  unfold natToDec
  rw [h1]
  refine ⟨h2, h3, ?_⟩
  obtain ⟨k, hk⟩ := h4 0 []
  rw [List.append_nil] at hk
  rw [hk]
  simp [parseDigits]

/-- Parsing inverts rendering: `strconv.Atoi(strconv.Itoa(i)) = i`. -/
theorem Atoi_Itoa (i : Int) : Atoi (Itoa i) = some i := by
  cases i with
  | ofNat n =>
    obtain ⟨h1, h2, h3⟩ := natToDec_spec n
    unfold Atoi Itoa
    simp only
    cases hd : natToDec n with
    | nil => exact absurd hd h1
    | cons c cs =>
      have hc : c.isDigit = true := h2 c (by rw [hd]; exact List.mem_cons_self _ _)
      have hm : c ≠ '-' := isDigit_ne c '-' hc (by decide)
      have hp : c ≠ '+' := isDigit_ne c '+' hc (by decide)
      simp only [if_neg hm, if_neg hp]
      rw [← hd, h3]
      rfl
  | negSucc n =>
    obtain ⟨h1, h2, h3⟩ := natToDec_spec (n + 1)
    unfold Atoi Itoa
    simp only [if_true, if_neg h1, h3]
    rfl

theorem Itoa_injective (i j : Int) (h : Itoa i = Itoa j) : i = j := by
  have := Atoi_Itoa i
  rw [h, Atoi_Itoa j] at this
  exact (Option.some.inj this).symm

/-- A rendered integer consists of decimal digits and at most a leading minus sign. -/
theorem Itoa_chars (i : Int) (c : Char) (hc : c ∈ (Itoa i).data) :
    c.isDigit = true ∨ c = '-' := by
  cases i with
  | ofNat n => exact Or.inl ((natToDec_spec n).2.1 c hc)
  | negSucc n =>
    have : c ∈ '-' :: natToDec (n + 1) := hc
    rcases List.mem_cons.1 this with h | h
    · exact Or.inr h
    · exact Or.inl ((natToDec_spec (n + 1)).2.1 c h)

/-! ## Lemmas on strings -/

/-- Two decompositions of one list at the first element outside `p` coincide. -/
theorem split_first (p : Char → Bool) :
    ∀ (l1 l2 r1 r2 : List Char) (x1 x2 : Char),
      (∀ c ∈ l1, p c = true) → (∀ c ∈ l2, p c = true) → p x1 = false → p x2 = false →
      l1 ++ x1 :: r1 = l2 ++ x2 :: r2 → l1 = l2 ∧ x1 = x2 ∧ r1 = r2 := by
  intro l1
  induction l1 with
  | nil =>
    intro l2 r1 r2 x1 x2 _ h2 hx1 _ h
    cases l2 with
    | nil => simp at h; exact ⟨rfl, h.1, h.2⟩
    | cons y ys =>
      simp at h
      have := h2 y (List.mem_cons_self _ _)
      rw [← h.1, hx1] at this
      exact absurd this Bool.false_ne_true
  | cons y ys ih =>
    intro l2 r1 r2 x1 x2 h1 h2 hx1 hx2 h
    cases l2 with
    | nil =>
      simp at h
      have := h1 y (List.mem_cons_self _ _)
      rw [h.1, hx2] at this
      exact absurd this Bool.false_ne_true
    | cons z zs =>
      simp only [List.cons_append, List.cons.injEq] at h
      obtain ⟨e1, e2, e3⟩ := ih zs r1 r2 x1 x2 (fun c hc => h1 c (List.mem_cons_of_mem _ hc))
        (fun c hc => h2 c (List.mem_cons_of_mem _ hc)) hx1 hx2 h.2
      exact ⟨by rw [h.1, e1], e2, e3⟩

theorem staticKey_data (item : StaticRoute) :
    (getStaticRouteItemKey item).data =
      (if item.Policy = PolicyDst then 'd' else 's') :: (if item.Policy = PolicyDst then 's' else 'r')
        :: (if item.Policy = PolicyDst then 't' else 'c') :: ':' ::
        (item.CIDR.data ++ '=' :: '>' :: item.NextHopIP.data) := by
  unfold getStaticRouteItemKey
  split <;> simp [String.data_append]


theorem policyKey_data (a : PolicyRoute) :
    (getPolicyRouteItemKey a).data =
      (Itoa a.Priority).data ++ ':' :: (a.Match.data ++ ':' :: (a.Action.data ++ ':' ::
        a.NextHopIP.data)) := by
  unfold getPolicyRouteItemKey
  simp [String.data_append]

theorem policyKey_rev (a : PolicyRoute) :
    (getPolicyRouteItemKey a).data.reverse =
      a.NextHopIP.data.reverse ++ ':' :: (a.Action.data.reverse ++ ':' ::
        (a.Match.data.reverse ++ ':' :: (Itoa a.Priority).data.reverse)) := by
  rw [policyKey_data]
  simp

/-- Read backwards, each action starts with a run of IP-literal characters that
is followed by a character outside that alphabet; run and character tell the
actions apart. -/
theorem action_signature (A : String)
    (h : A = PolicyRouteActionAllow ∨ A = PolicyRouteActionDrop ∨
      A = PolicyRouteActionReroute) :
    ∃ s x t, A.data.reverse = s ++ x :: t ∧ (∀ c ∈ s, isIPChar c = true) ∧
      isIPChar x = false ∧
      ((s = [] ∧ x = 'w' ∧ A = PolicyRouteActionAllow) ∨
        (s = [] ∧ x = 'p' ∧ A = PolicyRouteActionDrop) ∨
        (s = ['e'] ∧ x = 't' ∧ A = PolicyRouteActionReroute)) := by
  rcases h with h | h | h
  · exact ⟨[], 'w', ['o', 'l', 'l', 'a'], by rw [h]; rfl, by simp, by decide,
      Or.inl ⟨rfl, rfl, h⟩⟩
  · exact ⟨[], 'p', ['o', 'r', 'd'], by rw [h]; rfl, by simp, by decide,
      Or.inr (Or.inl ⟨rfl, rfl, h⟩)⟩
  · exact ⟨['e'], 't', ['u', 'o', 'r', 'e', 'r'], by rw [h]; rfl,
      by intro c hc; rw [List.mem_singleton] at hc; rw [hc]; decide, by decide,
      Or.inr (Or.inr ⟨rfl, rfl, h⟩)⟩

/-! ## Lemmas on the map operations and the diff loops -/

theorem mapHas_iff {α : Type} (m : List (String × α)) (k : String) :
    mapHas m k = true ↔ k ∈ m.map Prod.fst := by
  simp [mapHas]

theorem mapSet_keys {α : Type} (m : List (String × α)) (k : String) (v : α) :
    (mapSet m k v).map Prod.fst =
      if k ∈ m.map Prod.fst then m.map Prod.fst else m.map Prod.fst ++ [k] := by
  have hh := mapHas_iff m k
  unfold mapHas at hh
  unfold mapSet
  by_cases h : k ∈ m.map Prod.fst
  · rw [if_pos (hh.2 h), if_pos h, List.map_map]
    apply List.map_congr_left
    intro e _
    by_cases hk : e.1 = k <;> simp [hk]
  · have h2 : ¬ (m.any (fun e => e.1 == k) = true) := fun hc => h (hh.1 hc)
    rw [if_neg h2, if_neg h]; simp

theorem mapSet_mem {α : Type} (m : List (String × α)) (k : String) (v : α)
    (e : String × α) (he : e ∈ mapSet m k v) : e = (k, v) ∨ e ∈ m := by
  unfold mapSet at he
  split at he
  · rw [List.mem_map] at he
    obtain ⟨e0, h0, h1⟩ := he
    by_cases hk : e0.1 = k
    · rw [if_pos hk] at h1; exact Or.inl h1.symm
    · rw [if_neg hk] at h1; exact Or.inr (h1 ▸ h0)
  · rw [List.mem_append] at he
    rcases he with he | he
    · exact Or.inr he
    · exact Or.inl (by simpa using he)

theorem mapSet_nodup {α : Type} (m : List (String × α)) (k : String) (v : α)
    (h : (m.map Prod.fst).Nodup) : ((mapSet m k v).map Prod.fst).Nodup := by
  rw [mapSet_keys]
  split
  · exact h
  · rename_i hk
    rw [List.nodup_append]
    refine ⟨h, List.nodup_singleton k, ?_⟩
    intro a ha hb
    rw [List.mem_singleton] at hb
    exact hk (hb ▸ ha)

theorem buildFrom_keys {α : Type} (key : α → String) (exist : List α) :
    ∀ (m : List (String × α)) (k : String),
      k ∈ (buildFrom key m exist).map Prod.fst ↔ k ∈ m.map Prod.fst ∨ k ∈ exist.map key := by
  induction exist with
  | nil => intro m k; simp [buildFrom]
  | cons x xs ih =>
    intro m k
    have h := ih (mapSet m (key x) x) k
    simp only [buildFrom, List.foldl_cons] at h ⊢
    rw [h, mapSet_keys]
    by_cases hx : key x ∈ m.map Prod.fst
    · rw [if_pos hx]
      simp only [List.map_cons, List.mem_cons]
      constructor
      · rintro (h1 | h1)
        · exact Or.inl h1
        · exact Or.inr (Or.inr h1)
      · rintro (h1 | h1 | h1)
        · exact Or.inl h1
        · exact Or.inl (h1 ▸ hx)
        · exact Or.inr h1
    · rw [if_neg hx]
      simp only [List.map_cons, List.mem_cons, List.mem_append, List.mem_singleton]
      tauto

theorem buildFrom_nodup {α : Type} (key : α → String) (exist : List α) :
    ∀ (m : List (String × α)), (m.map Prod.fst).Nodup →
      ((buildFrom key m exist).map Prod.fst).Nodup := by
  induction exist with
  | nil => intro m h; simpa [buildFrom] using h
  | cons x xs ih =>
    intro m h
    have := ih (mapSet m (key x) x) (mapSet_nodup m (key x) x h)
    simpa [buildFrom] using this

theorem buildFrom_mem {α : Type} (key : α → String) (exist : List α) :
    ∀ (m : List (String × α)) (e : String × α), e ∈ buildFrom key m exist →
      e ∈ m ∨ (e.1 = key e.2 ∧ e.2 ∈ exist) := by
  induction exist with
  | nil => intro m e h; left; simpa [buildFrom] using h
  | cons x xs ih =>
    intro m e h
    have h1 : e ∈ buildFrom key (mapSet m (key x) x) xs := by simpa [buildFrom] using h
    rcases ih _ e h1 with h2 | ⟨h2, h3⟩
    · rcases mapSet_mem m (key x) x e h2 with h4 | h4
      · right; subst h4; exact ⟨rfl, List.mem_cons_self _ _⟩
      · exact Or.inl h4
    · exact Or.inr ⟨h2, List.mem_cons_of_mem _ h3⟩

theorem buildRouteMap_keys {α : Type} (key : α → String) (exist : List α) (k : String) :
    k ∈ (buildRouteMap key exist).map Prod.fst ↔ k ∈ exist.map key := by
  have := buildFrom_keys key exist [] k
  simpa [buildFrom, buildRouteMap] using this

theorem buildRouteMap_nodup {α : Type} (key : α → String) (exist : List α) :
    ((buildRouteMap key exist).map Prod.fst).Nodup := by
  have := buildFrom_nodup key exist [] (by simp)
  simpa [buildFrom, buildRouteMap] using this

theorem buildRouteMap_mem {α : Type} (key : α → String) (exist : List α)
    (e : String × α) (he : e ∈ buildRouteMap key exist) : e.1 = key e.2 ∧ e.2 ∈ exist := by
  have := buildFrom_mem key exist [] e (by simpa [buildFrom, buildRouteMap] using he)
  simpa using this

/-- The map left by the second loop holds the entries whose key no target has. -/
theorem diffTargets_map {α : Type} (key : α → String) (target : List α) :
    ∀ (m : List (String × α)) (add : List α),
      (diffTargets key target (m, add)).1 =
        m.filter (fun e => decide (e.1 ∉ target.map key)) := by
  induction target with
  | nil => intro m add; simp [diffTargets]
  | cons x xs ih =>
    intro m add
    unfold diffTargets
    by_cases hx : mapHas m (key x) = true
    · rw [if_pos hx, ih, mapDelete, List.filter_filter]
      apply List.filter_congr
      intro e _
      by_cases h1 : e.1 = key x <;> simp [h1]
    · rw [if_neg hx, ih]
      apply List.filter_congr
      intro e he
      have h1 : e.1 ≠ key x := by
        intro hc
        exact hx ((mapHas_iff m (key x)).2 (hc ▸ List.mem_map_of_mem Prod.fst he))
      simp [h1]

/-- The additions of the second loop extend the accumulator by a sublist of the targets. -/
theorem diffTargets_add_sublist {α : Type} (key : α → String) (target : List α) :
    ∀ (m : List (String × α)) (add : List α),
      ∃ s, (diffTargets key target (m, add)).2 = add ++ s ∧ s.Sublist target := by
  induction target with
  | nil => intro m add; exact ⟨[], by simp [diffTargets], List.Sublist.refl _⟩
  | cons x xs ih =>
    intro m add
    unfold diffTargets
    by_cases hx : mapHas m (key x) = true
    · rw [if_pos hx]
      obtain ⟨s, h1, h2⟩ := ih (mapDelete m (key x)) add
      exact ⟨s, h1, h2.cons x⟩
    · rw [if_neg hx]
      obtain ⟨s, h1, h2⟩ := ih m (add ++ [x])
      exact ⟨x :: s, by rw [h1]; simp, h2.cons₂ x⟩

/-- A target whose key is not in the map is added. -/
theorem diffTargets_add_mem {α : Type} (key : α → String) (target : List α) :
    ∀ (m : List (String × α)) (add : List α) (r : α),
      (r ∈ add ∨ (r ∈ target ∧ key r ∉ m.map Prod.fst)) →
        r ∈ (diffTargets key target (m, add)).2 := by
  induction target with
  | nil =>
    intro m add r h
    rcases h with h | ⟨h, _⟩
    · simpa [diffTargets] using h
    · simp at h
  | cons x xs ih =>
    intro m add r h
    unfold diffTargets
    by_cases hx : mapHas m (key x) = true
    · rw [if_pos hx]
      apply ih
      rcases h with h | ⟨h, hk⟩
      · exact Or.inl h
      · rcases List.mem_cons.1 h with h1 | h1
        · subst h1; exact absurd ((mapHas_iff m (key r)).1 hx) hk
        · right
          refine ⟨h1, fun hc => hk ?_⟩
          rw [mapDelete] at hc
          obtain ⟨e, he, hek⟩ := List.mem_map.1 hc
          exact hek ▸ List.mem_map_of_mem Prod.fst (List.mem_filter.1 he).1
    · rw [if_neg hx]
      apply ih
      rcases h with h | ⟨h, hk⟩
      · exact Or.inl (List.mem_append_left _ h)
      · rcases List.mem_cons.1 h with h1 | h1
        · subst h1; exact Or.inl (List.mem_append_right _ (List.mem_singleton_self _))
        · exact Or.inr ⟨h1, hk⟩

/-- With pairwise distinct target keys the additions are the targets whose key
the map lacks. -/
theorem diffTargets_add_nodup {α : Type} (key : α → String) (target : List α) :
    ∀ (m : List (String × α)) (add : List α), (target.map key).Nodup →
      (diffTargets key target (m, add)).2 =
        add ++ target.filter (fun r => decide (key r ∉ m.map Prod.fst)) := by
  induction target with
  | nil => intro m add _; simp [diffTargets]
  | cons x xs ih =>
    intro m add hnd
    rw [List.map_cons, List.nodup_cons] at hnd
    unfold diffTargets
    by_cases hx : mapHas m (key x) = true
    · have hx2 := (mapHas_iff m (key x)).1 hx
      rw [if_pos hx, ih _ _ hnd.2, List.filter_cons]
      simp only [hx2, not_true_eq_false, decide_False, Bool.false_eq_true, if_false]
      congr 1
      apply List.filter_congr
      intro r hr
      have hne : key r ≠ key x := fun hc => hnd.1 (hc ▸ List.mem_map_of_mem key hr)
      have : key r ∈ (mapDelete m (key x)).map Prod.fst ↔ key r ∈ m.map Prod.fst := by
        simp only [mapDelete, List.mem_map, List.mem_filter]
        constructor
        · rintro ⟨e, ⟨he, _⟩, h2⟩; exact ⟨e, he, h2⟩
        · rintro ⟨e, he, h2⟩; exact ⟨e, ⟨he, by simp [h2, hne]⟩, h2⟩
      simp [this]
    · have hx2 : key x ∉ m.map Prod.fst := fun hc => hx ((mapHas_iff m (key x)).2 hc)
      rw [if_neg hx, ih _ _ hnd.2, List.filter_cons]
      simp [hx2]

/-- Keys of the routes marked for deletion: the map keys no target has. -/
theorem diffRoutes_del_keys {α : Type} (key : α → String) (exist target : List α) :
    (diffRoutes key exist target).1.map key =
      ((buildRouteMap key exist).filter (fun e => decide (e.1 ∉ target.map key))).map Prod.fst := by
  simp only [diffRoutes, diffTargets_map, List.map_map]
  apply List.map_congr_left
  intro e he
  exact ((buildRouteMap_mem key exist e (List.mem_filter.1 he).1).1).symm

theorem diffRoutes_del_mem {α : Type} (key : α → String) (exist target : List α) (r : α)
    (hr : r ∈ (diffRoutes key exist target).1) : r ∈ exist ∧ key r ∉ target.map key := by
  simp only [diffRoutes, diffTargets_map, List.mem_map, List.mem_filter] at hr
  obtain ⟨e, ⟨he, hk⟩, rfl⟩ := hr
  have h1 := buildRouteMap_mem key exist e he
  exact ⟨h1.2, h1.1 ▸ (by simpa using hk)⟩

theorem diffRoutes_del_keys_iff {α : Type} (key : α → String) (exist target : List α)
    (k : String) :
    k ∈ (diffRoutes key exist target).1.map key ↔ k ∈ exist.map key ∧ k ∉ target.map key := by
  rw [diffRoutes_del_keys]
  constructor
  · intro h
    obtain ⟨e, he, rfl⟩ := List.mem_map.1 h
    have h1 := List.mem_filter.1 he
    exact ⟨(buildRouteMap_keys key exist e.1).1 (List.mem_map_of_mem Prod.fst h1.1),
      by simpa using h1.2⟩
  · rintro ⟨h1, h2⟩
    obtain ⟨e, he, rfl⟩ := List.mem_map.1 ((buildRouteMap_keys key exist k).2 h1)
    exact List.mem_map_of_mem Prod.fst (List.mem_filter.2 ⟨he, by simpa using h2⟩)

theorem diffRoutes_del_keys_nodup {α : Type} (key : α → String) (exist target : List α) :
    ((diffRoutes key exist target).1.map key).Nodup := by
  rw [diffRoutes_del_keys]
  exact ((List.filter_sublist _).map Prod.fst).nodup (buildRouteMap_nodup key exist)

theorem diffRoutes_add_nodup {α : Type} (key : α → String) (exist target : List α)
    (h : (target.map key).Nodup) :
    (diffRoutes key exist target).2.1 =
      target.filter (fun r => decide (key r ∉ exist.map key)) := by
  simp only [diffRoutes, diffTargets_add_nodup key target _ _ h, List.nil_append]
  apply List.filter_congr
  intro r _
  rw [decide_eq_decide, not_iff_not]
  exact buildRouteMap_keys key exist (key r)

/-- A diff is empty as soon as the existing and the target keys coincide as sets
and the target keys are pairwise distinct. -/
theorem diffRoutes_empty {α : Type} (key : α → String) (exist target : List α)
    (hnd : (target.map key).Nodup)
    (h1 : ∀ r ∈ target, key r ∈ exist.map key)
    (h2 : ∀ r ∈ exist, key r ∈ target.map key) :
    diffRoutes key exist target = ([], [], none) := by
  have hadd : (diffRoutes key exist target).2.1 = [] := by
    rw [diffRoutes_add_nodup key exist target hnd, List.filter_eq_nil_iff]
    intro r hr
    simpa using h1 r hr
  have hdel : (diffRoutes key exist target).1 = [] := by
    rw [List.eq_nil_iff_forall_not_mem]
    intro r hr
    have := diffRoutes_del_mem key exist target r hr
    exact this.2 (h2 r this.1)
  have herr : (diffRoutes key exist target).2.2 = none := rfl
  rw [Prod.ext_iff, Prod.ext_iff]
  exact ⟨hdel, hadd, herr⟩

/-- Convergence of the generic diff when the target keys are pairwise distinct. -/
theorem diffRoutes_converges {α : Type} (key : α → String) (exist target : List α)
    (hnd : (target.map key).Nodup) :
    diffRoutes key
      (exist.filter (fun r => decide (key r ∉ (diffRoutes key exist target).1.map key))
        ++ (diffRoutes key exist target).2.1) target = ([], [], none) := by
  apply diffRoutes_empty key _ target hnd
  · intro t ht
    rw [List.map_append, List.mem_append]
    by_cases hk : key t ∈ exist.map key
    · left
      obtain ⟨r, hr, hrk⟩ := List.mem_map.1 hk
      refine List.mem_map.2 ⟨r, List.mem_filter.2 ⟨hr, ?_⟩, hrk⟩
      have : ¬ key r ∈ (diffRoutes key exist target).1.map key := by
        rw [diffRoutes_del_keys_iff, hrk]
        exact fun hc => hc.2 (List.mem_map_of_mem key ht)
      simpa using this
    · right
      rw [diffRoutes_add_nodup key exist target hnd]
      exact List.mem_map_of_mem key (List.mem_filter.2 ⟨ht, by simpa using hk⟩)
  · intro r hr
    rcases List.mem_append.1 hr with h | h
    · have h1 := List.mem_filter.1 h
      by_contra hc
      have h2 : key r ∈ (diffRoutes key exist target).1.map key :=
        (diffRoutes_del_keys_iff key exist target (key r)).2
          ⟨List.mem_map_of_mem key h1.1, hc⟩
      have h3 := h1.2
      simp only [decide_eq_true_eq] at h3
      exact h3 h2
    · rw [diffRoutes_add_nodup key exist target hnd] at h
      exact List.mem_map_of_mem key (List.mem_filter.1 h).1

/-! ## Lemmas on VPC formatting -/

theorem checkStaticRoute_none (ParseIP ParseCIDR : String → Bool) (r : StaticRoute) :
    checkStaticRoute ParseIP ParseCIDR (defaultPolicy r) = none ↔
      ¬ staticRouteRejected ParseIP ParseCIDR r := by
  have hd : PolicyDst ≠ "" := by decide
  have hs : PolicySrc ≠ "" := by decide
  have e1 : (defaultPolicy r).CIDR = r.CIDR := by unfold defaultPolicy; split <;> rfl
  have e2 : (defaultPolicy r).NextHopIP = r.NextHopIP := by unfold defaultPolicy; split <;> rfl
  have e3 : ((defaultPolicy r).Policy ≠ PolicyDst ∧ (defaultPolicy r).Policy ≠ PolicySrc) ↔
      (r.Policy ≠ "" ∧ r.Policy ≠ PolicyDst ∧ r.Policy ≠ PolicySrc) := by
    unfold defaultPolicy
    by_cases h : r.Policy = ""
    · simp [h]
    · rw [if_neg h]
      constructor
      · exact fun hh => ⟨h, hh⟩
      · exact fun hh => hh.2
  unfold checkStaticRoute staticRouteRejected
  rw [e1, e2]
  by_cases c1 : (defaultPolicy r).Policy ≠ PolicyDst ∧ (defaultPolicy r).Policy ≠ PolicySrc
  · rw [if_pos c1]
    have := e3.1 c1
    simp only [reduceCtorEq, false_iff, not_not]
    exact Or.inl this
  · rw [if_neg c1]
    have c1b := fun hh => c1 (e3.2 hh)
    by_cases c2 : '/' ∈ r.CIDR.data ∧ ParseCIDR r.CIDR = false
    · rw [if_pos c2]
      simp only [reduceCtorEq, false_iff, not_not]
      exact Or.inr (Or.inl c2)
    · rw [if_neg c2]
      by_cases c3 : '/' ∉ r.CIDR.data ∧ ParseIP r.CIDR = false
      · rw [if_pos c3]
        simp only [reduceCtorEq, false_iff, not_not]
        exact Or.inr (Or.inr (Or.inl c3))
      · rw [if_neg c3]
        by_cases c4 : ParseIP r.NextHopIP = false
        · rw [if_pos c4]
          simp only [reduceCtorEq, false_iff, not_not]
          exact Or.inr (Or.inr (Or.inr c4))
        · rw [if_neg c4]
          simp only [true_iff]
          rintro (h | h | h | h)
          · exact c1b h
          · exact c2 h
          · exact c3 h
          · exact c4 h

theorem formatStaticRoutes_spec (ParseIP ParseCIDR : String → Bool) (l : List StaticRoute) :
    ∀ (changed : Bool),
      ((formatStaticRoutes ParseIP ParseCIDR l changed).2.2 = none ↔
        ∀ r ∈ l, ¬ staticRouteRejected ParseIP ParseCIDR r) ∧
      ((formatStaticRoutes ParseIP ParseCIDR l changed).2.2 = none →
        (formatStaticRoutes ParseIP ParseCIDR l changed).1 = l.map defaultPolicy ∧
        ((formatStaticRoutes ParseIP ParseCIDR l changed).2.1 = true ↔
          (changed = true ∨ ∃ r ∈ l, r.Policy = ""))) := by
  induction l with
  | nil => intro changed; simp [formatStaticRoutes]
  | cons x xs ih =>
    intro changed
    have hx := checkStaticRoute_none ParseIP ParseCIDR x
    unfold formatStaticRoutes
    cases hc : checkStaticRoute ParseIP ParseCIDR (defaultPolicy x) with
    | some e =>
      have hrej : staticRouteRejected ParseIP ParseCIDR x := by
        by_contra hn
        rw [hx.2 hn] at hc
        exact absurd hc (by simp)
      simp only [reduceCtorEq, false_iff, false_imp_iff, and_true]
      intro hall
      exact hall x (List.mem_cons_self _ _) hrej
    | none =>
      have hok := hx.1 hc
      obtain ⟨i1, i2⟩ := ih (changed || decide (x.Policy = ""))
      simp only
      refine ⟨?_, ?_⟩
      · rw [i1]
        constructor
        · intro h r hr
          rcases List.mem_cons.1 hr with h1 | h1
          · rw [h1]; exact hok
          · exact h r h1
        · intro h r hr
          exact h r (List.mem_cons_of_mem _ hr)
      · intro hnone
        obtain ⟨j1, j2⟩ := i2 hnone
        refine ⟨by rw [j1]; rfl, ?_⟩
        rw [j2]
        simp only [Bool.or_eq_true, decide_eq_true_eq, List.mem_cons, exists_eq_or_imp]
        tauto

theorem formatPolicyRoutes_spec (ParseIP : String → Bool) (l : List PolicyRoute) :
    ∀ (changed : Bool),
      ((formatPolicyRoutes ParseIP l changed).2.2 = none ↔
        ∀ p ∈ l, ¬ policyRouteRejected ParseIP p) ∧
      ((formatPolicyRoutes ParseIP l changed).2.2 = none →
        (formatPolicyRoutes ParseIP l changed).1 = l.map clearNextHop ∧
        ((formatPolicyRoutes ParseIP l changed).2.1 = true ↔
          (changed = true ∨
            ∃ p ∈ l, p.Action ≠ PolicyRouteActionReroute ∧ p.NextHopIP ≠ ""))) := by
  induction l with
  | nil => intro changed; simp [formatPolicyRoutes]
  | cons x xs ih =>
    intro changed
    unfold formatPolicyRoutes
    by_cases ha : x.Action ≠ PolicyRouteActionReroute
    · have hok : ¬ policyRouteRejected ParseIP x := fun h => ha h.1
      rw [if_pos ha]
      by_cases hn : x.NextHopIP ≠ ""
      · rw [if_pos hn]
        obtain ⟨i1, i2⟩ := ih true
        simp only
        refine ⟨?_, ?_⟩
        · rw [i1]
          constructor
          · intro h r hr
            rcases List.mem_cons.1 hr with h1 | h1
            · rw [h1]; exact hok
            · exact h r h1
          · intro h r hr
            exact h r (List.mem_cons_of_mem _ hr)
        · intro hnone
          obtain ⟨j1, j2⟩ := i2 hnone
          refine ⟨by rw [j1]; simp [clearNextHop, ha], ?_⟩
          rw [j2]
          simp only [List.mem_cons, exists_eq_or_imp, true_or, true_iff]
          exact Or.inr (Or.inl ⟨ha, hn⟩)
      · rw [if_neg hn]
        obtain ⟨i1, i2⟩ := ih changed
        simp only
        refine ⟨?_, ?_⟩
        · rw [i1]
          constructor
          · intro h r hr
            rcases List.mem_cons.1 hr with h1 | h1
            · rw [h1]; exact hok
            · exact h r h1
          · intro h r hr
            exact h r (List.mem_cons_of_mem _ hr)
        · intro hnone
          obtain ⟨j1, j2⟩ := i2 hnone
          have hn2 : x.NextHopIP = "" := not_not.1 hn
          refine ⟨?_, ?_⟩
          · rw [j1, List.map_cons]
            congr 1
            unfold clearNextHop
            rw [if_pos ha]
            cases x
            simp only at hn2
            simp [hn2]
          · rw [j2]
            simp only [List.mem_cons, exists_eq_or_imp]
            tauto
    · rw [if_neg ha]
      have ha2 : x.Action = PolicyRouteActionReroute := not_not.1 ha
      by_cases hp : ParseIP x.NextHopIP = false
      · rw [if_pos hp]
        simp only [reduceCtorEq, false_iff, false_imp_iff, and_true]
        intro hall
        exact hall x (List.mem_cons_self _ _) ⟨ha2, hp⟩
      · rw [if_neg hp]
        have hok : ¬ policyRouteRejected ParseIP x := fun h => hp h.2
        obtain ⟨i1, i2⟩ := ih changed
        simp only
        refine ⟨?_, ?_⟩
        · rw [i1]
          constructor
          · intro h r hr
            rcases List.mem_cons.1 hr with h1 | h1
            · rw [h1]; exact hok
            · exact h r h1
          · intro h r hr
            exact h r (List.mem_cons_of_mem _ hr)
        · intro hnone
          obtain ⟨j1, j2⟩ := i2 hnone
          refine ⟨by rw [j1]; simp [clearNextHop, ha2], ?_⟩
          rw [j2]
          simp only [List.mem_cons, exists_eq_or_imp]
          tauto

theorem formatVpc_rejected (ParseIP ParseCIDR : String → Bool) (Update : Vpc → Option String)
    (vpc : Vpc) (h : vpcRejected ParseIP ParseCIDR vpc) :
    (formatVpc ParseIP ParseCIDR Update vpc).err ≠ none ∧
      (formatVpc ParseIP ParseCIDR Update vpc).updates = [] := by
  obtain ⟨s1, s2⟩ := formatStaticRoutes_spec ParseIP ParseCIDR vpc.StaticRoutes false
  unfold formatVpc
  simp only
  cases hs : (formatStaticRoutes ParseIP ParseCIDR vpc.StaticRoutes false).2.2 with
  | some e => simp
  | none =>
    have hsok := s1.1 hs
    obtain ⟨p1, p2⟩ := formatPolicyRoutes_spec ParseIP vpc.PolicyRoutes
      (formatStaticRoutes ParseIP ParseCIDR vpc.StaticRoutes false).2.1
    simp only
    cases hp : (formatPolicyRoutes ParseIP vpc.PolicyRoutes
        (formatStaticRoutes ParseIP ParseCIDR vpc.StaticRoutes false).2.1).2.2 with
    | some e => simp
    | none =>
      exfalso
      have hpok := p1.1 hp
      rcases h with ⟨r, hr, hrej⟩ | ⟨p, hpm, hrej⟩
      · exact hsok r hr hrej
      · exact hpok p hpm hrej

theorem formatVpc_accepted (ParseIP ParseCIDR : String → Bool) (Update : Vpc → Option String)
    (vpc : Vpc) (h : ¬ vpcRejected ParseIP ParseCIDR vpc) :
    (formatVpc ParseIP ParseCIDR Update vpc).vpc =
        ⟨vpc.Name, vpc.StaticRoutes.map defaultPolicy, vpc.PolicyRoutes.map clearNextHop⟩ ∧
      (vpcNeedsNormalization vpc →
        (formatVpc ParseIP ParseCIDR Update vpc).updates =
            [(formatVpc ParseIP ParseCIDR Update vpc).vpc] ∧
          (formatVpc ParseIP ParseCIDR Update vpc).err =
            (Update (formatVpc ParseIP ParseCIDR Update vpc).vpc).map
              FormatError.updateFailed) ∧
      (¬ vpcNeedsNormalization vpc →
        (formatVpc ParseIP ParseCIDR Update vpc).updates = [] ∧
          (formatVpc ParseIP ParseCIDR Update vpc).err = none) := by
  obtain ⟨s1, s2⟩ := formatStaticRoutes_spec ParseIP ParseCIDR vpc.StaticRoutes false
  obtain ⟨p1, p2⟩ := formatPolicyRoutes_spec ParseIP vpc.PolicyRoutes
    (formatStaticRoutes ParseIP ParseCIDR vpc.StaticRoutes false).2.1
  have hs : (formatStaticRoutes ParseIP ParseCIDR vpc.StaticRoutes false).2.2 = none :=
    s1.2 (fun r hr hrej => h (Or.inl ⟨r, hr, hrej⟩))
  have hp : (formatPolicyRoutes ParseIP vpc.PolicyRoutes
      (formatStaticRoutes ParseIP ParseCIDR vpc.StaticRoutes false).2.1).2.2 = none :=
    p1.2 (fun p hpm hrej => h (Or.inr ⟨p, hpm, hrej⟩))
  obtain ⟨s3, s4⟩ := s2 hs
  obtain ⟨p3, p4⟩ := p2 hp
  have hch : (formatPolicyRoutes ParseIP vpc.PolicyRoutes
      (formatStaticRoutes ParseIP ParseCIDR vpc.StaticRoutes false).2.1).2.1 = true ↔
      vpcNeedsNormalization vpc := by
    rw [p4, s4]
    unfold vpcNeedsNormalization
    simp
  unfold formatVpc
  simp only [hs, hp, s3, p3]
  by_cases hn : vpcNeedsNormalization vpc
  · rw [if_pos (hch.2 hn)]
    cases hU : Update ⟨vpc.Name, vpc.StaticRoutes.map defaultPolicy,
        vpc.PolicyRoutes.map clearNextHop⟩ with
    | none => exact ⟨rfl, fun _ => ⟨rfl, by simp [hU]⟩, fun hc => absurd hn hc⟩
    | some c => exact ⟨rfl, fun _ => ⟨rfl, by simp [hU]⟩, fun hc => absurd hn hc⟩
  · have : ¬ ((formatPolicyRoutes ParseIP vpc.PolicyRoutes
        (formatStaticRoutes ParseIP ParseCIDR vpc.StaticRoutes false).2.1).2.1 = true) :=
      fun hc => hn (hch.1 hc)
    rw [if_neg this]
    exact ⟨rfl, fun hc => absurd hc hn, fun _ => ⟨rfl, rfl⟩⟩

/-! ## Route diffing: the claims -/

/-- C1, as amended: for every list of static routes whose identity keys are
pairwise distinct, diffing the list against itself yields an empty
`routeNeedDel` and an empty `routeNeedAdd` (and a nil error). -/
theorem diffStaticRoute_self_distinct (L : List StaticRoute)
    (h : (L.map getStaticRouteItemKey).Nodup) :
    diffStaticRoute L L = ([], [], none) :=
  diffRoutes_empty getStaticRouteItemKey L L h (fun _ hr => List.mem_map_of_mem _ hr)
    (fun _ hr => List.mem_map_of_mem _ hr)

/-- Witness of `diffStaticRoute_self_distinct` at a two-route list. -/
theorem diffStaticRoute_self_distinct_witness :
    ([(⟨"policyDst", "10.0.0.0/24", "10.0.0.1"⟩ : StaticRoute),
        ⟨"policySrc", "10.1.0.0/24", "10.0.0.2"⟩].map getStaticRouteItemKey).Nodup ∧
      diffStaticRoute [⟨"policyDst", "10.0.0.0/24", "10.0.0.1"⟩,
          ⟨"policySrc", "10.1.0.0/24", "10.0.0.2"⟩]
        [⟨"policyDst", "10.0.0.0/24", "10.0.0.1"⟩,
          ⟨"policySrc", "10.1.0.0/24", "10.0.0.2"⟩] = ([], [], none) :=
  ⟨by decide, diffStaticRoute_self_distinct _ (by decide)⟩

/-- C1, counterexample: a list that declares the same route twice, diffed against
itself, marks the second occurrence for addition. -/
theorem diffStaticRoute_self_duplicate :
    diffStaticRoute
      [⟨"policyDst", "10.0.0.0/24", "10.0.0.1"⟩, ⟨"policyDst", "10.0.0.0/24", "10.0.0.1"⟩]
      [⟨"policyDst", "10.0.0.0/24", "10.0.0.1"⟩, ⟨"policyDst", "10.0.0.0/24", "10.0.0.1"⟩]
      = ([], [⟨"policyDst", "10.0.0.0/24", "10.0.0.1"⟩], none) := by
  decide

/-- C2, as amended: when the identity keys of the target policy routes are
pairwise distinct, removing from `exist` every route whose key is the key of a
route of `routeNeedDel`, appending `routeNeedAdd`, and diffing the result against
the target again yields empty `routeNeedDel` and `routeNeedAdd`. -/
theorem diffPolicyRoute_converges_distinct (exist target : List PolicyRoute)
    (h : (target.map getPolicyRouteItemKey).Nodup) :
    diffPolicyRoute
      (applyPolicyRouteDiff exist (diffPolicyRoute exist target).1
        (diffPolicyRoute exist target).2.1) target = ([], [], none) :=
  diffRoutes_converges getPolicyRouteItemKey exist target h

/-- Witness of `diffPolicyRoute_converges_distinct`: one stale route, one kept
route and one new route. -/
theorem diffPolicyRoute_converges_distinct_witness :
    ([(⟨10, "ip4.src == 10.0.0.0/24", "allow", ""⟩ : PolicyRoute),
        ⟨20, "ip4.dst == 10.1.0.0/24", "reroute", "10.0.0.1"⟩].map
          getPolicyRouteItemKey).Nodup ∧
      diffPolicyRoute
        (applyPolicyRouteDiff
          [⟨10, "ip4.src == 10.0.0.0/24", "allow", ""⟩, ⟨30, "ip4", "drop", ""⟩]
          (diffPolicyRoute
            [⟨10, "ip4.src == 10.0.0.0/24", "allow", ""⟩, ⟨30, "ip4", "drop", ""⟩]
            [⟨10, "ip4.src == 10.0.0.0/24", "allow", ""⟩,
              ⟨20, "ip4.dst == 10.1.0.0/24", "reroute", "10.0.0.1"⟩]).1
          (diffPolicyRoute
            [⟨10, "ip4.src == 10.0.0.0/24", "allow", ""⟩, ⟨30, "ip4", "drop", ""⟩]
            [⟨10, "ip4.src == 10.0.0.0/24", "allow", ""⟩,
              ⟨20, "ip4.dst == 10.1.0.0/24", "reroute", "10.0.0.1"⟩]).2.1)
        [⟨10, "ip4.src == 10.0.0.0/24", "allow", ""⟩,
          ⟨20, "ip4.dst == 10.1.0.0/24", "reroute", "10.0.0.1"⟩] = ([], [], none) :=
  ⟨by decide, diffPolicyRoute_converges_distinct _ _ (by decide)⟩

/-- C2, counterexample: with a target that declares one policy route twice and
nothing installed, the first diff adds both occurrences, and the diff of the
resulting state against the same target still asks for an addition. -/
theorem diffPolicyRoute_not_converged_duplicate :
    diffPolicyRoute []
        [⟨10, "ip4.src == 10.0.0.0/24", "allow", ""⟩,
          ⟨10, "ip4.src == 10.0.0.0/24", "allow", ""⟩]
      = ([], [⟨10, "ip4.src == 10.0.0.0/24", "allow", ""⟩,
          ⟨10, "ip4.src == 10.0.0.0/24", "allow", ""⟩], none) ∧
    diffPolicyRoute
        (applyPolicyRouteDiff [] []
          [⟨10, "ip4.src == 10.0.0.0/24", "allow", ""⟩,
            ⟨10, "ip4.src == 10.0.0.0/24", "allow", ""⟩])
        [⟨10, "ip4.src == 10.0.0.0/24", "allow", ""⟩,
          ⟨10, "ip4.src == 10.0.0.0/24", "allow", ""⟩]
      = ([], [⟨10, "ip4.src == 10.0.0.0/24", "allow", ""⟩], none) := by
  decide

/-- C3: `diffStaticRoute` returns `routeNeedAdd` as a sublist of the target, in
target order, holding every target whose key no existing route has; the routes
of `routeNeedDel` are existing routes, their keys are pairwise distinct and are
exactly the keys of existing routes that no target has; no key is on both
lists; the error result is nil. -/
theorem diffStaticRoute_spec (exist target : List StaticRoute) :
    (diffStaticRoute exist target).2.1.Sublist target ∧
    (∀ r ∈ target, getStaticRouteItemKey r ∉ exist.map getStaticRouteItemKey →
      r ∈ (diffStaticRoute exist target).2.1) ∧
    (∀ r ∈ (diffStaticRoute exist target).1, r ∈ exist) ∧
    ((diffStaticRoute exist target).1.map getStaticRouteItemKey).Nodup ∧
    (∀ k, k ∈ (diffStaticRoute exist target).1.map getStaticRouteItemKey ↔
      (k ∈ exist.map getStaticRouteItemKey ∧ k ∉ target.map getStaticRouteItemKey)) ∧
    (∀ k, k ∈ (diffStaticRoute exist target).1.map getStaticRouteItemKey →
      k ∉ (diffStaticRoute exist target).2.1.map getStaticRouteItemKey) ∧
    (diffStaticRoute exist target).2.2 = none := by
  have hsub : (diffStaticRoute exist target).2.1.Sublist target := by
    obtain ⟨s, h1, h2⟩ := diffTargets_add_sublist getStaticRouteItemKey target
      (buildRouteMap getStaticRouteItemKey exist) []
    simp only [diffStaticRoute, diffRoutes]
    rw [h1]
    simpa using h2
  refine ⟨hsub, ?_, ?_, ?_, ?_, ?_, rfl⟩
  · intro r hr hk
    apply diffTargets_add_mem
    right
    exact ⟨hr, fun hc => hk ((buildRouteMap_keys _ exist _).1 hc)⟩
  · intro r hr
    exact (diffRoutes_del_mem _ exist target r hr).1
  · exact diffRoutes_del_keys_nodup _ exist target
  · intro k
    exact diffRoutes_del_keys_iff _ exist target k
  · intro k hk hc
    have h1 := ((diffRoutes_del_keys_iff _ exist target k).1 hk).2
    exact h1 ((hsub.map getStaticRouteItemKey).subset hc)

/-- C4, as amended: for static routes whose policy is the destination or the
source constant and whose CIDR contains no `=` character, two identity keys are
equal if and only if the routes agree on policy, CIDR and next-hop IP. -/
theorem getStaticRouteItemKey_eq_iff (a b : StaticRoute)
    (ha : a.Policy = PolicyDst ∨ a.Policy = PolicySrc)
    (hb : b.Policy = PolicyDst ∨ b.Policy = PolicySrc)
    (hca : '=' ∉ a.CIDR.data) (hcb : '=' ∉ b.CIDR.data) :
    getStaticRouteItemKey a = getStaticRouteItemKey b ↔
      (a.Policy = b.Policy ∧ a.CIDR = b.CIDR ∧ a.NextHopIP = b.NextHopIP) := by
  constructor
  · intro h
    have hd := congrArg String.data h
    rw [staticKey_data, staticKey_data] at hd
    simp only [List.cons.injEq] at hd
    obtain ⟨h1, -, -, -, h5⟩ := hd
    have hpol : a.Policy = b.Policy := by
      have hne : PolicySrc ≠ PolicyDst := by decide
      rcases ha with ha | ha <;> rcases hb with hb | hb
      · rw [ha, hb]
      · rw [ha, hb, if_pos rfl, if_neg hne] at h1; exact absurd h1 (by decide)
      · rw [ha, hb, if_pos rfl, if_neg hne] at h1; exact absurd h1 (by decide)
      · rw [ha, hb]
    obtain ⟨e1, -, e3⟩ := split_first (fun c => c != '=') a.CIDR.data b.CIDR.data _ _ '=' '='
      (fun c hc => by
        have : c ≠ '=' := fun hh => hca (hh ▸ hc)
        simpa using this)
      (fun c hc => by
        have : c ≠ '=' := fun hh => hcb (hh ▸ hc)
        simpa using this)
      (by decide) (by decide) h5
    exact ⟨hpol, String.ext e1, String.ext (List.cons.inj e3).2⟩
  · rintro ⟨h1, h2, h3⟩
    unfold getStaticRouteItemKey
    rw [h1, h2, h3]

/-- Witness of `getStaticRouteItemKey_eq_iff` at two validated routes. -/
theorem getStaticRouteItemKey_eq_iff_witness :
    (getStaticRouteItemKey ⟨"policyDst", "10.0.0.0/24", "10.0.0.1"⟩ =
        getStaticRouteItemKey ⟨"policySrc", "10.0.0.0/24", "10.0.0.1"⟩) ↔
      ("policyDst" = "policySrc" ∧ "10.0.0.0/24" = "10.0.0.0/24" ∧ "10.0.0.1" = "10.0.0.1") :=
  getStaticRouteItemKey_eq_iff ⟨"policyDst", "10.0.0.0/24", "10.0.0.1"⟩
    ⟨"policySrc", "10.0.0.0/24", "10.0.0.1"⟩ (Or.inl rfl) (Or.inr rfl) (by decide) (by decide)

/-- C4, counterexample: a route whose policy is the backend string `dst-ip` and a
source-policy route with the same CIDR and next hop have the same key, and so
have two destination-policy routes that differ in where `=>` falls. -/
theorem getStaticRouteItemKey_collision :
    (getStaticRouteItemKey ⟨"dst-ip", "10.0.0.0/24", "10.0.0.1"⟩ =
        getStaticRouteItemKey ⟨"policySrc", "10.0.0.0/24", "10.0.0.1"⟩ ∧
      ("dst-ip" : String) ≠ "policySrc") ∧
    (getStaticRouteItemKey ⟨"policyDst", "a=>b", "c"⟩ =
        getStaticRouteItemKey ⟨"policyDst", "a", "b=>c"⟩ ∧
      ("a=>b" : String) ≠ "a") := by
  decide

/-- C5, as amended: for policy routes whose action is `allow`, `drop` or
`reroute` and whose next-hop IP consists of characters of IP literals
(hexadecimal digits, `.` and `:`; it may be empty), two identity keys are equal
if and only if the routes agree on priority, match, action and next-hop IP; the
match expressions are arbitrary and may contain `:`. -/
theorem getPolicyRouteItemKey_eq_iff (a b : PolicyRoute)
    (ha : a.Action = PolicyRouteActionAllow ∨ a.Action = PolicyRouteActionDrop ∨
      a.Action = PolicyRouteActionReroute)
    (hb : b.Action = PolicyRouteActionAllow ∨ b.Action = PolicyRouteActionDrop ∨
      b.Action = PolicyRouteActionReroute)
    (hna : ∀ c ∈ a.NextHopIP.data, isIPChar c = true)
    (hnb : ∀ c ∈ b.NextHopIP.data, isIPChar c = true) :
    getPolicyRouteItemKey a = getPolicyRouteItemKey b ↔
      (a.Priority = b.Priority ∧ a.Match = b.Match ∧ a.Action = b.Action ∧
        a.NextHopIP = b.NextHopIP) := by
  constructor
  · intro h
    have hr := congrArg List.reverse (congrArg String.data h)
    rw [policyKey_rev, policyKey_rev] at hr
    obtain ⟨sa, xa, ta, ea, hsa, hxa, da⟩ := action_signature a.Action ha
    obtain ⟨sb, xb, tb, eb, hsb, hxb, db⟩ := action_signature b.Action hb
    rw [ea, eb] at hr
    have hr2 : (a.NextHopIP.data.reverse ++ ':' :: sa) ++ xa ::
          (ta ++ ':' :: (a.Match.data.reverse ++ ':' :: (Itoa a.Priority).data.reverse)) =
        (b.NextHopIP.data.reverse ++ ':' :: sb) ++ xb ::
          (tb ++ ':' :: (b.Match.data.reverse ++ ':' :: (Itoa b.Priority).data.reverse)) := by
      simpa using hr
    have hrun : ∀ (n s : List Char), (∀ c ∈ n, isIPChar c = true) →
        (∀ c ∈ s, isIPChar c = true) → ∀ c ∈ n.reverse ++ ':' :: s, isIPChar c = true := by
      intro n s h1 h2 c hc
      rcases List.mem_append.1 hc with h3 | h3
      · exact h1 c (List.mem_reverse.1 h3)
      · rcases List.mem_cons.1 h3 with h4 | h4
        · rw [h4]; decide
        · exact h2 c h4
    obtain ⟨e1, e2, -⟩ := split_first isIPChar _ _ _ _ xa xb
      (hrun _ _ hna hsa) (hrun _ _ hnb hsb) hxa hxb hr2
    have hact : a.Action = b.Action ∧ sa = sb := by
      have hx : xa ≠ xb → a.Action = b.Action ∧ sa = sb := fun hne => absurd e2 hne
      rcases da with ⟨h1, h2, h3⟩ | ⟨h1, h2, h3⟩ | ⟨h1, h2, h3⟩ <;>
        rcases db with ⟨g1, g2, g3⟩ | ⟨g1, g2, g3⟩ | ⟨g1, g2, g3⟩
      · exact ⟨h3.trans g3.symm, h1.trans g1.symm⟩
      · exact hx (by rw [h2, g2]; decide)
      · exact hx (by rw [h2, g2]; decide)
      · exact hx (by rw [h2, g2]; decide)
      · exact ⟨h3.trans g3.symm, h1.trans g1.symm⟩
      · exact hx (by rw [h2, g2]; decide)
      · exact hx (by rw [h2, g2]; decide)
      · exact hx (by rw [h2, g2]; decide)
      · exact ⟨h3.trans g3.symm, h1.trans g1.symm⟩
    rw [hact.2] at e1
    have hnh : a.NextHopIP = b.NextHopIP :=
      String.ext (List.reverse_injective (List.append_cancel_right e1))
    have hd := congrArg String.data h
    rw [policyKey_data, policyKey_data, hact.1, hnh] at hd
    have hP : ∀ (i : Int), ∀ c ∈ (Itoa i).data, (c != ':') = true := by
      intro i c hc
      have : c ≠ ':' := by
        rcases Itoa_chars i c hc with h1 | h1
        · exact isDigit_ne c ':' h1 (by decide)
        · rw [h1]; decide
      simpa using this
    obtain ⟨p1, -, p3⟩ := split_first (fun c => c != ':') _ _ _ _ ':' ':'
      (hP a.Priority) (hP b.Priority) (by decide) (by decide) hd
    exact ⟨Itoa_injective _ _ (String.ext p1), String.ext (List.append_cancel_right p3),
      hact.1, hnh⟩
  · rintro ⟨h1, h2, h3, h4⟩
    unfold getPolicyRouteItemKey
    rw [h1, h2, h3, h4]

/-- Witness of `getPolicyRouteItemKey_eq_iff` at two routes with IPv6 literals. -/
theorem getPolicyRouteItemKey_eq_iff_witness :
    getPolicyRouteItemKey ⟨10, "ip6.dst == fd00::1", "reroute", "fd00::2"⟩ =
        getPolicyRouteItemKey ⟨10, "ip6.dst == fd00::1", "allow", ""⟩ ↔
      ((10 : Int) = 10 ∧ "ip6.dst == fd00::1" = "ip6.dst == fd00::1" ∧
        "reroute" = "allow" ∧ "fd00::2" = "") :=
  getPolicyRouteItemKey_eq_iff ⟨10, "ip6.dst == fd00::1", "reroute", "fd00::2"⟩
    ⟨10, "ip6.dst == fd00::1", "allow", ""⟩ (Or.inr (Or.inr rfl)) (Or.inl rfl)
    (by decide) (by decide)

/-- C5, counterexample: the key is the stated concatenation, and two policy
routes that differ in match and action (the match holding an IPv6 literal), or
in match and next hop, have the same key. -/
theorem getPolicyRouteItemKey_collision :
    (getPolicyRouteItemKey ⟨10, "ip6.dst == fd00::1", "allow", ""⟩ =
        "10:ip6.dst == fd00::1:allow:" ∧
      getPolicyRouteItemKey ⟨10, "ip6.dst == fd00:", "1:allow", ""⟩ =
        "10:ip6.dst == fd00::1:allow:" ∧
      ("ip6.dst == fd00::1" : String) ≠ "ip6.dst == fd00:") ∧
    (getPolicyRouteItemKey ⟨10, "ip4", "drop", "y:drop:z"⟩ =
        getPolicyRouteItemKey ⟨10, "ip4:drop:y", "drop", "z"⟩ ∧
      ("ip4" : String) ≠ "ip4:drop:y") := by
  decide

/-! ## VPC formatting: the claims -/

/-- C6: when the update of the API server succeeds, `formatVpc` returns an error
if and only if some static route has a non-empty policy other than the two
policy constants, or a CIDR with `/` that is no parseable CIDR, or a CIDR
without `/` that is no parseable IP, or a next hop that is no parseable IP, or
some policy route has action `reroute` and a next hop that is no parseable IP;
in particular every reroute policy route with such a next hop makes it fail. -/
theorem formatVpc_error_iff (ParseIP ParseCIDR : String → Bool)
    (Update : Vpc → Option String) (vpc : Vpc) (hu : ∀ v, Update v = none) :
    ((formatVpc ParseIP ParseCIDR Update vpc).err ≠ none ↔
      ((∃ r ∈ vpc.StaticRoutes,
          (r.Policy ≠ "" ∧ r.Policy ≠ PolicyDst ∧ r.Policy ≠ PolicySrc) ∨
          ('/' ∈ r.CIDR.data ∧ ParseCIDR r.CIDR = false) ∨
          ('/' ∉ r.CIDR.data ∧ ParseIP r.CIDR = false) ∨
          ParseIP r.NextHopIP = false) ∨
        (∃ p ∈ vpc.PolicyRoutes,
          p.Action = PolicyRouteActionReroute ∧ ParseIP p.NextHopIP = false))) ∧
    (∀ p ∈ vpc.PolicyRoutes, p.Action = PolicyRouteActionReroute →
      ParseIP p.NextHopIP = false →
      (formatVpc ParseIP ParseCIDR Update vpc).err ≠ none) := by
  have key : (formatVpc ParseIP ParseCIDR Update vpc).err ≠ none ↔
      vpcRejected ParseIP ParseCIDR vpc := by
    constructor
    · intro he
      by_contra hr
      obtain ⟨-, a2, a3⟩ := formatVpc_accepted ParseIP ParseCIDR Update vpc hr
      by_cases hn : vpcNeedsNormalization vpc
      · have := (a2 hn).2
        rw [hu] at this
        exact he this
      · exact he (a3 hn).2
    · intro hr
      exact (formatVpc_rejected ParseIP ParseCIDR Update vpc hr).1
  refine ⟨key, fun p hp h1 h2 => key.2 (Or.inr ⟨p, hp, h1, h2⟩)⟩

/-- Witness of `formatVpc_error_iff`: with an API server that accepts every
update, a VPC holding a reroute with an unparseable next hop is refused. -/
theorem formatVpc_error_iff_witness :
    (∀ v, sampleUpdate v = none) ∧
      (formatVpc sampleParseIP sampleParseCIDR sampleUpdate sampleVpcBad).err ≠ none :=
  ⟨fun _ => rfl,
    (formatVpc_error_iff sampleParseIP sampleParseCIDR sampleUpdate sampleVpcBad
      (fun _ => rfl)).2 ⟨10, "ip4.src == 10.0.0.0/24", "reroute", "gateway"⟩
      (by decide) rfl (by decide)⟩

/-- C7: whenever `formatVpc` returns without error, in the VPC it leaves every
static route has the destination or the source policy, every policy route that
is not a reroute has an empty next hop, every reroute has a parseable next hop,
and the routes are the given ones, in order, changed in nothing else: an empty
policy has become the destination policy and the next hop of a route that is
not a reroute has been emptied. -/
theorem formatVpc_ok_invariant (ParseIP ParseCIDR : String → Bool)
    (Update : Vpc → Option String) (vpc : Vpc)
    (h : (formatVpc ParseIP ParseCIDR Update vpc).err = none) :
    (∀ r ∈ (formatVpc ParseIP ParseCIDR Update vpc).vpc.StaticRoutes,
      r.Policy = PolicyDst ∨ r.Policy = PolicySrc) ∧
    (∀ p ∈ (formatVpc ParseIP ParseCIDR Update vpc).vpc.PolicyRoutes,
      p.Action ≠ PolicyRouteActionReroute → p.NextHopIP = "") ∧
    (∀ p ∈ (formatVpc ParseIP ParseCIDR Update vpc).vpc.PolicyRoutes,
      p.Action = PolicyRouteActionReroute → ParseIP p.NextHopIP = true) ∧
    (formatVpc ParseIP ParseCIDR Update vpc).vpc.Name = vpc.Name ∧
    List.Forall₂
      (fun r r1 => r1.CIDR = r.CIDR ∧ r1.NextHopIP = r.NextHopIP ∧
        (r.Policy = "" → r1.Policy = PolicyDst) ∧ (r.Policy ≠ "" → r1.Policy = r.Policy))
      vpc.StaticRoutes (formatVpc ParseIP ParseCIDR Update vpc).vpc.StaticRoutes ∧
    List.Forall₂
      (fun p p1 => p1.Priority = p.Priority ∧ p1.Match = p.Match ∧ p1.Action = p.Action ∧
        (p.Action = PolicyRouteActionReroute → p1.NextHopIP = p.NextHopIP))
      vpc.PolicyRoutes (formatVpc ParseIP ParseCIDR Update vpc).vpc.PolicyRoutes := by
  have hacc : ¬ vpcRejected ParseIP ParseCIDR vpc := by
    intro hr
    exact (formatVpc_rejected ParseIP ParseCIDR Update vpc hr).1 h
  obtain ⟨a1, -, -⟩ := formatVpc_accepted ParseIP ParseCIDR Update vpc hacc
  rw [a1]
  simp only
  refine ⟨?_, ?_, ?_, trivial, ?_, ?_⟩
  · intro r hr
    obtain ⟨r0, hr0, rfl⟩ := List.mem_map.1 hr
    have hok : ¬ staticRouteRejected ParseIP ParseCIDR r0 :=
      fun hc => hacc (Or.inl ⟨r0, hr0, hc⟩)
    unfold defaultPolicy
    by_cases he : r0.Policy = ""
    · rw [if_pos he]; exact Or.inl rfl
    · rw [if_neg he]
      by_contra hc
      rw [not_or] at hc
      exact hok (Or.inl ⟨he, hc.1, hc.2⟩)
  · intro p hp hne
    obtain ⟨p0, -, rfl⟩ := List.mem_map.1 hp
    unfold clearNextHop at hne ⊢
    by_cases ha : p0.Action ≠ PolicyRouteActionReroute
    · rw [if_pos ha]
    · rw [if_neg ha] at hne; exact absurd hne ha
  · intro p hp heq
    obtain ⟨p0, hp0, rfl⟩ := List.mem_map.1 hp
    unfold clearNextHop at heq ⊢
    by_cases ha : p0.Action ≠ PolicyRouteActionReroute
    · rw [if_pos ha] at heq; exact absurd heq ha
    · rw [if_neg ha] at heq ⊢
      by_contra hc
      exact hacc (Or.inr ⟨p0, hp0, heq, by simpa using hc⟩)
  · rw [List.forall₂_map_right_iff, List.forall₂_same]
    intro r _
    unfold defaultPolicy
    by_cases he : r.Policy = ""
    · rw [if_pos he]; exact ⟨rfl, rfl, fun _ => rfl, fun hc => absurd he hc⟩
    · rw [if_neg he]; exact ⟨rfl, rfl, fun hc => absurd hc he, fun _ => rfl⟩
  · rw [List.forall₂_map_right_iff, List.forall₂_same]
    intro p _
    unfold clearNextHop
    by_cases ha : p.Action ≠ PolicyRouteActionReroute
    · rw [if_pos ha]; exact ⟨rfl, rfl, rfl, fun hc => absurd hc ha⟩
    · rw [if_neg ha]; exact ⟨rfl, rfl, rfl, fun _ => rfl⟩

/-- Witness of `formatVpc_ok_invariant`: a VPC that passes the checks, with the
VPC the call leaves. -/
theorem formatVpc_ok_invariant_witness :
    (formatVpc sampleParseIP sampleParseCIDR sampleUpdate sampleVpcGood).err = none ∧
      (formatVpc sampleParseIP sampleParseCIDR sampleUpdate sampleVpcGood).vpc =
        ⟨"vpc1", [⟨"policyDst", "10.0.0.0/24", "10.0.0.1"⟩],
          [⟨10, "ip4.src == 10.0.0.0/24", "allow", ""⟩, ⟨20, "ip4", "reroute", "10.0.0.1"⟩]⟩ ∧
      ∀ r ∈ (formatVpc sampleParseIP sampleParseCIDR sampleUpdate sampleVpcGood).vpc.StaticRoutes,
        r.Policy = PolicyDst ∨ r.Policy = PolicySrc :=
  ⟨by decide, by decide,
    (formatVpc_ok_invariant sampleParseIP sampleParseCIDR sampleUpdate sampleVpcGood
      (by decide)).1⟩

/-- C8: `formatVpc` sends exactly one `Update`, carrying the normalized VPC, when
no route is rejected and a normalization applies (a static route with an empty
policy, or a policy route that is not a reroute and has a next hop); it sends
none when no route is rejected and no normalization applies, and none when a
route is rejected, that is, when it returns a validation error. -/
theorem formatVpc_updates (ParseIP ParseCIDR : String → Bool)
    (Update : Vpc → Option String) (vpc : Vpc) :
    ((¬ vpcRejected ParseIP ParseCIDR vpc ∧ vpcNeedsNormalization vpc) →
      (formatVpc ParseIP ParseCIDR Update vpc).updates =
        [⟨vpc.Name, vpc.StaticRoutes.map defaultPolicy,
          vpc.PolicyRoutes.map clearNextHop⟩]) ∧
    ((¬ vpcRejected ParseIP ParseCIDR vpc ∧ ¬ vpcNeedsNormalization vpc) →
      (formatVpc ParseIP ParseCIDR Update vpc).updates = []) ∧
    (vpcRejected ParseIP ParseCIDR vpc →
      (formatVpc ParseIP ParseCIDR Update vpc).updates = [] ∧
      (formatVpc ParseIP ParseCIDR Update vpc).err ≠ none) ∧
    (∀ e, (formatVpc ParseIP ParseCIDR Update vpc).err = some e →
      (∀ cause, e ≠ FormatError.updateFailed cause) →
      (formatVpc ParseIP ParseCIDR Update vpc).updates = []) := by
  refine ⟨?_, ?_, ?_, ?_⟩
  · rintro ⟨h1, h2⟩
    obtain ⟨a1, a2, -⟩ := formatVpc_accepted ParseIP ParseCIDR Update vpc h1
    rw [(a2 h2).1, a1]
  · rintro ⟨h1, h2⟩
    exact ((formatVpc_accepted ParseIP ParseCIDR Update vpc h1).2.2 h2).1
  · intro h
    exact ⟨(formatVpc_rejected ParseIP ParseCIDR Update vpc h).2,
      (formatVpc_rejected ParseIP ParseCIDR Update vpc h).1⟩
  · intro e he hne
    by_cases hr : vpcRejected ParseIP ParseCIDR vpc
    · exact (formatVpc_rejected ParseIP ParseCIDR Update vpc hr).2
    · obtain ⟨-, a2, a3⟩ := formatVpc_accepted ParseIP ParseCIDR Update vpc hr
      by_cases hn : vpcNeedsNormalization vpc
      · exfalso
        have h2 := (a2 hn).2
        rw [he] at h2
        cases hU : Update (formatVpc ParseIP ParseCIDR Update vpc).vpc with
        | none => rw [hU] at h2; simp at h2
        | some c =>
          rw [hU] at h2
          simp only [Option.map_some', Option.some.injEq] at h2
          exact hne c h2
      · exact (a3 hn).1

/-! ## ACL compilation: agreement with the tests of `ovn-nb-acl_test.go` -/

/-- The builder on the selectors of `mockNetworkPolicyPort`, ingress: the two
strings `testnewNetworkPolicyAclMatch` expects, for every port group and
address-set names. -/
theorem newNetworkPolicyAclMatch_test_ingress (pgName asAllowName asExceptName : String) :
    newNetworkPolicyAclMatch pgName asAllowName asExceptName IPVersion.v4 ACLDirectionToLport
        mockNetworkPolicyPort none =
      ["outport == @" ++ pgName ++ " && ip && ip4.src == $" ++ asAllowName ++
          " && ip4.src != $" ++ asExceptName ++ " && tcp.dst == 12345",
        "outport == @" ++ pgName ++ " && ip && ip4.src == $" ++ asAllowName ++
          " && ip4.src != $" ++ asExceptName ++ " && 12346 <= tcp.dst <= 20000"] := by
  simp [newNetworkPolicyAclMatch, mockNetworkPolicyPort, networkPolicyPortMatch,
    networkPolicyBaseMatch, resolvePort, Protocol.token, IPVersion.ipSuffix,
    ACLDirectionToLport, ACLDirectionFromLport, String.append_assoc,
    show Itoa 12345 = "12345" by decide, show Itoa 12346 = "12346" by decide,
    show Itoa 20000 = "20000" by decide]

/-- The rule of `testUpdateSgAcl` with user priority 12 compiles to the ACL the
test looks up under priority `2288`. -/
theorem newSgRuleACL_test_ingress (pgOf : String → String)
    (asName : IPVersion → String → String) (sgName : String) :
    newSgRuleACL pgOf asName sgName ACLDirectionToLport
        ⟨IPVersion.v4, SgRemoteType.address, "0.0.0.0/0", "", SgProtocol.icmp, 12,
          SgPolicy.allow, 0, 0⟩ =
      newAcl (pgOf sgName) ACLDirectionToLport "2288"
        ("outport == @" ++ pgOf sgName ++ " && ip4 && ip4.src == 0.0.0.0/0 && icmp4")
        ACLActionAllowRelated := by
  simp [newSgRuleACL, sgRuleMatch, IPVersion.ipSuffix, ACLDirectionToLport,
    ACLDirectionFromLport, String.append_assoc,
    show (Atoi SecurityGroupHighestPriority).getD 0 = 2300 by decide,
    show Itoa 2288 = "2288" by decide]

/-! ## ACL compilation: the claims -/

/-- C9: for every security-group rule with user priority `P`, every direction and
every security group, the ACL of `newSgRuleACL` has priority
`SecurityGroupHighestPriority - P`, that is `2300 - P` (2288 for `P = 12`, 2290
for `P = 10`), action `allow-related` when the policy is allow and `drop` when
it is drop. -/
theorem newSgRuleACL_priority_action (pgOf : String → String)
    (asName : IPVersion → String → String) (sgName direction : String) (rule : SgRule) :
    Atoi SecurityGroupHighestPriority = some 2300 ∧
    (newSgRuleACL pgOf asName sgName direction rule).Priority = 2300 - rule.Priority ∧
    (rule.Priority = 12 → (newSgRuleACL pgOf asName sgName direction rule).Priority = 2288) ∧
    (rule.Priority = 10 → (newSgRuleACL pgOf asName sgName direction rule).Priority = 2290) ∧
    (rule.Policy = SgPolicy.allow →
      (newSgRuleACL pgOf asName sgName direction rule).Action = ACLActionAllowRelated) ∧
    (rule.Policy = SgPolicy.drop →
      (newSgRuleACL pgOf asName sgName direction rule).Action = ACLActionDrop) := by
  have hh : Atoi SecurityGroupHighestPriority = some 2300 := by decide
  have hp : (newSgRuleACL pgOf asName sgName direction rule).Priority = 2300 - rule.Priority := by
    simp only [newSgRuleACL, newAcl, hh, Option.getD_some, Atoi_Itoa]
  refine ⟨hh, hp, ?_, ?_, ?_, ?_⟩
  · intro h; rw [hp, h]; rfl
  · intro h; rw [hp, h]; rfl
  · intro h; simp only [newSgRuleACL, newAcl, h]
  · intro h; simp only [newSgRuleACL, newAcl, h]

theorem protocolToken_token (p : Protocol) : ProtocolToken p p.token := by
  cases p
  · exact Or.inl ⟨rfl, rfl⟩
  · exact Or.inr (Or.inl ⟨rfl, rfl⟩)
  · exact Or.inr (Or.inr ⟨rfl, rfl⟩)

/-- C10: `newNetworkPolicyAclMatch` returns the base predicate alone for an empty
selector list and otherwise one match per selector, in order: the base followed
by ` && <proto>` for a selector without port, by ` && <proto>.dst == <port>` for
a port without end-port and by ` && <port> <= <proto>.dst <= <endPort>` for a
selector with an end-port, `<port>` being the selector's own numeric port and
`<proto>` being `tcp` for a TCP selector, `udp` for a UDP selector and `sctp`
for an SCTP selector. The base is
`outport == @<pg> && ip && ip<v>.src == $<allow> && ip<v>.src != $<except>` for
to-lport and the same with `inport` and `dst` for from-lport, `ip<v>` being
`ip4` or `ip6`. -/
theorem newNetworkPolicyAclMatch_spec (pgName asAllowName asExceptName : String)
    (protocol : IPVersion) (direction : String) (npp : List NetworkPolicyPort)
    (namedPortMap : Option (List (String × NamedPortInfo))) :
    (IPVersion.v4.ipSuffix = "ip4" ∧ IPVersion.v6.ipSuffix = "ip6") ∧
    (direction = ACLDirectionToLport →
      networkPolicyBaseMatch pgName asAllowName asExceptName protocol direction =
        "outport == @" ++ pgName ++ " && ip && " ++ protocol.ipSuffix ++ ".src == $" ++
          asAllowName ++ " && " ++ protocol.ipSuffix ++ ".src != $" ++ asExceptName) ∧
    (direction = ACLDirectionFromLport →
      networkPolicyBaseMatch pgName asAllowName asExceptName protocol direction =
        "inport == @" ++ pgName ++ " && ip && " ++ protocol.ipSuffix ++ ".dst == $" ++
          asAllowName ++ " && " ++ protocol.ipSuffix ++ ".dst != $" ++ asExceptName) ∧
    (npp = [] →
      newNetworkPolicyAclMatch pgName asAllowName asExceptName protocol direction npp
          namedPortMap =
        [networkPolicyBaseMatch pgName asAllowName asExceptName protocol direction]) ∧
    (npp ≠ [] →
      List.Forall₂
        (fun (sel : NetworkPolicyPort) (m : String) =>
          ∃ proto : String,
            ((sel.Protocol = Protocol.TCP ∧ proto = "tcp") ∨
              (sel.Protocol = Protocol.UDP ∧ proto = "udp") ∨
              (sel.Protocol = Protocol.SCTP ∧ proto = "sctp")) ∧
            (sel.Port = none →
              m = networkPolicyBaseMatch pgName asAllowName asExceptName protocol direction ++
                " && " ++ proto) ∧
            (∀ port : Int, sel.Port = some (IntOrString.int port) → sel.EndPort = none →
              m = networkPolicyBaseMatch pgName asAllowName asExceptName protocol direction ++
                " && " ++ proto ++ ".dst == " ++ Itoa port) ∧
            (∀ port endPort : Int, sel.Port = some (IntOrString.int port) →
              sel.EndPort = some endPort →
              m = networkPolicyBaseMatch pgName asAllowName asExceptName protocol direction ++
                " && " ++ Itoa port ++ " <= " ++ proto ++ ".dst <= " ++
                Itoa endPort))
        npp
        (newNetworkPolicyAclMatch pgName asAllowName asExceptName protocol direction npp
          namedPortMap)) := by
  refine ⟨⟨rfl, rfl⟩, ?_, ?_, ?_, ?_⟩
  · intro h
    have hne : ACLDirectionToLport ≠ ACLDirectionFromLport := by decide
    subst h
    simp only [networkPolicyBaseMatch, if_neg hne]
    apply String.ext
    simp [String.data_append]
  · intro h
    subst h
    simp only [networkPolicyBaseMatch, if_true]
    apply String.ext
    simp [String.data_append]
  · intro h
    simp only [newNetworkPolicyAclMatch, h, if_true]
  · intro h
    simp only [newNetworkPolicyAclMatch, if_neg h]
    rw [List.forall₂_map_right_iff, List.forall₂_same]
    intro sel _
    refine ⟨sel.Protocol.token, protocolToken_token sel.Protocol, ?_, ?_, ?_⟩
    · intro hp
      simp only [networkPolicyPortMatch, hp]
    · intro port hp he
      simp only [networkPolicyPortMatch, hp, he, resolvePort]
    · intro port endPort hp he
      simp only [networkPolicyPortMatch, hp, he, resolvePort]

/-! ## Lemmas on ACL lookup, listing and deletion -/

theorem lookupNamedPort_none_iff (m : List (String × NamedPortInfo)) (name : String) :
    lookupNamedPort (some m) name = none ↔ name ∉ m.map Prod.fst := by
  simp only [lookupNamedPort, Option.map_eq_none', List.find?_eq_none, beq_iff_eq,
    List.mem_map, not_exists, not_and]

theorem lookupNamedPort_some_mem (m : List (String × NamedPortInfo)) (name : String)
    (info : NamedPortInfo) (h : lookupNamedPort (some m) name = some info) :
    (name, info) ∈ m := by
  simp only [lookupNamedPort, Option.map_eq_some'] at h
  obtain ⟨e, he, rfl⟩ := h
  have h1 := List.find?_some he
  have h2 := List.mem_of_find?_eq_some he
  simp only [beq_iff_eq] at h1
  rw [← h1]
  exact h2

theorem externalIDsMatch_iff (externalIDs ids : List (String × String)) :
    externalIDsMatch externalIDs ids = true ↔
      (externalIDs.length ≤ ids.length ∧
        ∀ kv ∈ externalIDs, (mapGet ids kv.1).isSome = true ∧
          (kv.2 ≠ "" → mapGet ids kv.1 = some kv.2)) := by
  unfold externalIDsMatch
  by_cases hl : ids.length < externalIDs.length
  · rw [if_pos hl]
    constructor
    · intro h; exact absurd h (by simp)
    · intro h; omega
  · rw [if_neg hl, List.all_eq_true]
    constructor
    · intro h
      refine ⟨by omega, fun kv hkv => ?_⟩
      have h1 := h kv hkv
      by_cases he : kv.2 = ""
      · rw [if_pos he] at h1
        exact ⟨h1, fun hne => absurd he hne⟩
      · rw [if_neg he, decide_eq_true_eq] at h1
        exact ⟨by rw [h1]; rfl, fun _ => h1⟩
    · rintro ⟨-, h⟩ kv hkv
      obtain ⟨h1, h2⟩ := h kv hkv
      by_cases he : kv.2 = ""
      · rw [if_pos he]; exact h1
      · rw [if_neg he, decide_eq_true_eq]; exact h2 he

theorem externalIDsMatch_parent (parentName : String) (ids : List (String × String))
    (h : parentName ≠ "") :
    externalIDsMatch [(aclParentKey, parentName)] ids =
      decide (mapGet ids aclParentKey = some parentName) := by
  rw [Bool.eq_iff_iff, externalIDsMatch_iff, decide_eq_true_eq]
  constructor
  · rintro ⟨-, h2⟩
    exact (h2 (aclParentKey, parentName) (List.mem_singleton_self _)).2 h
  · intro h1
    refine ⟨?_, ?_⟩
    · cases ids with
      | nil => simp [mapGet] at h1
      | cons x xs => simp
    · intro kv hkv
      rw [List.mem_singleton] at hkv
      subst hkv
      exact ⟨by rw [h1]; rfl, fun _ => h1⟩

/-! ## ACL lookup and listing: agreement with the tests of `pkg/ovs` -/

/-- The named-port cases of `testnewNetworkPolicyAclMatch`: a name of the table
gives its port id, a name the table lacks gives port 0. -/
theorem newNetworkPolicyAclMatch_test_named_port :
    newNetworkPolicyAclMatch "test-new-acl-m-pg" "test.default.xx.allow.ipv4"
        "test.default.xx.except.ipv4" IPVersion.v4 ACLDirectionToLport
        [⟨Protocol.TCP, some (IntOrString.str "test-pod-port"), none⟩]
        (some [("test-pod-port", ⟨13455⟩)]) =
      ["outport == @test-new-acl-m-pg && ip && ip4.src == $test.default.xx.allow.ipv4 && " ++
        "ip4.src != $test.default.xx.except.ipv4 && tcp.dst == 13455"] ∧
    newNetworkPolicyAclMatch "test-new-acl-m-pg" "test.default.xx.allow.ipv4"
        "test.default.xx.except.ipv4" IPVersion.v4 ACLDirectionToLport
        [⟨Protocol.TCP, some (IntOrString.str "test-pod-port-x"), none⟩]
        (some [("test-pod-port", ⟨13455⟩)]) =
      ["outport == @test-new-acl-m-pg && ip && ip4.src == $test.default.xx.allow.ipv4 && " ++
        "ip4.src != $test.default.xx.except.ipv4 && tcp.dst == 0"] := by
  decide

/-- The counts of `test_aclFilter` on its eleven ACLs: two to-lport ACLs of the
port group, two without external ids, three from-lport ACLs of the port group
and four of another parent. -/
theorem aclFilter_test_counts :
    (List.map
      (fun f => (List.filter f
        ([newAcl "pg" "to-lport" "9999" "m" "allow-related",
          newAcl "pg" "to-lport" "9999" "m" "allow-related",
          { newAcl "pg" "to-lport" "9999" "m" "allow-related" with ExternalIDs := [] },
          { newAcl "pg" "to-lport" "9999" "m" "allow-related" with ExternalIDs := [] },
          newAcl "pg" "from-lport" "9999" "m" "allow-related",
          newAcl "pg" "from-lport" "9999" "m" "allow-related",
          newAcl "pg" "from-lport" "9999" "m" "allow-related",
          newAcl "pg-test" "from-lport" "9999" "m" "allow-related",
          newAcl "pg-test" "from-lport" "9999" "m" "allow-related",
          newAcl "pg-test" "from-lport" "9999" "m" "allow-related",
          newAcl "pg-test" "from-lport" "9999" "m" "allow-related"] : List ACL)).length)
      [aclFilter "" [], aclFilter "" [(aclParentKey, "pg")], aclFilter "to-lport" [],
        aclFilter "to-lport" [(aclParentKey, "pg")], aclFilter "from-lport" [],
        aclFilter "from-lport" [(aclParentKey, "")]]) = [11, 5, 4, 2, 7, 7] := by
  decide

/-! ## ACL lookup, listing and deletion: the claims -/

/-- C11: for every named port selector without end-port the builder yields a
match (it has no error result): when the name is a key of the named-port table
the match is the base followed by ` && <proto>.dst == <PortId>` for the port id
of an entry of that name, and when the table is nil or lacks the name the match
is the base followed by ` && <proto>.dst == 0`, `<proto>` being `tcp` for a TCP
selector, `udp` for a UDP selector and `sctp` for an SCTP selector. -/
theorem newNetworkPolicyAclMatch_named_port (pgName asAllowName asExceptName : String)
    (protocol : IPVersion) (direction : String) (npp : List NetworkPolicyPort)
    (namedPortMap : Option (List (String × NamedPortInfo))) (h : npp ≠ []) :
    List.Forall₂
      (NamedPortMatch
        (networkPolicyBaseMatch pgName asAllowName asExceptName protocol direction)
        namedPortMap)
      npp
      (newNetworkPolicyAclMatch pgName asAllowName asExceptName protocol direction npp
        namedPortMap) := by
  simp only [newNetworkPolicyAclMatch, if_neg h]
  rw [List.forall₂_map_right_iff, List.forall₂_same]
  intro sel _ name hp he
  have h0 : Itoa 0 = "0" := by decide
  refine ⟨sel.Protocol.token, protocolToken_token sel.Protocol, ?_, ?_⟩
  · intro table ht hmem
    subst ht
    cases hl : lookupNamedPort (some table) name with
    | none => exact absurd hmem ((lookupNamedPort_none_iff table name).1 hl)
    | some info =>
      refine ⟨info, lookupNamedPort_some_mem table name info hl, ?_⟩
      simp only [networkPolicyPortMatch, hp, he, resolvePort, hl]
  · intro hn
    have hl : lookupNamedPort namedPortMap name = none := by
      rcases hn with hn | ⟨table, ht, hmem⟩
      · rw [hn]; rfl
      · rw [ht]; exact (lookupNamedPort_none_iff table name).2 hmem
    simp only [networkPolicyPortMatch, hp, he, resolvePort, hl, h0]
    apply String.ext
    simp [String.data_append]

/-- Witness of `newNetworkPolicyAclMatch_named_port`: the table of the named-port
cases of `testnewNetworkPolicyAclMatch`, with a UDP selector of the name the
table holds and a TCP selector of a name it lacks. -/
theorem newNetworkPolicyAclMatch_named_port_witness :
    ([⟨Protocol.UDP, some (IntOrString.str "test-pod-port"), none⟩,
        ⟨Protocol.TCP, some (IntOrString.str "test-pod-port-x"), none⟩] :
        List NetworkPolicyPort) ≠ [] ∧
      List.Forall₂
        (NamedPortMatch
          (networkPolicyBaseMatch "test-new-acl-m-pg" "test.default.xx.allow.ipv4"
            "test.default.xx.except.ipv4" IPVersion.v4 ACLDirectionToLport)
          (some [("test-pod-port", ⟨13455⟩)]))
        [⟨Protocol.UDP, some (IntOrString.str "test-pod-port"), none⟩,
          ⟨Protocol.TCP, some (IntOrString.str "test-pod-port-x"), none⟩]
        (newNetworkPolicyAclMatch "test-new-acl-m-pg" "test.default.xx.allow.ipv4"
          "test.default.xx.except.ipv4" IPVersion.v4 ACLDirectionToLport
          [⟨Protocol.UDP, some (IntOrString.str "test-pod-port"), none⟩,
            ⟨Protocol.TCP, some (IntOrString.str "test-pod-port-x"), none⟩]
          (some [("test-pod-port", ⟨13455⟩)])) :=
  ⟨by decide, newNetworkPolicyAclMatch_named_port _ _ _ _ _ _ _ (by decide)⟩

/-- C12: `GetAcl` returns an ACL only if that ACL is installed, carries the
parent tag and has the given direction, priority and match; when no installed
ACL of the parent agrees in direction, priority and match (in particular when
the parent has no ACL), it returns the not-found error without `ignoreNotFound`
and a nil ACL without error with it. The priority is the integer the priority
string denotes. -/
theorem GetAcl_spec (db : List ACL) (parent direction priority aclMatch : String)
    (ignoreNotFound : Bool) :
    (∀ acl, GetAcl db parent direction priority aclMatch ignoreNotFound = Except.ok (some acl) →
      acl ∈ db ∧ aclParent acl = some parent ∧ acl.Direction = direction ∧
        acl.Priority = (Atoi priority).getD 0 ∧ acl.Match = aclMatch) ∧
    ((∀ acl ∈ db, aclParent acl = some parent →
        ¬ (acl.Direction = direction ∧ acl.Priority = (Atoi priority).getD 0 ∧
          acl.Match = aclMatch)) →
      GetAcl db parent direction priority aclMatch false =
          Except.error (AclError.notFound parent direction priority aclMatch) ∧
        GetAcl db parent direction priority aclMatch true = Except.ok none) ∧
    (∀ n : Int, (Atoi (Itoa n)).getD 0 = n) := by
  refine ⟨?_, ?_, ?_⟩
  · intro acl h
    unfold GetAcl at h
    simp only at h
    split at h
    · split at h <;> simp at h
    · rename_i a heq
      simp only [Except.ok.injEq, Option.some.injEq] at h
      subst h
      have hm : a ∈ List.filter (fun acl => decide (aclParent acl = some parent) &&
          decide (acl.Direction = direction) &&
          decide (acl.Priority = (Atoi priority).getD 0) &&
          decide (acl.Match = aclMatch)) db := by
        rw [heq]; exact List.mem_singleton_self _
      rw [List.mem_filter] at hm
      simp only [Bool.and_eq_true, decide_eq_true_eq] at hm
      exact ⟨hm.1, hm.2.1.1.1, hm.2.1.1.2, hm.2.1.2, hm.2.2⟩
    · simp at h
  · intro h
    have hnil : List.filter (fun acl => decide (aclParent acl = some parent) &&
        decide (acl.Direction = direction) &&
        decide (acl.Priority = (Atoi priority).getD 0) &&
        decide (acl.Match = aclMatch)) db = [] := by
      rw [List.filter_eq_nil_iff]
      intro a ha hc
      simp only [Bool.and_eq_true, decide_eq_true_eq] at hc
      exact h a ha hc.1.1.1 ⟨hc.1.1.2, hc.1.2, hc.2⟩
    unfold GetAcl
    simp only [hnil]
    exact ⟨rfl, rfl⟩
  · intro n
    rw [Atoi_Itoa]
    rfl

/-- C13, as amended: `aclFilter` accepts an ACL if and only if the direction is
empty or is the direction of the ACL, the ACL has at least as many external ids
as the filter map, and every key of the filter map is a key of the ACL, with the
same value whenever the filter value is non-empty; an empty filter map accepts
every ACL of the direction; `ListPortGroups` selects port groups by the same
condition on their external ids. -/
theorem aclFilter_iff (direction : String) (externalIDs : List (String × String)) (acl : ACL)
    (db : List PortGroup) (pg : PortGroup) :
    (aclFilter direction externalIDs acl = true ↔
      ((direction = "" ∨ acl.Direction = direction) ∧
        externalIDs.length ≤ acl.ExternalIDs.length ∧
        ∀ kv ∈ externalIDs, (mapGet acl.ExternalIDs kv.1).isSome = true ∧
          (kv.2 ≠ "" → mapGet acl.ExternalIDs kv.1 = some kv.2))) ∧
    (aclFilter direction [] acl = true ↔ (direction = "" ∨ acl.Direction = direction)) ∧
    (pg ∈ ListPortGroups db externalIDs ↔
      (pg ∈ db ∧ externalIDs.length ≤ pg.ExternalIDs.length ∧
        ∀ kv ∈ externalIDs, (mapGet pg.ExternalIDs kv.1).isSome = true ∧
          (kv.2 ≠ "" → mapGet pg.ExternalIDs kv.1 = some kv.2))) ∧
    (pg ∈ ListPortGroups db [] ↔ pg ∈ db) := by
  have hdir : (decide (direction = "") || decide (acl.Direction = direction)) = true ↔
      (direction = "" ∨ acl.Direction = direction) := by
    simp only [Bool.or_eq_true, decide_eq_true_eq]
  refine ⟨?_, ?_, ?_, ?_⟩
  · unfold aclFilter
    rw [Bool.and_eq_true, externalIDsMatch_iff, hdir]
    tauto
  · unfold aclFilter
    rw [Bool.and_eq_true, externalIDsMatch_iff, hdir]
    simp
  · unfold ListPortGroups
    rw [List.mem_filter, externalIDsMatch_iff]
  · unfold ListPortGroups
    rw [List.mem_filter, externalIDsMatch_iff]
    simp

/-- C13, counterexample: under a nil filter map an ACL that carries its parent tag
is accepted although the two maps differ in size (the first count of
`test_aclFilter`), and a port group of three external ids is listed for a
filter of two (the second case of `testListPortGroups`). -/
theorem aclFilter_extra_keys :
    (aclFilter "" []
        (newAcl "test-filter-acl-pg" "to-lport" "9999"
          "outport == @ovn.sg.test_list_acl_pg && ip" "allow-related") = true ∧
      (newAcl "test-filter-acl-pg" "to-lport" "9999"
          "outport == @ovn.sg.test_list_acl_pg && ip" "allow-related").ExternalIDs.length ≠
        ([] : List (String × String)).length) ∧
    (ListPortGroups
        [⟨"test-list-pg-exist-key",
          [("sg", "sg"), ("type", "security_group"), ("key", "value")]⟩]
        [("type", "security_group"), ("key", "value")] =
      [⟨"test-list-pg-exist-key",
        [("sg", "sg"), ("type", "security_group"), ("key", "value")]⟩]) := by
  decide

/-- C14: the ACL diff converges: diffing the target against the live ACLs,
applying the adds and deletes, and diffing the target against the result yields
no add and no delete. -/
theorem aclDiff_converges (target live : List ACL) :
    aclDiff target (aclApply live (aclDiff target live)) = ([], []) := by
  have hlive : ∀ l ∈ aclApply live (aclDiff target live),
      aclIdentity l ∈ target.map aclIdentity := by
    intro l hl
    unfold aclApply aclDiff at hl
    simp only [List.mem_append, List.mem_filter, decide_eq_true_eq] at hl
    rcases hl with ⟨h1, h2⟩ | ⟨h1, -⟩
    · by_contra hc
      apply h2
      exact List.mem_map_of_mem aclIdentity (List.mem_filter.2 ⟨h1, by simpa using hc⟩)
    · exact List.mem_map_of_mem aclIdentity h1
  have htarget : ∀ t ∈ target,
      aclIdentity t ∈ (aclApply live (aclDiff target live)).map aclIdentity := by
    intro t ht
    by_cases hk : aclIdentity t ∈ live.map aclIdentity
    · obtain ⟨l, hl, hlk⟩ := List.mem_map.1 hk
      refine List.mem_map.2 ⟨l, ?_, hlk⟩
      unfold aclApply aclDiff
      simp only [List.mem_append, List.mem_filter, decide_eq_true_eq]
      left
      refine ⟨hl, ?_⟩
      intro hc
      obtain ⟨d, hd, hdk⟩ := List.mem_map.1 hc
      have h3 := (List.mem_filter.1 hd).2
      simp only [decide_eq_true_eq] at h3
      apply h3
      rw [hdk, hlk]
      exact List.mem_map_of_mem aclIdentity ht
    · refine List.mem_map_of_mem aclIdentity ?_
      unfold aclApply aclDiff
      simp only [List.mem_append, List.mem_filter, decide_eq_true_eq]
      exact Or.inr ⟨ht, hk⟩
  have h1 : (aclDiff target (aclApply live (aclDiff target live))).1 = [] := by
    show List.filter _ target = []
    rw [List.filter_eq_nil_iff]
    intro t ht
    simpa using htarget t ht
  have h2 : (aclDiff target (aclApply live (aclDiff target live))).2 = [] := by
    show List.filter _ (aclApply live (aclDiff target live)) = []
    rw [List.filter_eq_nil_iff]
    intro l hl
    simpa using hlive l hl
  exact Prod.ext h1 h2

/-- C15: for a parent with a non-empty name, `DeleteAcls` removes the ACLs that
carry the parent tag and, for a non-empty direction `d`, have direction `d`: the
ACLs of any other direction stay as they were, in their order, as do the ACLs of
other parents; with the empty direction no ACL of the parent is left. -/
theorem DeleteAcls_spec (db : List ACL) (parentName parentType direction : String)
    (h : parentName ≠ "") :
    DeleteAcls db parentName parentType direction =
      db.filter (fun acl => !(decide (aclParent acl = some parentName) &&
        (decide (direction = "") || decide (acl.Direction = direction)))) ∧
    (direction ≠ "" →
      (DeleteAcls db parentName parentType direction).filter
          (fun acl => decide (acl.Direction ≠ direction)) =
        db.filter (fun acl => decide (acl.Direction ≠ direction))) ∧
    (direction ≠ "" → ∀ acl ∈ DeleteAcls db parentName parentType direction,
      aclParent acl = some parentName → acl.Direction ≠ direction) ∧
    (direction = "" → ∀ acl ∈ DeleteAcls db parentName parentType direction,
      aclParent acl ≠ some parentName) ∧
    (∀ acl ∈ db, aclParent acl ≠ some parentName →
      acl ∈ DeleteAcls db parentName parentType direction) := by
  have heq : DeleteAcls db parentName parentType direction =
      db.filter (fun acl => !(decide (aclParent acl = some parentName) &&
        (decide (direction = "") || decide (acl.Direction = direction)))) := by
    unfold DeleteAcls
    apply List.filter_congr
    intro acl _
    unfold aclFilter
    rw [externalIDsMatch_parent parentName acl.ExternalIDs h]
    rfl
  refine ⟨heq, ?_, ?_, ?_, ?_⟩
  · intro hd
    rw [heq, List.filter_filter]
    apply List.filter_congr
    intro acl _
    by_cases h1 : acl.Direction = direction <;> simp [h1, hd]
  · intro hd acl hacl hp hdir
    rw [heq, List.mem_filter] at hacl
    simp [hp, hdir] at hacl
  · intro hd acl hacl hp
    rw [heq, List.mem_filter] at hacl
    simp [hp, hd] at hacl
  · intro acl hacl hp
    rw [heq, List.mem_filter]
    exact ⟨hacl, by simp [hp]⟩

/-- Witness of `DeleteAcls_spec`: the one-way deletion of `testDeleteAcls`, on two
to-lport and three from-lport ACLs of one port group. -/
theorem DeleteAcls_spec_witness :
    ("test-del-acls-pg" : String) ≠ "" ∧
      (DeleteAcls
        [newAcl "test-del-acls-pg" "to-lport" "5701" "ip && tcp.dst == 5701" "allow-related",
          newAcl "test-del-acls-pg" "to-lport" "5701" "ip && tcp.dst == 5702" "allow-related",
          newAcl "test-del-acls-pg" "from-lport" "5701" "ip && tcp.dst == 5701" "allow-related",
          newAcl "test-del-acls-pg" "from-lport" "5701" "ip && tcp.dst == 5702" "allow-related",
          newAcl "test-del-acls-pg" "from-lport" "5701" "ip && tcp.dst == 5703" "allow-related"]
        "test-del-acls-pg" "pg" "to-lport").length = 3 :=
  ⟨by decide, by
    rw [(DeleteAcls_spec _ "test-del-acls-pg" "pg" "to-lport" (by decide)).1]
    decide⟩

/-! ## The VPC controller: the claims -/

/-- C16: when the key of the object can be computed, `enqueueDelVpc` adds the VPC
to the delete queue if and only if it is not the case that the VPC is flagged
default in its status and carries the external label; a default VPC with the
external label is never added. -/
theorem enqueueDelVpc_iff (util : UtilConsts) (keyFunc : VpcObject → Except GoError String)
    (vpc : VpcObject) (key : String) (h : keyFunc vpc = Except.ok key) :
    (enqueueDelVpc util keyFunc vpc = [vpc] ↔
      ¬ (vpc.Status.Default = true ∧
        (mapGet vpc.Labels util.VpcExternalLabel).isSome = true)) ∧
    ((vpc.Status.Default = true ∧
        (mapGet vpc.Labels util.VpcExternalLabel).isSome = true) →
      enqueueDelVpc util keyFunc vpc = []) := by
  unfold enqueueDelVpc
  simp only [h]
  cases hd : vpc.Status.Default <;>
    cases hl : (mapGet vpc.Labels util.VpcExternalLabel).isSome <;> simp

/-- Witness of `enqueueDelVpc_iff`: a VPC without the external label. -/
theorem enqueueDelVpc_iff_witness :
    enqueueDelVpc sampleUtil (fun v => Except.ok v.Name) (sampleVpcObject "vpc1" false) =
      [sampleVpcObject "vpc1" false] :=
  (enqueueDelVpc_iff sampleUtil (fun v => Except.ok v.Name) (sampleVpcObject "vpc1" false)
    "vpc1" rfl).1.2 (by decide)

/-- C17: when the lookup of the VPC returns an error, `handleAddOrUpdateVpc` and
`handleUpdateVpcStatus` issue no operation; they return nil for a not-found
error and the error itself, unchanged, for any other. -/
theorem handle_lookup_error (env : Env) (key : String) (e : GoError) :
    (env.getVpc [] key = Except.error e →
      handleAddOrUpdateVpc env key =
        (if e.notFound then Outcome.returned none
          else Outcome.returned (some (HandlerError.collaborator e)), [])) ∧
    (env.listerGetVpc [] key = Except.error e →
      handleUpdateVpcStatus env key =
        (if e.notFound then Outcome.returned none
          else Outcome.returned (some (HandlerError.collaborator e)), [])) := by
  constructor
  · intro h
    unfold handleAddOrUpdateVpc
    rw [h]
    by_cases hn : e.notFound = true <;> simp [hn]
  · intro h
    unfold handleUpdateVpcStatus
    rw [h]
    by_cases hn : e.notFound = true <;> simp [hn]

/-- C18, the code at a failing input: for the cluster router `ovn-cluster`, with a
join subnet whose lookup answers not-found, the pass creates the router and
then panics on the nil subnet; it returns no error. -/
theorem handleAddOrUpdateVpc_missing_join_subnet :
    handleAddOrUpdateVpc
        (sampleEnv (sampleVpcObject "ovn-cluster" false)
          (Except.error ⟨"subnet join not found", true⟩) [])
        "ovn-cluster" =
      (Outcome.panicked (Panic.nilDereference "joinSubnet"),
        [Event.createLogicalRouter "ovn-cluster"]) := by
  decide

/-! ## Lemmas on the operations of a pass -/

theorem Act.pure_apply {α : Type} (a : α) (tr : List Event) :
    Act.pure a tr = (Res.ok a, tr) := rfl

theorem Act.call_ok (ev : Event) (answer : List Event → Option GoError) (tr : List Event)
    (h : answer tr = none) : Act.call ev answer tr = (Res.ok (), tr ++ [ev]) := by
  unfold Act.call; rw [h]

theorem Act.call_fail (ev : Event) (answer : List Event → Option GoError) (tr : List Event)
    (e : GoError) (h : answer tr = some e) :
    Act.call ev answer tr = (Res.fail (HandlerError.collaborator e), tr ++ [ev]) := by
  unfold Act.call; rw [h]

theorem Act.bind_ok {α β : Type} (m : Act α) (f : α → Act β) (tr tr1 : List Event) (a : α)
    (h : m tr = (Res.ok a, tr1)) : Act.bind m f tr = f a tr1 := by
  unfold Act.bind; rw [h]

theorem emits_pure {α : Type} (P : Event → Prop) (a : α) : Act.Emits P (Act.pure a) :=
  fun tr => ⟨[], by simp [Act.pure], by simp⟩

theorem emits_call (P : Event → Prop) (ev : Event) (answer : List Event → Option GoError)
    (h : P ev) : Act.Emits P (Act.call ev answer) := by
  intro tr
  refine ⟨[ev], ?_, by simpa using h⟩
  unfold Act.call
  cases answer tr <;> rfl

theorem emits_read {α : Type} (P : Event → Prop) (answer : List Event → Except GoError α) :
    Act.Emits P (Act.read answer) := by
  intro tr
  refine ⟨[], ?_, by simp⟩
  unfold Act.read
  cases answer tr <;> simp

theorem emits_bind {α β : Type} (P : Event → Prop) (m : Act α) (f : α → Act β)
    (hm : Act.Emits P m) (hf : ∀ a, Act.Emits P (f a)) : Act.Emits P (Act.bind m f) := by
  intro tr
  obtain ⟨e1, h1, p1⟩ := hm tr
  unfold Act.bind
  cases hr : m tr with
  | mk r tr1 =>
    rw [hr] at h1
    simp only at h1
    cases r with
    | ok a =>
      obtain ⟨e2, h2, p2⟩ := hf a tr1
      refine ⟨e1 ++ e2, ?_, ?_⟩
      · rw [h2, h1, List.append_assoc]
      · intro e he
        rcases List.mem_append.1 he with he | he
        · exact p1 e he
        · exact p2 e he
    | fail e => exact ⟨e1, h1, p1⟩
    | panic p => exact ⟨e1, h1, p1⟩

theorem emits_forEach {α : Type} (P : Event → Prop) (f : α → Act Unit)
    (hf : ∀ x, Act.Emits P (f x)) : ∀ l : List α, Act.Emits P (Act.forEach f l) := by
  intro l
  induction l with
  | nil => exact emits_pure P ()
  | cons x xs ih => exact emits_bind P (f x) _ (hf x) (fun _ => ih)

theorem emits_ite {α : Type} (P : Event → Prop) (c : Prop) [Decidable c] (m1 m2 : Act α)
    (h1 : Act.Emits P m1) (h2 : Act.Emits P m2) : Act.Emits P (if c then m1 else m2) := by
  split
  · exact h1
  · exact h2

theorem emits_formatVpcObject (env : Env) (vpc : VpcObject) :
    Act.Emits (fun e => e.isBackend = true) (formatVpcObject env vpc) := by
  intro tr
  refine ⟨(formatVpc env.ParseIP env.ParseCIDR
    (fun v => (env.updateVpc tr v).map GoError.message) vpc.routes).updates.map
      Event.updateVpc, ?_, ?_⟩
  · unfold formatVpcObject
    simp only
    split <;> rfl
  · intro e he
    obtain ⟨v, -, rfl⟩ := List.mem_map.1 he
    rfl

theorem emits_GetStaticRoutes (P : Event → Prop) (env : Env) (lrName : String) :
    Act.Emits P (GetStaticRoutes env lrName) := by
  intro tr
  refine ⟨[], ?_, by simp⟩
  unfold GetStaticRoutes
  cases env.listLogicalRouterStaticRoutes tr lrName <;> simp

theorem emits_GetPolicyRoutes (P : Event → Prop) (env : Env) (lrName : String) :
    Act.Emits P (GetPolicyRoutes env lrName) := by
  intro tr
  refine ⟨[], ?_, by simp⟩
  unfold GetPolicyRoutes
  cases env.listLogicalRouterPolicies tr lrName <;> simp

theorem emits_peeringLoop (env : Env) (vpcName : String) (l : List VpcPeering) :
    ∀ newPeers, Act.Emits (fun e => e.isBackend = true) (peeringLoop env vpcName l newPeers) := by
  induction l with
  | nil => intro newPeers; exact emits_pure _ newPeers
  | cons x xs ih =>
    intro newPeers tr
    unfold peeringLoop
    cases env.CheckCidrs x.LocalConnectIP with
    | some e => exact ⟨[], by simp, by simp⟩
    | none =>
      simp only
      revert tr
      apply emits_bind
      · apply emits_call; rfl
      · intro _; exact ih _

theorem eipSnatRoutes_trace (env : Env) (vpc : VpcObject) (tr : List Event) :
    (eipSnatRoutes env vpc tr).2 = tr := by
  unfold eipSnatRoutes
  by_cases h : env.config.EnableEipSnat = true
  · rw [if_pos h]
    cases env.getConfigMap tr env.config.ExternalGatewayConfigNS
        env.util.ExternalGatewayConfig with
    | error e => rfl
    | ok data =>
      simp only
      by_cases hg : mapIndex data "external-gw-addr" = ""
      · rw [if_pos hg]
      · rw [if_neg hg]
        cases env.listNats tr vpc.Name <;> rfl
  · rw [if_neg h]

/-- The block that builds the target routes issues no operation. -/
theorem targetStaticRoutes_trace (env : Env) (vpc : VpcObject) (tr : List Event) :
    (targetStaticRoutes env vpc tr).2 = tr := by
  unfold targetStaticRoutes
  by_cases h : vpc.Name = env.config.ClusterRouter
  · rw [if_pos h]
    cases env.getSubnet tr env.config.NodeSwitch with
    | error e =>
      simp only
      split <;> rfl
    | ok joinSubnet =>
      simp only
      have h1 := eipSnatRoutes_trace env vpc tr
      unfold Act.bind
      cases hr : eipSnatRoutes env vpc tr with
      | mk r tr1 =>
        rw [hr] at h1
        simp only at h1
        subst h1
        cases r <;> rfl
  · rw [if_neg h]

theorem emits_targetStaticRoutes (P : Event → Prop) (env : Env) (vpc : VpcObject) :
    Act.Emits P (targetStaticRoutes env vpc) :=
  fun tr => ⟨[], by simp [targetStaticRoutes_trace], by simp⟩

theorem emits_reconcileStaticRoutes (env : Env) (vpc : VpcObject) :
    Act.Emits (fun e => e.isBackend = true) (reconcileStaticRoutes env vpc) := by
  unfold reconcileStaticRoutes
  apply emits_bind
  · exact emits_GetStaticRoutes _ env _
  intro existRoute
  apply emits_bind
  · exact emits_targetStaticRoutes _ env vpc
  intro targetRoutes
  apply emits_bind
  · apply emits_forEach; intro item; apply emits_call; rfl
  intro _
  apply emits_forEach; intro item; apply emits_call; rfl

theorem emits_reconcilePolicyRoutes (env : Env) (vpc : VpcObject) :
    Act.Emits (fun e => e.isBackend = true) (reconcilePolicyRoutes env vpc) := by
  unfold reconcilePolicyRoutes
  apply emits_bind
  · apply emits_ite
    · apply emits_call; rfl
    · exact emits_pure _ ()
  intro _
  cases vpc.Spec.PolicyRoutes with
  | none => exact emits_pure _ ()
  | some target =>
    simp only
    apply emits_bind
    · exact emits_GetPolicyRoutes _ env _
    intro exist
    apply emits_bind
    · apply emits_forEach; intro item; apply emits_call; rfl
    intro _
    apply emits_forEach; intro item; apply emits_call; rfl

theorem emits_addLoadBalancer (env : Env) (vpcName : String) :
    Act.Emits (fun e => e.isBackend = true) (addLoadBalancer env vpcName) := by
  unfold addLoadBalancer
  simp only
  apply emits_bind
  · apply emits_call; rfl
  intro _
  apply emits_bind
  · apply emits_call; rfl
  intro _
  apply emits_bind
  · apply emits_call; rfl
  intro _
  apply emits_bind
  · apply emits_call; rfl
  intro _
  apply emits_bind
  · apply emits_call; rfl
  intro _
  apply emits_bind
  · apply emits_call; rfl
  intro _
  exact emits_pure _ _

theorem emits_buildStatus (env : Env) (key : String) (vpc : VpcObject)
    (newPeers : List String) :
    Act.Emits (fun e => e.isBackend = true) (buildStatus env key vpc newPeers) := by
  unfold buildStatus
  split
  · apply emits_bind
    · exact emits_addLoadBalancer env key
    · intro _; exact emits_pure _ _
  · exact emits_pure _ _

/-- Before the status patch a pass issues backend operations only. -/
theorem emits_reconcileBackend (env : Env) (key : String) (cachedVpc : VpcObject) :
    Act.Emits (fun e => e.isBackend = true) (reconcileBackend env key cachedVpc) := by
  unfold reconcileBackend
  apply emits_bind
  · exact emits_formatVpcObject env cachedVpc
  intro vpc
  apply emits_bind
  · apply emits_call; rfl
  intro _
  apply emits_bind
  · exact emits_peeringLoop env _ _ _
  intro newPeers
  apply emits_bind
  · unfold stalePeerLoop
    apply emits_forEach
    intro oldPeer
    apply emits_ite
    · exact emits_pure _ ()
    · apply emits_call; rfl
  intro _
  apply emits_bind
  · exact emits_reconcileStaticRoutes env vpc
  intro _
  apply emits_bind
  · exact emits_reconcilePolicyRoutes env vpc
  intro _
  apply emits_bind
  · exact emits_buildStatus env key vpc newPeers
  intro _
  exact emits_pure _ _

/-- The subnet loop adds the keys of the subnets of the VPC, in order, and cannot
fail. -/
theorem notifySubnets_eq (key : String) (subnets : List Subnet) :
    ∀ tr, notifySubnets key subnets tr =
      (Res.ok (), tr ++ ((subnets.filter (fun s => decide (s.Vpc = key))).map
        (fun s => Event.addSubnetQueue s.Name))) := by
  induction subnets with
  | nil => intro tr; simp [notifySubnets, Act.forEach, Act.pure]
  | cons x xs ih =>
    intro tr
    have ih2 := ih
    unfold notifySubnets at ih2 ⊢
    unfold Act.forEach Act.bind
    by_cases hx : x.Vpc = key
    · simp only [hx, if_true, Act.emit]
      rw [ih2]
      simp [hx]
    · simp only [hx, if_false, Act.pure]
      rw [ih2]
      simp [hx]

/-- The routes of the object a successful `formatVpc` leaves: the declared static
routes with an empty policy replaced by the destination policy. -/
theorem formatVpcObject_ok (env : Env) (cachedVpc vpc : VpcObject) (tr tr1 : List Event)
    (h : formatVpcObject env cachedVpc tr = (Res.ok vpc, tr1)) :
    vpc.Name = cachedVpc.Name ∧
      vpc.Spec.StaticRoutes = cachedVpc.Spec.StaticRoutes.map defaultPolicy := by
  unfold formatVpcObject at h
  simp only at h
  cases he : (formatVpc env.ParseIP env.ParseCIDR
      (fun v => (env.updateVpc tr v).map GoError.message) cachedVpc.routes).err with
  | some e => rw [he] at h; simp at h
  | none =>
    rw [he] at h
    simp only [Prod.mk.injEq, Res.ok.injEq] at h
    have hacc : ¬ vpcRejected env.ParseIP env.ParseCIDR cachedVpc.routes := by
      intro hr
      exact (formatVpc_rejected env.ParseIP env.ParseCIDR _ cachedVpc.routes hr).1 he
    have h1 := (formatVpc_accepted env.ParseIP env.ParseCIDR
      (fun v => (env.updateVpc tr v).map GoError.message) cachedVpc.routes hacc).1
    rw [← h.1, h1]
    exact ⟨rfl, rfl⟩

theorem reconcileExternal_ok (env : Env) (key : String) (cachedVpc : VpcObject)
    (tr tr2 : List Event) (h : reconcileExternal env key cachedVpc tr = (Res.ok (), tr2)) :
    ∃ ext, tr2 = tr ++ ext ∧
      ((cachedVpc.Spec.EnableExternal = true ∧ cachedVpc.Status.EnableExternal = false ∧
          ext = [Event.handleAddVpcExternal key]) ∨
        (cachedVpc.Spec.EnableExternal = false ∧ cachedVpc.Status.EnableExternal = true ∧
          ext = [Event.handleDelVpcExternal key]) ∨
        (cachedVpc.Spec.EnableExternal = cachedVpc.Status.EnableExternal ∧ ext = [])) := by
  unfold reconcileExternal at h
  cases hs : cachedVpc.Spec.EnableExternal <;> cases ht : cachedVpc.Status.EnableExternal
  · rw [hs, ht] at h
    simp only [Bool.false_eq_true, false_and, and_false, if_false] at h
    rw [Act.bind_ok _ _ tr tr () (Act.pure_apply () tr), Act.pure_apply] at h
    simp only [Prod.mk.injEq, true_and] at h
    exact ⟨[], by simp [h], Or.inr (Or.inr ⟨rfl, rfl⟩)⟩
  · rw [hs, ht] at h
    simp only [Bool.false_eq_true, false_and, and_self, if_false, if_true] at h
    rw [Act.bind_ok _ _ tr tr () (Act.pure_apply () tr)] at h
    cases hc : env.handleDelVpcExternal tr key with
    | none =>
      rw [Act.call_ok _ _ tr hc] at h
      simp only [Prod.mk.injEq, true_and] at h
      exact ⟨[Event.handleDelVpcExternal key], h.symm, Or.inr (Or.inl ⟨rfl, rfl, rfl⟩)⟩
    | some e =>
      rw [Act.call_fail _ _ tr e hc] at h
      simp at h
  · rw [hs, ht] at h
    simp only [Bool.true_eq_false, false_and, and_self, if_false, if_true] at h
    cases hc : env.handleAddVpcExternal tr key with
    | none =>
      rw [Act.bind_ok _ _ tr _ () (Act.call_ok _ _ tr hc), Act.pure_apply] at h
      simp only [Prod.mk.injEq, true_and] at h
      exact ⟨[Event.handleAddVpcExternal key], h.symm, Or.inl ⟨rfl, rfl, rfl⟩⟩
    | some e =>
      unfold Act.bind at h
      rw [Act.call_fail _ _ tr e hc] at h
      simp at h
  · rw [hs, ht] at h
    simp only [Bool.true_eq_false, and_false, false_and, if_false] at h
    rw [Act.bind_ok _ _ tr tr () (Act.pure_apply () tr), Act.pure_apply] at h
    simp only [Prod.mk.injEq, true_and] at h
    exact ⟨[], by simp [h], Or.inr (Or.inr ⟨rfl, rfl⟩)⟩

/-- The operations of the part of a successful pass that starts at the status patch. -/
theorem publishVpc_ok (env : Env) (key : String) (cachedVpc vpc : VpcObject)
    (tr tr2 : List Event) (h : publishVpc env key cachedVpc vpc tr = (Res.ok (), tr2)) :
    ∃ (patched : VpcObject) (lb : Event) (keys : List String) (ext : List Event),
      tr2 = tr ++ [Event.patchVpcStatus vpc.Name vpc.Status] ++ [lb] ++
          keys.map Event.addSubnetQueue ++ ext ∧
        (lb = Event.createVpcLb patched ∨ lb = Event.deleteVpcLb patched) ∧
        ((cachedVpc.Spec.EnableExternal = true ∧ cachedVpc.Status.EnableExternal = false ∧
            ext = [Event.handleAddVpcExternal key]) ∨
          (cachedVpc.Spec.EnableExternal = false ∧ cachedVpc.Status.EnableExternal = true ∧
            ext = [Event.handleDelVpcExternal key]) ∨
          (cachedVpc.Spec.EnableExternal = cachedVpc.Status.EnableExternal ∧ ext = [])) := by
  unfold publishVpc at h
  -- the status patch
  unfold Act.bind at h
  cases hp : patchStatus env vpc tr with
  | mk r1 t1 =>
    rw [hp] at h
    cases r1 with
    | fail e => simp at h
    | panic p => simp at h
    | ok patched =>
      simp only at h
      have ht1 : t1 = tr ++ [Event.patchVpcStatus vpc.Name vpc.Status] := by
        unfold patchStatus at hp
        cases hb : env.statusBytes vpc.Status with
        | some e => rw [hb] at hp; simp at hp
        | none =>
          rw [hb] at hp
          simp only at hp
          cases hq : env.patchVpcStatus tr vpc.Name vpc.Status with
          | error e => rw [hq] at hp; simp at hp
          | ok v =>
            rw [hq] at hp
            simp only [Prod.mk.injEq] at hp
            exact hp.2.symm
      -- createVpcLb or deleteVpcLb
      cases hl : ensureVpcLb env patched t1 with
      | mk r2 t2 =>
        rw [hl] at h
        cases r2 with
        | fail e => simp at h
        | panic p => simp at h
        | ok u =>
          simp only at h
          have ht2 : ∃ lb, t2 = t1 ++ [lb] ∧
              (lb = Event.createVpcLb patched ∨ lb = Event.deleteVpcLb patched) := by
            unfold ensureVpcLb at hl
            split at hl
            · cases hc : env.createVpcLb t1 patched with
              | some e => rw [Act.call_fail _ _ t1 e hc] at hl; simp at hl
              | none =>
                rw [Act.call_ok _ _ t1 hc] at hl
                simp only [Prod.mk.injEq] at hl
                exact ⟨_, hl.2.symm, Or.inl rfl⟩
            · cases hc : env.deleteVpcLb t1 patched with
              | some e => rw [Act.call_fail _ _ t1 e hc] at hl; simp at hl
              | none =>
                rw [Act.call_ok _ _ t1 hc] at hl
                simp only [Prod.mk.injEq] at hl
                exact ⟨_, hl.2.symm, Or.inr rfl⟩
          obtain ⟨lb, hlb, hkind⟩ := ht2
          -- the subnets
          cases hs : Act.read env.listSubnets t2 with
          | mk r3 t3 =>
            rw [hs] at h
            cases r3 with
            | fail e => simp at h
            | panic p => simp at h
            | ok subnets =>
              simp only at h
              have ht3 : t3 = t2 := by
                unfold Act.read at hs
                cases hq : env.listSubnets t2 with
                | error e => rw [hq] at hs; simp at hs
                | ok v =>
                  rw [hq] at hs
                  simp only [Prod.mk.injEq] at hs
                  exact hs.2.symm
              rw [notifySubnets_eq] at h
              simp only at h
              obtain ⟨ext, hext, hcases⟩ := reconcileExternal_ok env key cachedVpc _ tr2 h
              refine ⟨patched, lb,
                (subnets.filter (fun s => decide (s.Vpc = key))).map (fun s => s.Name),
                ext, ?_, hkind, hcases⟩
              rw [hext, ht3, hlb, ht1, List.map_map]
              rfl

/-! ## The VPC controller: order of the operations and target routes -/

/-- C19, as amended: in every successful pass of `handleAddOrUpdateVpc` on an
existing VPC the operations come in this order: the backend operations, the
status patch, the call of `createVpcLb` or `deleteVpcLb`, the subnet keys added
to the subnet queue, and last the call that attaches or detaches external
connectivity; the subnet keys are enqueued before that call, not after it. -/
theorem handleAddOrUpdateVpc_order (env : Env) (key : String) (cachedVpc : VpcObject)
    (tr : List Event) (hget : env.getVpc [] key = Except.ok cachedVpc)
    (hok : handleAddOrUpdateVpc env key = (Outcome.returned none, tr)) :
    PassOrder key cachedVpc tr := by
  unfold handleAddOrUpdateVpc at hok
  rw [hget] at hok
  simp only at hok
  obtain ⟨pre, hpre, hback⟩ := emits_reconcileBackend env key cachedVpc []
  unfold Act.bind at hok
  cases hr : reconcileBackend env key cachedVpc [] with
  | mk r1 t1 =>
    rw [hr] at hok hpre
    simp only [List.nil_append] at hpre
    cases r1 with
    | fail e => simp [finish] at hok
    | panic p => simp [finish] at hok
    | ok vpc =>
      simp only at hok
      cases hp : publishVpc env key cachedVpc vpc t1 with
      | mk r2 t2 =>
        rw [hp] at hok
        cases r2 with
        | fail e => simp [finish] at hok
        | panic p => simp [finish] at hok
        | ok u =>
          simp only [finish, Prod.mk.injEq, true_and] at hok
          obtain ⟨patched, lb, keys, ext, htr, hkind, hcases⟩ :=
            publishVpc_ok env key cachedVpc vpc t1 t2 hp
          refine ⟨pre, vpc.Name, vpc.Status, patched, lb, keys, ext, ?_, hback, hkind, hcases⟩
          rw [← hok, htr, hpre]

/-- Witness of `handleAddOrUpdateVpc_order`: a VPC `vpc1` that declares external
connectivity and has one subnet. -/
theorem handleAddOrUpdateVpc_order_witness :
    PassOrder "vpc1" (sampleVpcObject "vpc1" true)
      [Event.createLogicalRouter "vpc1", Event.clearLogicalRouterPolicy "vpc1",
        Event.patchVpcStatus "vpc1" ⟨false, "vpc1", true, [], [], "", "", "", "", "", false⟩,
        Event.deleteVpcLb
          ⟨"vpc1", [], [], ⟨[], [], none, [], true⟩,
            ⟨false, "vpc1", true, [], [], "", "", "", "", "", false⟩⟩,
        Event.addSubnetQueue "subnet1", Event.handleAddVpcExternal "vpc1"] :=
  handleAddOrUpdateVpc_order
    (sampleEnv (sampleVpcObject "vpc1" true) (Except.error ⟨"subnet join not found", true⟩)
      [⟨"subnet1", "vpc1", "10.0.0.1", false, false⟩])
    "vpc1" (sampleVpcObject "vpc1" true) _ rfl (by decide)

/-- C19, counterexample: a successful pass on a VPC that declares external
connectivity and has the subnet `subnet1`: the key of the subnet is enqueued
before the handler of the external connection is called. -/
theorem handleAddOrUpdateVpc_enqueue_before_external :
    handleAddOrUpdateVpc
        (sampleEnv (sampleVpcObject "vpc1" true) (Except.error ⟨"subnet join not found", true⟩)
          [⟨"subnet1", "vpc1", "10.0.0.1", false, false⟩])
        "vpc1" =
      (Outcome.returned none,
        [Event.createLogicalRouter "vpc1", Event.clearLogicalRouterPolicy "vpc1",
          Event.patchVpcStatus "vpc1" ⟨false, "vpc1", true, [], [], "", "", "", "", "", false⟩,
          Event.deleteVpcLb
            ⟨"vpc1", [], [], ⟨[], [], none, [], true⟩,
              ⟨false, "vpc1", true, [], [], "", "", "", "", "", false⟩⟩,
          Event.addSubnetQueue "subnet1", Event.handleAddVpcExternal "vpc1"]) := by
  decide

/-- C20: the target list of static routes that `handleAddOrUpdateVpc` diffs. For a
VPC whose name is not the cluster router it is the list of the routes of the
(formatted) spec. For the cluster router, with the join subnet found, it is
that list followed by the destination route `0.0.0.0/0` via the IPv4 part of
the gateway if and only if that part is non-empty, then by the destination
route `::/0` via the IPv6 part if and only if that part is non-empty, then by
source routes only, and by none when the SNAT feature is off. The routes of the
formatted spec are the declared ones, an empty policy being the destination
policy. -/
theorem targetStaticRoutes_spec (env : Env) (vpc : VpcObject) (tr : List Event) :
    (vpc.Name ≠ env.config.ClusterRouter →
      targetStaticRoutes env vpc tr = (Res.ok vpc.Spec.StaticRoutes, tr)) ∧
    (vpc.Name = env.config.ClusterRouter →
      ∀ joinSubnet, env.getSubnet tr env.config.NodeSwitch = Except.ok joinSubnet →
        (env.config.EnableEipSnat = false →
          targetStaticRoutes env vpc tr =
            (Res.ok (vpc.Spec.StaticRoutes ++
              ((if (env.SplitStringIP joinSubnet.Gateway).1 ≠ "" then
                  [(⟨PolicyDst, "0.0.0.0/0", (env.SplitStringIP joinSubnet.Gateway).1⟩ :
                    StaticRoute)]
                else []) ++
              (if (env.SplitStringIP joinSubnet.Gateway).2 ≠ "" then
                  [(⟨PolicyDst, "::/0", (env.SplitStringIP joinSubnet.Gateway).2⟩ :
                    StaticRoute)]
                else []))), tr)) ∧
        (∀ target, targetStaticRoutes env vpc tr = (Res.ok target, tr) →
          ∃ snat : List StaticRoute,
            target = vpc.Spec.StaticRoutes ++
              ((if (env.SplitStringIP joinSubnet.Gateway).1 ≠ "" then
                  [(⟨PolicyDst, "0.0.0.0/0", (env.SplitStringIP joinSubnet.Gateway).1⟩ :
                    StaticRoute)]
                else []) ++
              (if (env.SplitStringIP joinSubnet.Gateway).2 ≠ "" then
                  [(⟨PolicyDst, "::/0", (env.SplitStringIP joinSubnet.Gateway).2⟩ :
                    StaticRoute)]
                else [])) ++ snat ∧
            (∀ r ∈ snat, r.Policy = PolicySrc) ∧
            (env.config.EnableEipSnat = false → snat = []))) ∧
    (∀ cachedVpc tr0 tr1, formatVpcObject env cachedVpc tr0 = (Res.ok vpc, tr1) →
      vpc.Spec.StaticRoutes = cachedVpc.Spec.StaticRoutes.map defaultPolicy) := by
  refine ⟨?_, ?_, ?_⟩
  · intro h
    unfold targetStaticRoutes
    rw [if_neg h]
  · intro h joinSubnet hj
    have hsnat : ∀ snat, eipSnatRoutes env vpc tr = (Res.ok snat, tr) →
        (∀ r ∈ snat, r.Policy = PolicySrc) ∧ (env.config.EnableEipSnat = false → snat = []) := by
      intro snat hs
      unfold eipSnatRoutes at hs
      by_cases he : env.config.EnableEipSnat = true
      · rw [if_pos he] at hs
        refine ⟨?_, fun hf => absurd he (by simp [hf])⟩
        cases hc : env.getConfigMap tr env.config.ExternalGatewayConfigNS
            env.util.ExternalGatewayConfig with
        | error e =>
          rw [hc] at hs
          simp only [Prod.mk.injEq, Res.ok.injEq, and_true] at hs
          rw [← hs]; simp
        | ok data =>
          rw [hc] at hs
          simp only at hs
          by_cases hg : mapIndex data "external-gw-addr" = ""
          · rw [if_pos hg] at hs; simp at hs
          · rw [if_neg hg] at hs
            cases hn : env.listNats tr vpc.Name with
            | error e => rw [hn] at hs; simp at hs
            | ok nats =>
              rw [hn] at hs
              simp only [Prod.mk.injEq, Res.ok.injEq, and_true] at hs
              rw [← hs]
              intro r hr
              unfold snatRoutes at hr
              obtain ⟨nat, -, rfl⟩ := List.mem_map.1 hr
              rfl
      · rw [if_neg he] at hs
        simp only [Prod.mk.injEq, Res.ok.injEq, and_true] at hs
        rw [← hs]
        exact ⟨by simp, fun _ => rfl⟩
    have hunfold : targetStaticRoutes env vpc tr =
        Act.bind (eipSnatRoutes env vpc)
          (fun snat => Act.pure
            (vpc.Spec.StaticRoutes ++ joinGatewayRoutes env joinSubnet.Gateway ++ snat)) tr := by
      unfold targetStaticRoutes
      rw [if_pos h, hj]
    refine ⟨?_, ?_⟩
    · intro hf
      have hs : eipSnatRoutes env vpc tr = (Res.ok [], tr) := by
        unfold eipSnatRoutes
        rw [if_neg (by simp [hf])]
      rw [hunfold, Act.bind_ok _ _ tr tr [] hs, Act.pure_apply, List.append_nil]
      unfold joinGatewayRoutes
      rfl
    · intro target ht
      rw [hunfold] at ht
      have htr := eipSnatRoutes_trace env vpc tr
      cases hs : eipSnatRoutes env vpc tr with
      | mk r t1 =>
        rw [hs] at htr
        simp only at htr
        subst htr
        cases r with
        | fail e => unfold Act.bind at ht; rw [hs] at ht; simp at ht
        | panic p => unfold Act.bind at ht; rw [hs] at ht; simp at ht
        | ok snat =>
          rw [Act.bind_ok _ _ t1 t1 snat hs, Act.pure_apply] at ht
          simp only [Prod.mk.injEq, Res.ok.injEq, and_true] at ht
          obtain ⟨h1, h2⟩ := hsnat snat hs
          refine ⟨snat, ?_, h1, h2⟩
          rw [← ht]
          unfold joinGatewayRoutes
          rfl
  · intro cachedVpc tr0 tr1 hfmt
    exact (formatVpcObject_ok env cachedVpc vpc tr0 tr1 hfmt).2

/-! ## Load balancer names (`GenVpcLoadBalancer`) -/

theorem vpcName_data (k1 k2 s1 s2 : String) (h : "vpc-" ++ k1 ++ s1 = "vpc-" ++ k2 ++ s2) :
    (s1.data.reverse ++ k1.data.reverse) = (s2.data.reverse ++ k2.data.reverse) := by
  have h2 := congrArg String.data h
  simp only [String.data_append] at h2
  have h3 : k1.data ++ s1.data = k2.data ++ s2.data := by
    have : "vpc-".data ++ (k1.data ++ s1.data) = "vpc-".data ++ (k2.data ++ s2.data) := by
      simpa [List.append_assoc] using h2
    exact List.append_cancel_left this
  have h4 := congrArg List.reverse h3
  simpa using h4

theorem GenVpcLoadBalancer_name (env : Env) (k : String) (h : k ≠ env.util.DefaultVpc)
    (he : k ≠ "") (i : Fin 4) :
    (GenVpcLoadBalancer env k).name i =
      "vpc-" ++ k ++ (match i with
        | 0 => "-tcp-load" | 1 => "-tcp-sess-load" | 2 => "-udp-load" | 3 => "-udp-sess-load") := by
  unfold GenVpcLoadBalancer
  rw [if_neg (by simp [h, he])]
  fin_cases i <;> rfl

/-- C30: for keys that are neither empty nor the default VPC, a name among the four load
balancers of one key equals a name among the four of another key only when the keys are
equal and the kinds are the same; in particular the four names of one key are pairwise
distinct. -/
theorem GenVpcLoadBalancer_disjoint (env : Env) (k1 k2 : String)
    (h1 : k1 ≠ env.util.DefaultVpc) (h1e : k1 ≠ "")
    (h2 : k2 ≠ env.util.DefaultVpc) (h2e : k2 ≠ "") :
    (∀ i j : Fin 4, (GenVpcLoadBalancer env k1).name i = (GenVpcLoadBalancer env k2).name j →
      k1 = k2 ∧ i = j) ∧
    (∀ i j : Fin 4, i ≠ j →
      (GenVpcLoadBalancer env k1).name i ≠ (GenVpcLoadBalancer env k1).name j) := by
  have key : ∀ (a b : String), a ≠ env.util.DefaultVpc → a ≠ "" → b ≠ env.util.DefaultVpc →
      b ≠ "" → ∀ i j : Fin 4,
      (GenVpcLoadBalancer env a).name i = (GenVpcLoadBalancer env b).name j → a = b ∧ i = j := by
    intro a b ha hae hb hbe i j h
    rw [GenVpcLoadBalancer_name env a ha hae, GenVpcLoadBalancer_name env b hb hbe] at h
    have hd := vpcName_data _ _ _ _ h
    fin_cases i <;> fin_cases j <;> simp at hd <;> exact ⟨String.ext hd, rfl⟩
  refine ⟨key k1 k2 h1 h1e h2 h2e, ?_⟩
  intro i j hij h
  exact hij (key k1 k1 h1 h1e h1 h1e i j h).2

theorem GenVpcLoadBalancer_disjoint_witness :
    (∀ i j : Fin 4,
      (GenVpcLoadBalancer (sampleEnv (sampleVpcObject "vpc1" false) (Except.error ⟨"subnet join not found", true⟩) []) "vpc1").name i =
      (GenVpcLoadBalancer (sampleEnv (sampleVpcObject "vpc1" false) (Except.error ⟨"subnet join not found", true⟩) []) "vpc2").name j →
      "vpc1" = "vpc2" ∧ i = j) ∧
    (∀ i j : Fin 4, i ≠ j →
      (GenVpcLoadBalancer (sampleEnv (sampleVpcObject "vpc1" false) (Except.error ⟨"subnet join not found", true⟩) []) "vpc1").name i ≠
      (GenVpcLoadBalancer (sampleEnv (sampleVpcObject "vpc1" false) (Except.error ⟨"subnet join not found", true⟩) []) "vpc1").name j) :=
  GenVpcLoadBalancer_disjoint _ "vpc1" "vpc2" (by decide) (by decide) (by decide) (by decide)

/-! ## Deletion of a VPC: the claims -/

/-- The operations of `handleDelVpc`, by the first step that fails: the deletion of
the load balancers of `v`, the deletion of the logical router named
`v.Status.Router`, and the teardown of the external connection of `v.Name`. -/
theorem handleDelVpc_steps (env : DelEnv) (v : VpcObject) :
    (∀ e, env.deleteVpcLb [] v = some e →
      handleDelVpc env v = (some e, [DelEvent.deleteVpcLb v])) ∧
    (env.deleteVpcLb [] v = none →
      (∀ e, env.deleteLogicalRouter [DelEvent.deleteVpcLb v] v.Status.Router = some e →
        handleDelVpc env v =
          (some e, [DelEvent.deleteVpcLb v, DelEvent.deleteLogicalRouter v.Status.Router])) ∧
      (env.deleteLogicalRouter [DelEvent.deleteVpcLb v] v.Status.Router = none →
        handleDelVpc env v =
          (env.handleDelVpcExternal
              [DelEvent.deleteVpcLb v, DelEvent.deleteLogicalRouter v.Status.Router] v.Name,
            [DelEvent.deleteVpcLb v, DelEvent.deleteLogicalRouter v.Status.Router,
              DelEvent.handleDelVpcExternal v.Name]))) := by
  refine ⟨?_, ?_⟩
  · intro e h
    unfold handleDelVpc
    rw [h]
  · intro h
    refine ⟨?_, ?_⟩
    · intro e h2
      unfold handleDelVpc deleteVpcRouter
      rw [h]
      simp only [h2, List.singleton_append]
    · intro h2
      unfold handleDelVpc deleteVpcRouter
      rw [h]
      simp only [h2, List.singleton_append]
      cases env.handleDelVpcExternal
        [DelEvent.deleteVpcLb v, DelEvent.deleteLogicalRouter v.Status.Router] v.Name <;> rfl

/-- C22, the code at a failing input: the router `handleDelVpc` deletes is the one
the status records, whatever the name of the VPC; so for a VPC `vpc1` whose
status records no router (its pass created the router `vpc1` and failed before
the status patch), with every step succeeding, the function deletes the router
of the empty name, issues no deletion of the router `vpc1`, tears down the
external connection of `vpc1` and returns nil. -/
theorem handleDelVpc_deletes_status_router :
    (∀ (env : DelEnv) (v : VpcObject) (lr : String),
      DelEvent.deleteLogicalRouter lr ∈ (handleDelVpc env v).2 → lr = v.Status.Router) ∧
    (sampleVpcObject "vpc1" false).Name = "vpc1" ∧
    (sampleVpcObject "vpc1" false).Status.Router = "" ∧
    handleDelVpc sampleDelEnv (sampleVpcObject "vpc1" false) =
      (none, [DelEvent.deleteVpcLb (sampleVpcObject "vpc1" false),
        DelEvent.deleteLogicalRouter "", DelEvent.handleDelVpcExternal "vpc1"]) ∧
    DelEvent.deleteLogicalRouter "vpc1" ∉
      (handleDelVpc sampleDelEnv (sampleVpcObject "vpc1" false)).2 := by
  refine ⟨?_, by decide, by decide, by decide, by decide⟩
  intro env v lr h
  unfold handleDelVpc deleteVpcRouter at h
  cases h1 : env.deleteVpcLb [] v with
  | some e => rw [h1] at h; simp at h
  | none =>
    rw [h1] at h
    simp only [List.singleton_append] at h
    cases h2 : env.deleteLogicalRouter [DelEvent.deleteVpcLb v] v.Status.Router with
    | some e => rw [h2] at h; simp at h; exact h
    | none =>
      rw [h2] at h
      simp only at h
      cases h3 : env.handleDelVpcExternal
          [DelEvent.deleteVpcLb v, DelEvent.deleteLogicalRouter v.Status.Router] v.Name with
      | some e => rw [h3] at h; simp at h; exact h
      | none => rw [h3] at h; simp at h; exact h

/-! ## Load balancers: the claims -/

theorem GetLoadBalancer_none (client : NbClient) (db : List LoadBalancer) (lbName : String)
    (ignoreNotFound : Bool)
    (h : client.list db (fun lb => lb.Name == lbName) = Except.ok []) :
    GetLoadBalancer client db lbName ignoreNotFound =
      if ignoreNotFound then Except.ok none else Except.error (LbError.notFound lbName) := by
  unfold GetLoadBalancer
  rw [h]

theorem GetLoadBalancer_one (client : NbClient) (db : List LoadBalancer) (lbName : String)
    (ignoreNotFound : Bool) (lb : LoadBalancer)
    (h : client.list db (fun lb => lb.Name == lbName) = Except.ok [lb]) :
    GetLoadBalancer client db lbName ignoreNotFound = Except.ok (some lb) := by
  unfold GetLoadBalancer
  rw [h]

theorem GetLoadBalancer_many (client : NbClient) (db : List LoadBalancer) (lbName : String)
    (ignoreNotFound : Bool) (a b : LoadBalancer) (rest : List LoadBalancer)
    (h : client.list db (fun lb => lb.Name == lbName) = Except.ok (a :: b :: rest)) :
    GetLoadBalancer client db lbName ignoreNotFound =
      Except.error (LbError.moreThanOne lbName) := by
  unfold GetLoadBalancer
  rw [h]

/-- C23: with a client that answers from the table and commits, `CreateLoadBalancer`
creates if absent: on a table with exactly one load balancer named `lbName` it
sends no transaction, leaves the table as it is and returns nil; on a table with
none it returns nil and the table gains exactly one row, of that name, with the
given protocol and with `selectFields` as its one selection field when that is
non-empty (none otherwise); and a second call with the same arguments leaves
the table the first call left. -/
theorem CreateLoadBalancer_spec (client : NbClient) (h : client.Commits) (uuid : String)
    (db : List LoadBalancer) (lbName protocol selectFields : String) :
    ((db.filter (fun lb => lb.Name == lbName)).length = 1 →
      CreateLoadBalancer client uuid db lbName protocol selectFields = ⟨db, [], none⟩) ∧
    (db.filter (fun lb => lb.Name == lbName) = [] →
      (CreateLoadBalancer client uuid db lbName protocol selectFields).err = none ∧
      (CreateLoadBalancer client uuid db lbName protocol selectFields).db =
        db ++ [⟨uuid, lbName, some protocol,
          if selectFields.length ≠ 0 then [selectFields] else []⟩]) ∧
    (∀ uuid2,
      (CreateLoadBalancer client uuid2
          (CreateLoadBalancer client uuid db lbName protocol selectFields).db
          lbName protocol selectFields).db =
        (CreateLoadBalancer client uuid db lbName protocol selectFields).db) := by
  obtain ⟨hl, hc, -, ht⟩ := h
  have one : ∀ (u : String) (d : List LoadBalancer),
      (d.filter (fun lb => lb.Name == lbName)).length = 1 →
      CreateLoadBalancer client u d lbName protocol selectFields = ⟨d, [], none⟩ := by
    intro u d h1
    obtain ⟨lb, hf⟩ := List.length_eq_one.1 h1
    unfold CreateLoadBalancer LoadBalancerExists
    rw [GetLoadBalancer_one client d lbName true lb (by rw [hl, hf])]
    rfl
  have zero : ∀ (u : String) (d : List LoadBalancer),
      d.filter (fun lb => lb.Name == lbName) = [] →
      CreateLoadBalancer client u d lbName protocol selectFields =
        ⟨d ++ [⟨u, lbName, some protocol, if selectFields.length ≠ 0 then [selectFields] else []⟩],
          [("lb-add", [LbOperation.insert ⟨u, lbName, some protocol,
            if selectFields.length ≠ 0 then [selectFields] else []⟩])], none⟩ := by
    intro u d h0
    unfold CreateLoadBalancer LoadBalancerExists
    rw [GetLoadBalancer_none client d lbName true (by rw [hl, h0])]
    simp only [Option.isSome_none, if_true, hc, ht, applyOperations]
  have many : ∀ (u : String) (d : List LoadBalancer),
      2 ≤ (d.filter (fun lb => lb.Name == lbName)).length →
      CreateLoadBalancer client u d lbName protocol selectFields =
        ⟨d, [], some (LbError.moreThanOne lbName)⟩ := by
    intro u d h2
    unfold CreateLoadBalancer LoadBalancerExists
    rcases hf : d.filter (fun lb => lb.Name == lbName) with _ | ⟨a, _ | ⟨b, rest⟩⟩
    · rw [hf] at h2; simp at h2
    · rw [hf] at h2; simp at h2
    · rw [GetLoadBalancer_many client d lbName true a b rest (by rw [hl, hf])]
  refine ⟨one uuid db, ?_, ?_⟩
  · intro h0
    rw [zero uuid db h0]
    exact ⟨rfl, rfl⟩
  · intro uuid2
    rcases Nat.lt_trichotomy (db.filter (fun lb => lb.Name == lbName)).length 1 with h0 | h1 | h2
    · have h0 : db.filter (fun lb => lb.Name == lbName) = [] :=
        List.length_eq_zero.1 (by omega)
      rw [zero uuid db h0]
      simp only
      rw [one]
      simp [List.filter_append, h0, List.filter]
    · rw [one uuid db h1]
      simp only
      rw [one uuid2 db h1]
    · rw [many uuid db (by omega)]
      simp only
      rw [many uuid2 db (by omega)]

theorem CreateLoadBalancer_spec_witness :
    ((([] : List LoadBalancer).filter (fun lb => lb.Name == "lb")).length = 1 →
      CreateLoadBalancer sampleNbClient "uuid-1" [] "lb" "tcp" "ip_src" = ⟨[], [], none⟩) ∧
    (([] : List LoadBalancer).filter (fun lb => lb.Name == "lb") = [] →
      (CreateLoadBalancer sampleNbClient "uuid-1" [] "lb" "tcp" "ip_src").err = none ∧
      (CreateLoadBalancer sampleNbClient "uuid-1" [] "lb" "tcp" "ip_src").db =
        [] ++ [⟨"uuid-1", "lb", some "tcp",
          if "ip_src".length ≠ 0 then ["ip_src"] else []⟩]) ∧
    (∀ uuid2,
      (CreateLoadBalancer sampleNbClient uuid2
          (CreateLoadBalancer sampleNbClient "uuid-1" [] "lb" "tcp" "ip_src").db
          "lb" "tcp" "ip_src").db =
        (CreateLoadBalancer sampleNbClient "uuid-1" [] "lb" "tcp" "ip_src").db) :=
  CreateLoadBalancer_spec sampleNbClient
    ⟨fun _ _ => rfl, fun _ => rfl, fun _ => rfl, fun _ _ _ => rfl⟩ "uuid-1" [] "lb" "tcp" "ip_src"

/-- C24: `rows` being the load balancers the client lists under the name,
`GetLoadBalancer` returns the load balancer when `rows` holds exactly one; when
it holds none, it returns a nil result with no error if `ignoreNotFound` is
true and a not-found error otherwise; when it holds more than one, it returns
an error whatever the flag. -/
theorem GetLoadBalancer_spec (client : NbClient) (db : List LoadBalancer) (lbName : String)
    (ignoreNotFound : Bool) (rows : List LoadBalancer)
    (h : client.list db (fun lb => lb.Name == lbName) = Except.ok rows) :
    (∀ lb, rows = [lb] →
      GetLoadBalancer client db lbName ignoreNotFound = Except.ok (some lb)) ∧
    (rows = [] →
      GetLoadBalancer client db lbName true = Except.ok none ∧
      GetLoadBalancer client db lbName false = Except.error (LbError.notFound lbName)) ∧
    (2 ≤ rows.length →
      GetLoadBalancer client db lbName ignoreNotFound =
        Except.error (LbError.moreThanOne lbName)) := by
  refine ⟨?_, ?_, ?_⟩
  · intro lb hr
    subst hr
    exact GetLoadBalancer_one client db lbName _ lb h
  · intro hr
    subst hr
    rw [GetLoadBalancer_none client db lbName _ h, GetLoadBalancer_none client db lbName _ h]
    exact ⟨rfl, rfl⟩
  · intro hr
    match rows, h, hr with
    | a :: b :: rest, h, _ => exact GetLoadBalancer_many client db lbName _ a b rest h

theorem GetLoadBalancer_spec_witness :
    (∀ lb, sampleLbRows = [lb] →
      GetLoadBalancer sampleNbClient sampleLbRows "lb" true = Except.ok (some lb)) ∧
    (sampleLbRows = [] →
      GetLoadBalancer sampleNbClient sampleLbRows "lb" true = Except.ok none ∧
      GetLoadBalancer sampleNbClient sampleLbRows "lb" false =
        Except.error (LbError.notFound "lb")) ∧
    (2 ≤ sampleLbRows.length →
      GetLoadBalancer sampleNbClient sampleLbRows "lb" true =
        Except.error (LbError.moreThanOne "lb")) :=
  GetLoadBalancer_spec sampleNbClient sampleLbRows "lb" true sampleLbRows rfl

/-- C25, the code at a failing input: whenever `DeleteLoadBalancerOp` fails,
`DeleteLoadBalancer` sends no transaction and returns nil; so on a table with
two load balancers named `lb`, where the lookup fails with the error of the
ambiguous name, `DeleteLoadBalancer` returns nil and both rows stay. -/
theorem DeleteLoadBalancer_swallows_error :
    (∀ (client : NbClient) (db : List LoadBalancer) (lbName : String) (e : LbError),
      DeleteLoadBalancerOp client db lbName = Except.error e →
        DeleteLoadBalancer client db lbName = ⟨db, [], none⟩) ∧
    DeleteLoadBalancerOp sampleNbClient sampleLbRows "lb" =
      Except.error (LbError.moreThanOne "lb") ∧
    DeleteLoadBalancer sampleNbClient sampleLbRows "lb" = ⟨sampleLbRows, [], none⟩ := by
  refine ⟨?_, rfl, by decide⟩
  intro client db lbName e h
  unfold DeleteLoadBalancer
  rw [h]

/-! ## The workers: the claims -/

/-- C26: each of the three worker steps, on a dequeued item of the expected type (a
key for the add/update and the status-update worker, a VPC object for the
delete worker), meets the contract of a worker: after an error of the handler
the item is added again with `AddRateLimited` exactly once and not forgotten;
after a success it is forgotten and not added again; `Done` is called exactly
once in both cases; and the step returns false if and only if the queue
reported shutdown, which also holds for an item of any type. -/
theorem processNextWorkItem_spec (key : String) (vpc : VpcObject)
    (handler : String → Outcome) (delHandler : VpcObject → Outcome) :
    WorkerContract (WorkItem.key key) (handler key)
      (fun shutdown => processNextAddVpcWorkItem (WorkItem.key key) shutdown handler) ∧
    WorkerContract (WorkItem.key key) (handler key)
      (fun shutdown => processNextUpdateStatusVpcWorkItem (WorkItem.key key) shutdown handler) ∧
    WorkerContract (WorkItem.vpc vpc) (delHandler vpc)
      (fun shutdown => processNextDeleteVpcWorkItem (WorkItem.vpc vpc) shutdown delHandler) ∧
    (∀ obj shutdown,
      ((processNextAddVpcWorkItem obj shutdown handler).1 = StepResult.returned false ↔
        shutdown = true) ∧
      ((processNextUpdateStatusVpcWorkItem obj shutdown handler).1 = StepResult.returned false ↔
        shutdown = true) ∧
      ((processNextDeleteVpcWorkItem obj shutdown delHandler).1 = StepResult.returned false ↔
        shutdown = true)) := by
  refine ⟨⟨?_, ?_, ?_⟩, ⟨?_, ?_, ?_⟩, ⟨?_, ?_, ?_⟩, ?_⟩
  · intro e h
    simp [processNextAddVpcWorkItem, h, QueueEvent.isAddRateLimited, QueueEvent.isForget,
      QueueEvent.isDone, List.countP_cons]
  · intro h
    simp [processNextAddVpcWorkItem, h, QueueEvent.isAddRateLimited, QueueEvent.isForget,
      QueueEvent.isDone, List.countP_cons]
  · intro shutdown
    cases shutdown <;> simp [processNextAddVpcWorkItem]
    cases handler key with
    | panicked p => simp
    | returned r => cases r <;> simp
  · intro e h
    simp [processNextUpdateStatusVpcWorkItem, h, QueueEvent.isAddRateLimited,
      QueueEvent.isForget, QueueEvent.isDone, List.countP_cons]
  · intro h
    simp [processNextUpdateStatusVpcWorkItem, h, QueueEvent.isAddRateLimited,
      QueueEvent.isForget, QueueEvent.isDone, List.countP_cons]
  · intro shutdown
    cases shutdown <;> simp [processNextUpdateStatusVpcWorkItem]
    cases handler key with
    | panicked p => simp
    | returned r => cases r <;> simp
  · intro e h
    simp [processNextDeleteVpcWorkItem, h, QueueEvent.isAddRateLimited, QueueEvent.isForget,
      QueueEvent.isDone, List.countP_cons]
  · intro h
    simp [processNextDeleteVpcWorkItem, h, QueueEvent.isAddRateLimited, QueueEvent.isForget,
      QueueEvent.isDone, List.countP_cons]
  · intro shutdown
    cases shutdown <;> simp [processNextDeleteVpcWorkItem]
    cases delHandler vpc with
    | panicked p => simp
    | returned r => cases r <;> simp
  · intro obj shutdown
    refine ⟨?_, ?_, ?_⟩
    · cases shutdown <;> simp [processNextAddVpcWorkItem]
      cases obj with
      | key k =>
        simp only
        cases handler k with
        | panicked p => simp
        | returned r => cases r <;> simp
      | vpc v => simp
      | other d => simp
    · cases shutdown <;> simp [processNextUpdateStatusVpcWorkItem]
      cases obj with
      | key k =>
        simp only
        cases handler k with
        | panicked p => simp
        | returned r => cases r <;> simp
      | vpc v => simp
      | other d => simp
    · cases shutdown <;> simp [processNextDeleteVpcWorkItem]
      cases obj with
      | vpc v =>
        simp only
        cases delHandler v with
        | panicked p => simp
        | returned r => cases r <;> simp
      | key k => simp
      | other d => simp

/-! ## Lemmas on the values and the operations of a pass -/

theorem Act.bind_inv {α β : Type} (m : Act α) (f : α → Act β) (tr tr2 : List Event) (b : β)
    (h : Act.bind m f tr = (Res.ok b, tr2)) :
    ∃ a tr1, m tr = (Res.ok a, tr1) ∧ f a tr1 = (Res.ok b, tr2) := by
  unfold Act.bind at h
  cases hm : m tr with
  | mk r tr1 =>
    rw [hm] at h
    cases r with
    | ok a => exact ⟨a, tr1, rfl, h⟩
    | fail e => simp at h
    | panic p => simp at h

theorem emits_trace {α : Type} (P : Event → Prop) (m : Act α) (hm : Act.Emits P m)
    (tr tr1 : List Event) (r : Res α) (h : m tr = (r, tr1)) :
    ∃ ext, tr1 = tr ++ ext ∧ ∀ e ∈ ext, P e := by
  obtain ⟨ext, h1, h2⟩ := hm tr
  rw [h] at h1
  exact ⟨ext, h1, h2⟩

theorem emits_mono {α : Type} (P Q : Event → Prop) (m : Act α) (hPQ : ∀ e, P e → Q e)
    (hm : Act.Emits P m) : Act.Emits Q m := by
  intro tr
  obtain ⟨ext, h1, h2⟩ := hm tr
  exact ⟨ext, h1, fun e he => hPQ e (h2 e he)⟩

theorem emits_emit (P : Event → Prop) (ev : Event) (h : P ev) : Act.Emits P (Act.emit ev) :=
  fun tr => ⟨[ev], rfl, by simpa using h⟩

/-- A bind whose continuation is only known to emit `P` on the values the first
part can return. -/
theorem emits_bind_of {α β : Type} (P : Event → Prop) (Q : α → Prop) (m : Act α)
    (f : α → Act β) (hm : Act.Emits P m)
    (hq : ∀ tr a tr1, m tr = (Res.ok a, tr1) → Q a)
    (hf : ∀ a, Q a → Act.Emits P (f a)) : Act.Emits P (Act.bind m f) := by
  intro tr
  obtain ⟨e1, h1, p1⟩ := hm tr
  unfold Act.bind
  cases hr : m tr with
  | mk r tr1 =>
    rw [hr] at h1
    simp only at h1
    cases r with
    | ok a =>
      obtain ⟨e2, h2, p2⟩ := hf a (hq tr a tr1 hr) tr1
      refine ⟨e1 ++ e2, ?_, ?_⟩
      · rw [h2, h1, List.append_assoc]
      · intro e he
        rcases List.mem_append.1 he with he | he
        · exact p1 e he
        · exact p2 e he
    | fail e => exact ⟨e1, h1, p1⟩
    | panic p => exact ⟨e1, h1, p1⟩

/-- What `formatVpc` leaves of the object: the name, the status and the peerings
are those of the cached object, and a nil list of policy routes stays nil. -/
theorem formatVpcObject_frame (env : Env) (cachedVpc vpc : VpcObject) (tr tr1 : List Event)
    (h : formatVpcObject env cachedVpc tr = (Res.ok vpc, tr1)) :
    vpc.Name = cachedVpc.Name ∧ vpc.Status = cachedVpc.Status ∧
      vpc.Spec.VpcPeerings = cachedVpc.Spec.VpcPeerings ∧
      (cachedVpc.Spec.PolicyRoutes = none → vpc.Spec.PolicyRoutes = none) := by
  unfold formatVpcObject at h
  simp only at h
  cases he : (formatVpc env.ParseIP env.ParseCIDR
      (fun v => (env.updateVpc tr v).map GoError.message) cachedVpc.routes).err with
  | some e => rw [he] at h; simp at h
  | none =>
    rw [he] at h
    simp only [Prod.mk.injEq, Res.ok.injEq] at h
    rw [← h.1]
    refine ⟨rfl, rfl, rfl, ?_⟩
    intro hn
    simp [VpcObject.withRoutes, hn]

/-- The peers a successful peering loop returns: the remote VPCs of the
peerings, in order, after the ones it started from. -/
theorem peeringLoop_ok (env : Env) (vpcName : String) (l : List VpcPeering) :
    ∀ (init : List String) (tr tr1 : List Event) (newPeers : List String),
      peeringLoop env vpcName l init tr = (Res.ok newPeers, tr1) →
      newPeers = init ++ l.map (fun p => p.RemoteVpc) := by
  induction l with
  | nil =>
    intro init tr tr1 newPeers h
    unfold peeringLoop at h
    rw [Act.pure_apply] at h
    simp only [Prod.mk.injEq, Res.ok.injEq] at h
    simp [h.1]
  | cons x xs ih =>
    intro init tr tr1 newPeers h
    unfold peeringLoop at h
    cases hc : env.CheckCidrs x.LocalConnectIP with
    | some e => rw [hc] at h; simp at h
    | none =>
      rw [hc] at h
      simp only at h
      obtain ⟨_, t1, -, h2⟩ := Act.bind_inv _ _ _ _ _ h
      rw [ih _ _ _ _ h2]
      simp

theorem buildStatus_ok (env : Env) (key : String) (vpc : VpcObject) (newPeers : List String)
    (tr tr1 : List Event) (status : VpcStatus)
    (h : buildStatus env key vpc newPeers tr = (Res.ok status, tr1)) :
    status.Router = key ∧ status.VpcPeerings = newPeers := by
  unfold buildStatus at h
  split at h
  · obtain ⟨lb, t1, -, h2⟩ := Act.bind_inv _ _ _ _ _ h
    rw [Act.pure_apply] at h2
    simp only [Prod.mk.injEq, Res.ok.injEq] at h2
    rw [← h2.1]
    exact ⟨rfl, rfl⟩
  · rw [Act.pure_apply] at h
    simp only [Prod.mk.injEq, Res.ok.injEq] at h
    rw [← h.1]
    exact ⟨rfl, rfl⟩

/-- The object a successful first part of a pass hands to the status patch, and
the router it has ensured by then. -/
theorem reconcileBackend_ok (env : Env) (key : String) (cachedVpc vpc : VpcObject)
    (tr tr1 : List Event) (h : reconcileBackend env key cachedVpc tr = (Res.ok vpc, tr1)) :
    vpc.Name = cachedVpc.Name ∧ vpc.Status.Router = key ∧
      vpc.Status.VpcPeerings = cachedVpc.Spec.VpcPeerings.map (fun p => p.RemoteVpc) ∧
      Event.createLogicalRouter key ∈ tr1 := by
  unfold reconcileBackend at h
  obtain ⟨v, t1, h1, h⟩ := Act.bind_inv _ _ _ _ _ h
  obtain ⟨hname, -, hpeer, -⟩ := formatVpcObject_frame env cachedVpc v tr t1 h1
  obtain ⟨_, t2, h2, h⟩ := Act.bind_inv _ _ _ _ _ h
  have ht2 : Event.createLogicalRouter key ∈ t2 := by
    cases hc : env.createLogicalRouter t1 key with
    | none =>
      rw [Act.call_ok _ _ t1 hc] at h2
      simp only [Prod.mk.injEq] at h2
      rw [← h2.2]; simp
    | some e =>
      rw [Act.call_fail _ _ t1 e hc] at h2
      simp at h2
  obtain ⟨newPeers, t3, h3, h⟩ := Act.bind_inv _ _ _ _ _ h
  have hp := peeringLoop_ok env _ _ _ _ _ _ h3
  obtain ⟨e3, he3, -⟩ := emits_trace _ _ (emits_peeringLoop env v.Name v.Spec.VpcPeerings [])
    _ _ _ h3
  have hrest : Act.Emits (fun e => e.isBackend = true)
      (Act.bind (stalePeerLoop env v.Name newPeers v.Status.VpcPeerings) (fun _ =>
        Act.bind (reconcileStaticRoutes env v) (fun _ =>
        Act.bind (reconcilePolicyRoutes env v) (fun _ =>
        Act.bind (buildStatus env key v newPeers) (fun status =>
        Act.pure { v with Status := status }))))) := by
    apply emits_bind
    · unfold stalePeerLoop
      apply emits_forEach
      intro oldPeer
      apply emits_ite
      · exact emits_pure _ ()
      · apply emits_call; rfl
    intro _
    apply emits_bind
    · exact emits_reconcileStaticRoutes env v
    intro _
    apply emits_bind
    · exact emits_reconcilePolicyRoutes env v
    intro _
    apply emits_bind
    · exact emits_buildStatus env key v newPeers
    intro _
    exact emits_pure _ _
  obtain ⟨e4, he4, -⟩ := emits_trace _ _ hrest _ _ _ h
  obtain ⟨_, t4, -, h⟩ := Act.bind_inv _ _ _ _ _ h
  obtain ⟨_, t5, -, h⟩ := Act.bind_inv _ _ _ _ _ h
  obtain ⟨_, t6, -, h⟩ := Act.bind_inv _ _ _ _ _ h
  obtain ⟨status, t7, h7, h⟩ := Act.bind_inv _ _ _ _ _ h
  obtain ⟨hr, hv⟩ := buildStatus_ok env key v newPeers _ _ _ h7
  rw [Act.pure_apply] at h
  simp only [Prod.mk.injEq, Res.ok.injEq] at h
  rw [← h.1]
  refine ⟨hname, hr, ?_, ?_⟩
  · show status.VpcPeerings = _
    rw [hv, hp, hpeer]; simp
  · rw [he4, he3]
    simp [ht2]

/-- The operations of the part of a pass that starts at the status patch satisfy
`P` as soon as the patch of the status of the object does and the operations
on load balancers, the subnet keys and the external calls do. -/
theorem emits_publishVpc (P : Event → Prop) (env : Env) (key : String)
    (cachedVpc vpc : VpcObject) (hpatch : P (Event.patchVpcStatus vpc.Name vpc.Status))
    (hcreate : ∀ v, P (Event.createVpcLb v)) (hdelete : ∀ v, P (Event.deleteVpcLb v))
    (hqueue : ∀ k, P (Event.addSubnetQueue k)) (hadd : P (Event.handleAddVpcExternal key))
    (hdel : P (Event.handleDelVpcExternal key)) :
    Act.Emits P (publishVpc env key cachedVpc vpc) := by
  unfold publishVpc
  apply emits_bind
  · intro tr
    unfold patchStatus
    cases env.statusBytes vpc.Status with
    | some e => exact ⟨[], by simp, by simp⟩
    | none =>
      simp only
      cases env.patchVpcStatus tr vpc.Name vpc.Status with
      | ok v => exact ⟨[Event.patchVpcStatus vpc.Name vpc.Status], rfl, by simpa using hpatch⟩
      | error e => exact ⟨[Event.patchVpcStatus vpc.Name vpc.Status], rfl, by simpa using hpatch⟩
  intro patched
  apply emits_bind
  · unfold ensureVpcLb
    apply emits_ite
    · apply emits_call; exact hcreate _
    · apply emits_call; exact hdelete _
  intro _
  apply emits_bind
  · exact emits_read _ _
  intro subnets
  apply emits_bind
  · unfold notifySubnets
    apply emits_forEach
    intro subnet
    apply emits_ite
    · apply emits_emit; exact hqueue _
    · exact emits_pure _ ()
  intro _
  unfold reconcileExternal
  apply emits_bind
  · apply emits_ite
    · apply emits_call; exact hadd
    · exact emits_pure _ ()
  intro _
  apply emits_ite
  · apply emits_call; exact hdel
  · exact emits_pure _ ()

theorem finish_trace (r : Res Unit × List Event) : (finish r).2 = r.2 := by
  unfold finish
  rcases r with ⟨r, tr⟩
  cases r <;> rfl

/-- The operations of a pass on an existing VPC: those of the first part, which
are backend operations, then, when the first part returned the object `vpc`,
operations that satisfy `P` as soon as the operations of the second part on
`vpc` do. -/
theorem handleAddOrUpdateVpc_trace (P : Event → Prop) (env : Env) (key : String)
    (cachedVpc : VpcObject) (h : env.getVpc [] key = Except.ok cachedVpc)
    (hback : ∀ e, e ∈ (reconcileBackend env key cachedVpc []).2 → P e)
    (hpub : ∀ vpc tr1, reconcileBackend env key cachedVpc [] = (Res.ok vpc, tr1) →
      Act.Emits P (publishVpc env key cachedVpc vpc)) :
    ∀ e ∈ (handleAddOrUpdateVpc env key).2, P e := by
  unfold handleAddOrUpdateVpc
  rw [h]
  simp only [finish_trace]
  unfold Act.bind
  cases hr : reconcileBackend env key cachedVpc [] with
  | mk r t1 =>
    rw [hr] at hback
    cases r with
    | ok vpc =>
      simp only
      obtain ⟨ext, h1, h2⟩ := hpub vpc t1 hr t1
      rw [h1]
      intro e he
      rcases List.mem_append.1 he with he | he
      · exact hback e he
      · exact h2 e he
    | fail e => exact hback
    | panic p => exact hback

theorem emits_formatVpcObject_of (P : Event → Prop) (env : Env) (vpc : VpcObject)
    (h : ∀ v, P (Event.updateVpc v)) : Act.Emits P (formatVpcObject env vpc) := by
  intro tr
  refine ⟨(formatVpc env.ParseIP env.ParseCIDR
    (fun v => (env.updateVpc tr v).map GoError.message) vpc.routes).updates.map
      Event.updateVpc, ?_, ?_⟩
  · unfold formatVpcObject
    simp only
    split <;> rfl
  · intro e he
    obtain ⟨v, -, rfl⟩ := List.mem_map.1 he
    exact h v

theorem emits_peeringLoop_of (P : Event → Prop) (env : Env) (vpcName : String)
    (h : ∀ a b c, P (Event.createPeerRouterPort a b c)) (l : List VpcPeering) :
    ∀ newPeers, Act.Emits P (peeringLoop env vpcName l newPeers) := by
  induction l with
  | nil => intro newPeers; exact emits_pure _ newPeers
  | cons x xs ih =>
    intro newPeers tr
    unfold peeringLoop
    cases env.CheckCidrs x.LocalConnectIP with
    | some e => exact ⟨[], by simp, by simp⟩
    | none =>
      simp only
      revert tr
      apply emits_bind
      · apply emits_call; exact h _ _ _
      · intro _; exact ih _

theorem emits_reconcileStaticRoutes_of (P : Event → Prop) (env : Env) (vpc : VpcObject)
    (hdel : ∀ a b c d e, P (Event.deleteLogicalRouterStaticRoute a b c d e))
    (hadd : ∀ a b c d e, P (Event.addLogicalRouterStaticRoute a b c d e)) :
    Act.Emits P (reconcileStaticRoutes env vpc) := by
  unfold reconcileStaticRoutes
  apply emits_bind
  · exact emits_GetStaticRoutes _ env _
  intro existRoute
  apply emits_bind
  · exact emits_targetStaticRoutes _ env vpc
  intro targetRoutes
  apply emits_bind
  · apply emits_forEach; intro item; apply emits_call; exact hdel _ _ _ _ _
  intro _
  apply emits_forEach; intro item; apply emits_call; exact hadd _ _ _ _ _

theorem emits_buildStatus_of (P : Event → Prop) (env : Env) (key : String) (vpc : VpcObject)
    (newPeers : List String) (hcreate : ∀ a b c, P (Event.createLoadBalancer a b c))
    (htimeout : ∀ a b, P (Event.setLoadBalancerAffinityTimeout a b)) :
    Act.Emits P (buildStatus env key vpc newPeers) := by
  unfold buildStatus
  split
  · apply emits_bind
    · unfold addLoadBalancer
      simp only
      apply emits_bind
      · apply emits_call; exact hcreate _ _ _
      intro _
      apply emits_bind
      · apply emits_call; exact hcreate _ _ _
      intro _
      apply emits_bind
      · apply emits_call; exact hcreate _ _ _
      intro _
      apply emits_bind
      · apply emits_call; exact hcreate _ _ _
      intro _
      apply emits_bind
      · apply emits_call; exact htimeout _ _
      intro _
      apply emits_bind
      · apply emits_call; exact htimeout _ _
      intro _
      exact emits_pure _ _
    · intro _; exact emits_pure _ _
  · exact emits_pure _ _

/-- For the default VPC with a nil list of policy routes the first part of a pass
cleans no policy. -/
theorem emits_reconcileBackend_default (env : Env) (key : String) (cachedVpc : VpcObject)
    (hname : cachedVpc.Name = env.util.DefaultVpc)
    (hnil : cachedVpc.Spec.PolicyRoutes = none) :
    Act.Emits (fun e => e.isPolicyCleanup = false) (reconcileBackend env key cachedVpc) := by
  unfold reconcileBackend
  apply emits_bind_of _ (fun v => v.Name = env.util.DefaultVpc ∧ v.Spec.PolicyRoutes = none)
  · apply emits_formatVpcObject_of; intro v; rfl
  · intro tr v tr1 h
    obtain ⟨h1, -, -, h2⟩ := formatVpcObject_frame env cachedVpc v tr tr1 h
    exact ⟨h1.trans hname, h2 hnil⟩
  intro vpc hv
  apply emits_bind
  · apply emits_call; rfl
  intro _
  apply emits_bind
  · apply emits_peeringLoop_of; intro a b c; rfl
  intro newPeers
  apply emits_bind
  · unfold stalePeerLoop
    apply emits_forEach
    intro oldPeer
    apply emits_ite
    · exact emits_pure _ ()
    · apply emits_call; rfl
  intro _
  apply emits_bind
  · apply emits_reconcileStaticRoutes_of
    · intro a b c d e; rfl
    · intro a b c d e; rfl
  intro _
  apply emits_bind
  · unfold reconcilePolicyRoutes
    rw [if_neg (by simp [hv.1]), hv.2]
    apply emits_bind
    · exact emits_pure _ ()
    · intro _; exact emits_pure _ ()
  intro _
  apply emits_bind
  · apply emits_buildStatus_of
    · intro a b c; rfl
    · intro a b; rfl
  intro _
  exact emits_pure _ _

/-! ## The VPC controller: policy routes and the round trip of routes -/

/-- C27, the code at a failing input: a pass on the default VPC whose list of policy
routes is nil cleans no policy, whatever the router holds; but with a declared
list that is empty the pass diffs it against the installed policies and
deletes them: for the default VPC `ovn-cluster` with an empty list and a
router that holds one reroute policy, the pass returns nil and issues
`DeleteLogicalRouterPolicy` for that policy. -/
theorem handleAddOrUpdateVpc_default_empty_policies :
    (∀ (env : Env) (key : String) (cachedVpc : VpcObject),
      env.getVpc [] key = Except.ok cachedVpc →
      cachedVpc.Name = env.util.DefaultVpc → cachedVpc.Spec.PolicyRoutes = none →
      ∀ e ∈ (handleAddOrUpdateVpc env key).2, e.isPolicyCleanup = false) ∧
    sampleDefaultVpcEmptyPolicies.Name = sampleEnvDefaultVpc.util.DefaultVpc ∧
    sampleDefaultVpcEmptyPolicies.Spec.PolicyRoutes = some [] ∧
    (handleAddOrUpdateVpc sampleEnvDefaultVpc "ovn-cluster").1 = Outcome.returned none ∧
    Event.deleteLogicalRouterPolicy "ovn-cluster" 29000 "ip4.src == 10.16.0.0/16" ∈
      (handleAddOrUpdateVpc sampleEnvDefaultVpc "ovn-cluster").2 := by
  refine ⟨?_, by decide, by decide, by decide, by decide⟩
  intro env key cachedVpc h hname hnil
  refine handleAddOrUpdateVpc_trace (fun e => e.isPolicyCleanup = false) env key cachedVpc h
    ?_ ?_
  · intro e he
    obtain ⟨ext, h1, h2⟩ := emits_reconcileBackend_default env key cachedVpc hname hnil []
    rw [h1] at he
    exact h2 e (by simpa using he)
  · intro vpc tr1 _
    apply emits_publishVpc
    · rfl
    · intro v; rfl
    · intro v; rfl
    · intro k; rfl
    · rfl
    · rfl

/-- C28, the code at a failing input: a destination route read back from the backend
carries the backend policy `dst-ip`, which is not the destination policy of
the API, so its identity key is the source key of its CIDR and next hop and
differs from the key of the declared route; a second pass over the unchanged
VPC `vpc1`, whose router lists the installed route, returns nil and issues the
deletion of that route and the addition of the declared one. -/
theorem GetStaticRoutes_round_trip_key :
    (∀ cidr nextHop : String,
      convertStaticRoutes [⟨some (convertPolicy PolicyDst), cidr, nextHop⟩] =
        Res.ok [⟨LogicalRouterStaticRoutePolicyDstIP, cidr, nextHop⟩] ∧
      getStaticRouteItemKey ⟨LogicalRouterStaticRoutePolicyDstIP, cidr, nextHop⟩ =
        "src:" ++ cidr ++ "=>" ++ nextHop ∧
      getStaticRouteItemKey ⟨PolicyDst, cidr, nextHop⟩ = "dst:" ++ cidr ++ "=>" ++ nextHop ∧
      getStaticRouteItemKey ⟨LogicalRouterStaticRoutePolicyDstIP, cidr, nextHop⟩ ≠
        getStaticRouteItemKey ⟨PolicyDst, cidr, nextHop⟩) ∧
    diffStaticRoute [⟨LogicalRouterStaticRoutePolicyDstIP, "10.0.0.0/24", "10.0.0.1"⟩]
        [⟨PolicyDst, "10.0.0.0/24", "10.0.0.1"⟩] =
      ([⟨LogicalRouterStaticRoutePolicyDstIP, "10.0.0.0/24", "10.0.0.1"⟩],
        [⟨PolicyDst, "10.0.0.0/24", "10.0.0.1"⟩], none) ∧
    (handleAddOrUpdateVpc sampleEnvSecondPass "vpc1").1 = Outcome.returned none ∧
    (handleAddOrUpdateVpc sampleEnvSecondPass "vpc1").2.take 3 =
      [Event.createLogicalRouter "vpc1",
        Event.deleteLogicalRouterStaticRoute "vpc1" "dst-ip" "10.0.0.0/24" "10.0.0.1" "",
        Event.addLogicalRouterStaticRoute "vpc1" "dst-ip" "10.0.0.0/24" "10.0.0.1" "normal"] := by
  refine ⟨?_, by decide, by decide, by decide⟩
  intro cidr nextHop
  have hne : ¬ LogicalRouterStaticRoutePolicyDstIP = PolicyDst := by decide
  have h1 : getStaticRouteItemKey ⟨LogicalRouterStaticRoutePolicyDstIP, cidr, nextHop⟩ =
      "src:" ++ cidr ++ "=>" ++ nextHop := by
    unfold getStaticRouteItemKey
    simp only [hne, if_false]
  have h2 : getStaticRouteItemKey ⟨PolicyDst, cidr, nextHop⟩ =
      "dst:" ++ cidr ++ "=>" ++ nextHop := by
    unfold getStaticRouteItemKey
    simp only [if_true]
  refine ⟨rfl, h1, h2, ?_⟩
  rw [h1, h2]
  intro hk
  have hd := congrArg String.data hk
  simp [String.data_append] at hd

theorem convertPolicyRoutes_no_next_hop (after : List LogicalRouterPolicy)
    (r : LogicalRouterPolicy) (hr : r.Nexthops = []) :
    ∀ before : List LogicalRouterPolicy, (∀ p ∈ before, p.Nexthops ≠ []) →
      convertPolicyRoutes (before ++ r :: after) =
        Res.panic (Panic.indexOutOfRange "r.Nexthops[0]") := by
  intro before
  induction before with
  | nil =>
    intro _
    simp only [List.nil_append]
    unfold convertPolicyRoutes
    rw [hr]
  | cons p ps ih =>
    intro hb
    simp only [List.cons_append]
    unfold convertPolicyRoutes
    cases hp : p.Nexthops with
    | nil => exact absurd hp (hb p (by simp))
    | cons n ns =>
      simp only
      rw [ih (fun q hq => hb q (by simp [hq]))]

/-- C29, the code at a failing input: on a backend list that holds a policy with no
next hop, here one allow policy, `GetPolicyRoutes` returns no list: it panics
on the index `r.Nexthops[0]`; so it does on every list with such a policy. -/
theorem GetPolicyRoutes_no_next_hop :
    sampleAllowPolicy.Nexthops = [] ∧
    GetPolicyRoutes sampleEnvAllowPolicy "vpc1" [] =
      (Res.panic (Panic.indexOutOfRange "r.Nexthops[0]"), []) ∧
    (∀ (env : Env) (lrName : String) (tr : List Event) (before after : List LogicalRouterPolicy)
        (r : LogicalRouterPolicy),
      env.listLogicalRouterPolicies tr lrName = Except.ok (before ++ r :: after) →
      r.Nexthops = [] → (∀ p ∈ before, p.Nexthops ≠ []) →
      GetPolicyRoutes env lrName tr = (Res.panic (Panic.indexOutOfRange "r.Nexthops[0]"), tr)) := by
  refine ⟨rfl, rfl, ?_⟩
  intro env lrName tr before after r h hr hb
  unfold GetPolicyRoutes
  rw [h]
  simp only
  rw [convertPolicyRoutes_no_next_hop after r hr before hb]

/-! ## Lemmas on the external handlers -/

theorem xemits_pure {α : Type} (P : ExternalEvent → Prop) (a : α) :
    XAct.Emits P (XAct.pure a) :=
  fun tr => ⟨[], by simp [XAct.pure], by simp⟩

theorem xemits_fail {α : Type} (P : ExternalEvent → Prop) (e : HandlerError) :
    XAct.Emits P (XAct.fail e : XAct α) :=
  fun tr => ⟨[], by simp [XAct.fail], by simp⟩

theorem xemits_call (P : ExternalEvent → Prop) (ev : ExternalEvent)
    (answer : List ExternalEvent → Option GoError) (h : P ev) :
    XAct.Emits P (XAct.call ev answer) := by
  intro tr
  refine ⟨[ev], ?_, by simpa using h⟩
  unfold XAct.call
  cases answer tr <;> rfl

theorem xemits_request {α : Type} (P : ExternalEvent → Prop) (ev : ExternalEvent)
    (answer : List ExternalEvent → Except GoError α) (h : P ev) :
    XAct.Emits P (XAct.request ev answer) := by
  intro tr
  refine ⟨[ev], ?_, by simpa using h⟩
  unfold XAct.request
  cases answer tr <;> rfl

theorem xemits_read {α : Type} (P : ExternalEvent → Prop)
    (answer : List ExternalEvent → Except GoError α) : XAct.Emits P (XAct.read answer) := by
  intro tr
  refine ⟨[], ?_, by simp⟩
  unfold XAct.read
  cases answer tr <;> simp

theorem xemits_bind {α β : Type} (P : ExternalEvent → Prop) (m : XAct α) (f : α → XAct β)
    (hm : XAct.Emits P m) (hf : ∀ a, XAct.Emits P (f a)) : XAct.Emits P (XAct.bind m f) := by
  intro tr
  obtain ⟨e1, h1, p1⟩ := hm tr
  unfold XAct.bind
  cases hr : m tr with
  | mk r tr1 =>
    rw [hr] at h1
    simp only at h1
    cases r with
    | ok a =>
      obtain ⟨e2, h2, p2⟩ := hf a tr1
      refine ⟨e1 ++ e2, ?_, ?_⟩
      · rw [h2, h1, List.append_assoc]
      · intro e he
        rcases List.mem_append.1 he with he | he
        · exact p1 e he
        · exact p2 e he
    | fail e => exact ⟨e1, h1, p1⟩
    | panic p => exact ⟨e1, h1, p1⟩

theorem xemits_ite {α : Type} (P : ExternalEvent → Prop) (c : Prop) [Decidable c]
    (m1 m2 : XAct α) (h1 : XAct.Emits P m1) (h2 : XAct.Emits P m2) :
    XAct.Emits P (if c then m1 else m2) := by
  split
  · exact h1
  · exact h2

theorem xemits_lrpEipAddress (P : ExternalEvent → Prop) (env : Env) (x : ExternalEnv)
    (lrpEipName : String) (h1 : ∀ a b c, P (ExternalEvent.acquireIpAddress a b c))
    (h2 : ∀ a b c d e f, P (ExternalEvent.createOrUpdateCrdOvnEip a b c d e f)) :
    XAct.Emits P (lrpEipAddress env x lrpEipName) := by
  intro tr
  unfold lrpEipAddress
  cases x.getOvnEip tr lrpEipName with
  | ok eip => exact ⟨[], by simp, by simp⟩
  | error e =>
    simp only
    split
    · exact ⟨[], by simp, by simp⟩
    · revert tr
      apply xemits_bind
      · apply xemits_request; exact h1 _ _ _
      intro acquired
      apply xemits_bind
      · apply xemits_call; exact h2 _ _ _ _ _ _
      intro _
      exact xemits_pure _ _

theorem xemits_gatewayChassis (P : ExternalEvent → Prop) (env : Env) (x : ExternalEnv) :
    XAct.Emits P (gatewayChassis env x) := by
  intro tr
  refine ⟨[], ?_, by simp⟩
  unfold gatewayChassis
  cases x.getConfigMap tr env.config.ExternalGatewayConfigNS env.util.ExternalGatewayConfig with
  | error e => simp only; split <;> simp
  | ok data =>
    simp only
    cases x.getGatewayChassis data <;> simp

theorem xemits_patchEnableExternal (P : ExternalEvent → Prop) (env : Env) (x : ExternalEnv)
    (cachedVpc : VpcObject)
    (h : P (ExternalEvent.patchVpcStatus cachedVpc.Name
      { cachedVpc.Status with EnableExternal := cachedVpc.Spec.EnableExternal })) :
    XAct.Emits P (patchEnableExternal env x cachedVpc) := by
  intro tr
  unfold patchEnableExternal
  cases env.statusBytes
      { cachedVpc.Status with EnableExternal := cachedVpc.Spec.EnableExternal } with
  | some e => exact ⟨[], by simp, by simp⟩
  | none =>
    simp only
    revert tr
    apply xemits_call
    exact h

theorem xemits_deleteLrpEip (P : ExternalEvent → Prop) (x : ExternalEnv) (lrpName : String)
    (h1 : ∀ eip, P (ExternalEvent.handleDelOvnEipFinalizer eip))
    (h2 : ∀ n, P (ExternalEvent.deleteOvnEip n)) :
    XAct.Emits P (deleteLrpEip x lrpName) := by
  intro tr
  unfold deleteLrpEip
  cases x.getOvnEip tr lrpName with
  | error e => simp only; split <;> exact ⟨[], by simp, by simp⟩
  | ok eip =>
    simp only
    revert tr
    apply xemits_bind
    · apply xemits_call; exact h1 _
    intro _ t
    refine ⟨[ExternalEvent.deleteOvnEip lrpName], ?_, by simpa using h2 lrpName⟩
    simp only
    cases hd : x.deleteOvnEip t lrpName with
    | none => rfl
    | some e => by_cases hn : e.notFound = true <;> simp [hn]

/-- The operations of `handleAddVpcExternal` satisfy `P` as soon as the status
patch built from a copy the lister gives for the key does and the other
operations do. -/
theorem xemits_handleAddVpcExternal (P : ExternalEvent → Prop) (env : Env) (x : ExternalEnv)
    (key : String)
    (hpatch : ∀ tr v, x.listerGetVpc tr key = Except.ok v →
      P (ExternalEvent.patchVpcStatus v.Name
        { v.Status with EnableExternal := v.Spec.EnableExternal }))
    (hother : ∀ e, (∀ n st, e ≠ ExternalEvent.patchVpcStatus n st) → P e) :
    XAct.Emits P (handleAddVpcExternal env x key) := by
  unfold handleAddVpcExternal
  apply xemits_bind
  · exact xemits_read _ _
  intro cachedSubnet
  apply xemits_bind
  · apply xemits_lrpEipAddress
    · intro a b c; apply hother; intro n st h; cases h
    · intro a b c d e f; apply hother; intro n st h; cases h
  intro address
  apply xemits_ite
  · exact xemits_fail _ _
  apply xemits_bind
  · apply xemits_call; apply hother; intro n st h; cases h
  intro _
  apply xemits_bind
  · exact xemits_gatewayChassis _ env x
  intro chassises
  apply xemits_bind
  · apply xemits_call; apply hother; intro n st h; cases h
  intro _ tr
  beta_reduce
  cases hv : x.listerGetVpc tr key with
  | error e => simp only; split <;> exact ⟨[], by simp, by simp⟩
  | ok v =>
    simp only
    have : XAct.Emits P
        (XAct.bind (patchEnableExternal env x v) (fun _ =>
          XAct.bind
            (XAct.read (fun t => x.getOvnEip t (key ++ "-" ++ env.config.ExternalGatewaySwitch)))
            (fun cachedEip =>
              XAct.call (ExternalEvent.handleAddOvnEipFinalizer cachedEip)
                (fun t => x.handleAddOvnEipFinalizer t cachedEip)))) := by
      apply xemits_bind
      · apply xemits_patchEnableExternal
        exact hpatch tr v hv
      intro _
      apply xemits_bind
      · exact xemits_read _ _
      intro eip
      apply xemits_call; apply hother; intro n st h; cases h
    exact this tr

/-- The operations of `handleDelVpcExternal`, likewise. -/
theorem xemits_handleDelVpcExternal (P : ExternalEvent → Prop) (env : Env) (x : ExternalEnv)
    (key : String)
    (hpatch : ∀ tr v, x.listerGetVpc tr key = Except.ok v →
      P (ExternalEvent.patchVpcStatus v.Name
        { v.Status with EnableExternal := v.Spec.EnableExternal }))
    (hother : ∀ e, (∀ n st, e ≠ ExternalEvent.patchVpcStatus n st) → P e) :
    XAct.Emits P (handleDelVpcExternal env x key) := by
  intro tr
  unfold handleDelVpcExternal
  cases hv : x.listerGetVpc tr key with
  | error e => simp only; split <;> exact ⟨[], by simp, by simp⟩
  | ok v =>
    simp only
    have : XAct.Emits P
        (XAct.bind
          (XAct.call
            (ExternalEvent.removeLogicalPatchPort
              (env.config.ExternalGatewaySwitch ++ "-" ++ key)
              (key ++ "-" ++ env.config.ExternalGatewaySwitch))
            (fun t => x.removeLogicalPatchPort t
              (env.config.ExternalGatewaySwitch ++ "-" ++ key)
              (key ++ "-" ++ env.config.ExternalGatewaySwitch)))
          (fun _ =>
            XAct.bind (patchEnableExternal env x v) (fun _ =>
              deleteLrpEip x (key ++ "-" ++ env.config.ExternalGatewaySwitch)))) := by
      apply xemits_bind
      · apply xemits_call; apply hother; intro n st h; cases h
      intro _
      apply xemits_bind
      · apply xemits_patchEnableExternal
        exact hpatch tr v hv
      intro _
      apply xemits_deleteLrpEip
      · intro eip; apply hother; intro n st h; cases h
      · intro n; apply hother; intro n st h; cases h
    exact this tr

theorem xemits_reconcileExternalExpanded (P : ExternalEvent → Prop) (env : Env)
    (x : ExternalEnv) (key : String) (cachedVpc : VpcObject)
    (hpatch : ∀ tr v, x.listerGetVpc tr key = Except.ok v →
      P (ExternalEvent.patchVpcStatus v.Name
        { v.Status with EnableExternal := v.Spec.EnableExternal }))
    (hother : ∀ e, (∀ n st, e ≠ ExternalEvent.patchVpcStatus n st) → P e) :
    XAct.Emits P (reconcileExternalExpanded env x key cachedVpc) := by
  unfold reconcileExternalExpanded
  apply xemits_bind
  · apply xemits_ite
    · exact xemits_handleAddVpcExternal P env x key hpatch hother
    · exact xemits_pure _ ()
  intro _
  apply xemits_ite
  · exact xemits_handleDelVpcExternal P env x key hpatch hother
  · exact xemits_pure _ ()

/-- The operations of the part of a pass from the status patch to the subnet keys
satisfy `P` as soon as the patch of the status of the object does and the
operations on load balancers and the subnet keys do. -/
theorem emits_publishVpcHead (P : Event → Prop) (env : Env) (key : String) (vpc : VpcObject)
    (hpatch : P (Event.patchVpcStatus vpc.Name vpc.Status))
    (hcreate : ∀ v, P (Event.createVpcLb v)) (hdelete : ∀ v, P (Event.deleteVpcLb v))
    (hqueue : ∀ k, P (Event.addSubnetQueue k)) :
    Act.Emits P (publishVpcHead env key vpc) := by
  unfold publishVpcHead
  apply emits_bind
  · intro tr
    unfold patchStatus
    cases env.statusBytes vpc.Status with
    | some e => exact ⟨[], by simp, by simp⟩
    | none =>
      simp only
      cases env.patchVpcStatus tr vpc.Name vpc.Status with
      | ok v => exact ⟨[Event.patchVpcStatus vpc.Name vpc.Status], rfl, by simpa using hpatch⟩
      | error e => exact ⟨[Event.patchVpcStatus vpc.Name vpc.Status], rfl, by simpa using hpatch⟩
  intro patched
  apply emits_bind
  · unfold ensureVpcLb
    apply emits_ite
    · apply emits_call; exact hcreate _
    · apply emits_call; exact hdelete _
  intro _
  apply emits_bind
  · exact emits_read _ _
  intro subnets
  unfold notifySubnets
  apply emits_forEach
  intro subnet
  apply emits_ite
  · apply emits_emit; exact hqueue _
  · exact emits_pure _ ()

theorem Act.bind_assoc {α β γ : Type} (m : Act α) (f : α → Act β) (g : β → Act γ) :
    Act.bind (Act.bind m f) g = Act.bind m (fun a => Act.bind (f a) g) := by
  funext tr
  unfold Act.bind
  cases m tr with
  | mk r tr1 => cases r <;> rfl

/-- The second part of a pass is its part up to the subnet keys followed by the
calls of the external handlers. -/
theorem publishVpc_eq (env : Env) (key : String) (cachedVpc vpc : VpcObject) :
    publishVpc env key cachedVpc vpc =
      Act.bind (publishVpcHead env key vpc) (fun _ => reconcileExternal env key cachedVpc) := by
  unfold publishVpc publishVpcHead
  simp only [Act.bind_assoc]

/-- The two models of a pass agree up to the external handlers: the operations of
the pass with the bodies of the external handlers in place, up to the subnet
keys, are the operations of the pass with the handlers as single calls, these
calls left out. -/
theorem handleAddOrUpdateVpcExpanded_head (env : Env) (x : ExternalEnv) (key : String) :
    (handleAddOrUpdateVpcExpanded env x key).2.1 =
      (handleAddOrUpdateVpc env key).2.filter
        (fun e => decide (e ≠ Event.handleAddVpcExternal key ∧
          e ≠ Event.handleDelVpcExternal key)) := by
  unfold handleAddOrUpdateVpcExpanded handleAddOrUpdateVpc
  cases hg : env.getVpc [] key with
  | error e => simp only; split <;> rfl
  | ok cachedVpc =>
    simp only [finish_trace]
    have hassoc : Act.bind (reconcileBackend env key cachedVpc)
          (fun vpc => publishVpc env key cachedVpc vpc) =
        Act.bind (Act.bind (reconcileBackend env key cachedVpc)
          (fun vpc => publishVpcHead env key vpc))
          (fun _ => reconcileExternal env key cachedVpc) := by
      simp only [publishVpc_eq, Act.bind_assoc]
    rw [hassoc]
    have hhead : Act.Emits
        (fun e => e ≠ Event.handleAddVpcExternal key ∧ e ≠ Event.handleDelVpcExternal key)
        (Act.bind (reconcileBackend env key cachedVpc)
          (fun vpc => publishVpcHead env key vpc)) := by
      apply emits_bind
      · refine emits_mono _ _ _ ?_ (emits_reconcileBackend env key cachedVpc)
        intro e he
        constructor <;> (intro h; rw [h] at he; simp [Event.isBackend] at he)
      intro vpc
      apply emits_publishVpcHead
      · constructor <;> (intro h; cases h)
      · intro v; constructor <;> (intro h; cases h)
      · intro v; constructor <;> (intro h; cases h)
      · intro k; constructor <;> (intro h; cases h)
    obtain ⟨ext, h1, h2⟩ := hhead []
    have hfilter : ext.filter (fun e => decide (e ≠ Event.handleAddVpcExternal key ∧
        e ≠ Event.handleDelVpcExternal key)) = ext := by
      rw [List.filter_eq_self]
      intro e he
      simpa using h2 e he
    have hext : Act.Emits
        (fun e => e = Event.handleAddVpcExternal key ∨ e = Event.handleDelVpcExternal key)
        (reconcileExternal env key cachedVpc) := by
      unfold reconcileExternal
      apply emits_bind
      · apply emits_ite
        · apply emits_call; exact Or.inl rfl
        · exact emits_pure _ ()
      intro _
      apply emits_ite
      · apply emits_call; exact Or.inr rfl
      · exact emits_pure _ ()
    nth_rewrite 2 [Act.bind]
    cases hr : Act.bind (reconcileBackend env key cachedVpc)
        (fun vpc => publishVpcHead env key vpc) [] with
    | mk r tr =>
      rw [hr] at h1
      simp only [List.nil_append] at h1
      cases r with
      | ok u =>
        simp only
        obtain ⟨ext2, h3, h4⟩ := hext tr
        have hnone : ext2.filter (fun e => decide (e ≠ Event.handleAddVpcExternal key ∧
            e ≠ Event.handleDelVpcExternal key)) = [] := by
          rw [List.filter_eq_nil_iff]
          intro e he
          rcases h4 e he with h | h <;> simp [h]
        have htr : (match reconcileExternalExpanded env x key cachedVpc [] with
            | (Res.ok _, xtr) => (Outcome.returned none, tr, xtr)
            | (Res.fail e, xtr) => (Outcome.returned (some e), tr, xtr)
            | (Res.panic p, xtr) => (Outcome.panicked p, tr, xtr)).2.1 = tr := by
          rcases reconcileExternalExpanded env x key cachedVpc [] with ⟨r2, xtr⟩
          cases r2 <;> rfl
        refine htr.trans ?_
        rw [h3, List.filter_append, hnone, h1, hfilter]
        simp
      | fail e => simp only; rw [h1, hfilter]
      | panic p => simp only; rw [h1, hfilter]

/-! ## The VPC controller: the status patches of a pass -/

/-- C21, as amended: in a pass of `handleAddOrUpdateVpc` on an existing VPC, every
status patch the function sends itself is addressed to that VPC and carries the
router name `key`, the name under which the VPC was looked up (so the name of
the VPC, when the object found carries the name asked for), the pass has
ensured the logical router of that name before the patch, and the patch carries
as peering list the remote VPC names of the declared peerings, in declaration
order; a status patch sent by `handleAddVpcExternal` or `handleDelVpcExternal`,
which the pass runs afterwards, is addressed to the copy of the VPC the lister
gives and carries the status of that copy with only `EnableExternal` set to the
declared flag, so its router name and its peering list are those the lister's
copy records. -/
theorem handleAddOrUpdateVpcExpanded_status_patch (env : Env) (x : ExternalEnv) (key : String)
    (cachedVpc : VpcObject) (h : env.getVpc [] key = Except.ok cachedVpc) :
    (∀ name status,
      Event.patchVpcStatus name status ∈ (handleAddOrUpdateVpcExpanded env x key).2.1 →
        name = cachedVpc.Name ∧ status.Router = key ∧
        (cachedVpc.Name = key → status.Router = name) ∧
        (∃ pre post, (handleAddOrUpdateVpcExpanded env x key).2.1 =
            pre ++ Event.patchVpcStatus name status :: post ∧
          Event.createLogicalRouter status.Router ∈ pre) ∧
        status.VpcPeerings = cachedVpc.Spec.VpcPeerings.map (fun p => p.RemoteVpc)) ∧
    (∀ name status,
      ExternalEvent.patchVpcStatus name status ∈ (handleAddOrUpdateVpcExpanded env x key).2.2 →
        ∃ (tr : List ExternalEvent) (listerVpc : VpcObject),
          x.listerGetVpc tr key = Except.ok listerVpc ∧ name = listerVpc.Name ∧
          status = { listerVpc.Status with EnableExternal := listerVpc.Spec.EnableExternal } ∧
          status.Router = listerVpc.Status.Router ∧
          status.VpcPeerings = listerVpc.Status.VpcPeerings) := by
  unfold handleAddOrUpdateVpcExpanded
  rw [h]
  simp only
  obtain ⟨e0, he0, hb⟩ := emits_reconcileBackend env key cachedVpc []
  unfold Act.bind
  cases hr : reconcileBackend env key cachedVpc [] with
  | mk r t1 =>
    rw [hr] at he0
    simp only [List.nil_append] at he0
    have hnot : ∀ name status, Event.patchVpcStatus name status ∉ t1 := by
      intro name status hm
      rw [he0] at hm
      have := hb _ hm
      simp [Event.isBackend] at this
    cases r with
    | fail e => exact ⟨fun n st hm => absurd hm (hnot n st), fun n st hm => by simp at hm⟩
    | panic p => exact ⟨fun n st hm => absurd hm (hnot n st), fun n st hm => by simp at hm⟩
    | ok vpc =>
      simp only
      obtain ⟨hname, hrouter, hpeer, hcreate⟩ :=
        reconcileBackend_ok env key cachedVpc vpc _ _ hr
      obtain ⟨ext, h1, h2⟩ := emits_publishVpcHead
        (fun e => ∀ n st, e = Event.patchVpcStatus n st → n = vpc.Name ∧ st = vpc.Status)
        env key vpc
        (by intro n st hq; injection hq with ha hb; exact ⟨ha.symm, hb.symm⟩)
        (by intro v n st hq; cases hq) (by intro v n st hq; cases hq)
        (by intro k n st hq; cases hq) t1
      cases hp : publishVpcHead env key vpc t1 with
      | mk r2 t2 =>
        rw [hp] at h1
        simp only at h1
        have hown : ∀ name status, Event.patchVpcStatus name status ∈ t2 →
            name = cachedVpc.Name ∧ status.Router = key ∧
            (cachedVpc.Name = key → status.Router = name) ∧
            (∃ pre post, t2 = pre ++ Event.patchVpcStatus name status :: post ∧
              Event.createLogicalRouter status.Router ∈ pre) ∧
            status.VpcPeerings = cachedVpc.Spec.VpcPeerings.map (fun p => p.RemoteVpc) := by
          intro name status hm
          rw [h1] at hm
          rcases List.mem_append.1 hm with hm | hm
          · exact absurd hm (hnot name status)
          · obtain ⟨hn, hs⟩ := h2 _ hm name status rfl
            obtain ⟨a, b, hab⟩ := List.append_of_mem hm
            subst hn hs
            refine ⟨hname, hrouter, ?_, ⟨t1 ++ a, b, ?_, ?_⟩, hpeer⟩
            · intro hk; rw [hrouter, hname, hk]
            · rw [h1, hab, List.append_assoc]
            · rw [hrouter]; exact List.mem_append_left _ hcreate
        cases r2 with
        | fail e => exact ⟨hown, fun n st hm => by simp at hm⟩
        | panic p => exact ⟨hown, fun n st hm => by simp at hm⟩
        | ok u =>
          obtain ⟨xext, h3, h4⟩ := xemits_reconcileExternalExpanded
            (fun e => ∀ n st, e = ExternalEvent.patchVpcStatus n st →
              ∃ (tr : List ExternalEvent) (listerVpc : VpcObject),
                x.listerGetVpc tr key = Except.ok listerVpc ∧ n = listerVpc.Name ∧
                st = { listerVpc.Status with
                  EnableExternal := listerVpc.Spec.EnableExternal } ∧
                st.Router = listerVpc.Status.Router ∧
                st.VpcPeerings = listerVpc.Status.VpcPeerings)
            env x key cachedVpc
            (by
              intro tr v hv n st hq
              injection hq with ha hb
              exact ⟨tr, v, hv, ha.symm, hb.symm, by rw [← hb], by rw [← hb]⟩)
            (by intro e he n st hq; exact absurd hq (he n st)) []
          cases hre : reconcileExternalExpanded env x key cachedVpc [] with
          | mk r3 xtr =>
            rw [hre] at h3
            simp only [List.nil_append] at h3
            have hext : ∀ name status, ExternalEvent.patchVpcStatus name status ∈ xtr →
                ∃ (tr : List ExternalEvent) (listerVpc : VpcObject),
                  x.listerGetVpc tr key = Except.ok listerVpc ∧ name = listerVpc.Name ∧
                  status = { listerVpc.Status with
                    EnableExternal := listerVpc.Spec.EnableExternal } ∧
                  status.Router = listerVpc.Status.Router ∧
                  status.VpcPeerings = listerVpc.Status.VpcPeerings := by
              intro name status hm
              rw [h3] at hm
              exact h4 _ hm name status rfl
            cases r3 <;> exact ⟨hown, hext⟩

theorem handleAddOrUpdateVpcExpanded_status_patch_witness :
    (∀ name status,
      Event.patchVpcStatus name status ∈
          (handleAddOrUpdateVpcExpanded
            (sampleEnv (sampleVpcObject "vpc1" true)
              (Except.error ⟨"subnet join not found", true⟩) [])
            (sampleExternalEnv
              ⟨"vpc1", [], [], ⟨[], [], none, [], true⟩,
                ⟨false, "vpc1", true, [], [], "", "", "", "", "", false⟩⟩) "vpc1").2.1 →
        name = (sampleVpcObject "vpc1" true).Name ∧ status.Router = "vpc1" ∧
        ((sampleVpcObject "vpc1" true).Name = "vpc1" → status.Router = name) ∧
        (∃ pre post,
          (handleAddOrUpdateVpcExpanded
            (sampleEnv (sampleVpcObject "vpc1" true)
              (Except.error ⟨"subnet join not found", true⟩) [])
            (sampleExternalEnv
              ⟨"vpc1", [], [], ⟨[], [], none, [], true⟩,
                ⟨false, "vpc1", true, [], [], "", "", "", "", "", false⟩⟩) "vpc1").2.1 =
            pre ++ Event.patchVpcStatus name status :: post ∧
          Event.createLogicalRouter status.Router ∈ pre) ∧
        status.VpcPeerings =
          (sampleVpcObject "vpc1" true).Spec.VpcPeerings.map (fun p => p.RemoteVpc)) ∧
    (∀ name status,
      ExternalEvent.patchVpcStatus name status ∈
          (handleAddOrUpdateVpcExpanded
            (sampleEnv (sampleVpcObject "vpc1" true)
              (Except.error ⟨"subnet join not found", true⟩) [])
            (sampleExternalEnv
              ⟨"vpc1", [], [], ⟨[], [], none, [], true⟩,
                ⟨false, "vpc1", true, [], [], "", "", "", "", "", false⟩⟩) "vpc1").2.2 →
        ∃ (tr : List ExternalEvent) (listerVpc : VpcObject),
          (sampleExternalEnv
              ⟨"vpc1", [], [], ⟨[], [], none, [], true⟩,
                ⟨false, "vpc1", true, [], [], "", "", "", "", "", false⟩⟩).listerGetVpc
            tr "vpc1" = Except.ok listerVpc ∧ name = listerVpc.Name ∧
          status = { listerVpc.Status with EnableExternal := listerVpc.Spec.EnableExternal } ∧
          status.Router = listerVpc.Status.Router ∧
          status.VpcPeerings = listerVpc.Status.VpcPeerings) :=
  handleAddOrUpdateVpcExpanded_status_patch
    (sampleEnv (sampleVpcObject "vpc1" true) (Except.error ⟨"subnet join not found", true⟩) [])
    (sampleExternalEnv
      ⟨"vpc1", [], [], ⟨[], [], none, [], true⟩,
        ⟨false, "vpc1", true, [], [], "", "", "", "", "", false⟩⟩)
    "vpc1" (sampleVpcObject "vpc1" true) rfl

/-- C21, counterexample: a first pass on the VPC `vpc1`, which declares external
connectivity, while the lister still holds the copy of the VPC from before the
pass, whose status records no router. The pass returns nil; its own patch
carries the router name `vpc1`; the patch `handleAddVpcExternal` then sends
carries the status of the lister's copy with the external flag set, and its
router name is empty. -/
theorem handleAddOrUpdateVpcExpanded_stale_patch :
    (handleAddOrUpdateVpcExpanded
      (sampleEnv (sampleVpcObject "vpc1" true) (Except.error ⟨"subnet join not found", true⟩) [])
      (sampleExternalEnv (sampleVpcObject "vpc1" true)) "vpc1").1 = Outcome.returned none ∧
    Event.patchVpcStatus "vpc1" ⟨false, "vpc1", true, [], [], "", "", "", "", "", false⟩ ∈
      (handleAddOrUpdateVpcExpanded
        (sampleEnv (sampleVpcObject "vpc1" true)
          (Except.error ⟨"subnet join not found", true⟩) [])
        (sampleExternalEnv (sampleVpcObject "vpc1" true)) "vpc1").2.1 ∧
    ExternalEvent.patchVpcStatus "vpc1" ⟨false, "", false, [], [], "", "", "", "", "", true⟩ ∈
      (handleAddOrUpdateVpcExpanded
        (sampleEnv (sampleVpcObject "vpc1" true)
          (Except.error ⟨"subnet join not found", true⟩) [])
        (sampleExternalEnv (sampleVpcObject "vpc1" true)) "vpc1").2.2 ∧
    (⟨false, "", false, [], [], "", "", "", "", "", true⟩ : VpcStatus).Router ≠ "vpc1" := by
  decide

end KubeOvn
